import Mathlib

/-!
# Order, purchase-order and contract handlers of the marketplace API

A shallow embedding of `internal/handlers/order.go` (`CreateOrder`, `UpdateOrder`),
of `UpdatePurchaseOrder` (`internal/handlers/purchase.go`) and of `UpdateContract`
(`internal/handlers/contract.go`), together with the rows of `internal/models` they touch.

* The database is a value of type `Store`: one list of rows per table.  A transaction works
  on a copy of the store; `Rollback` keeps the store it started from and `Commit` installs the
  copy.  Handlers run one at a time.
* Of the embedded `gorm.Model` the rows keep the primary key `ID` and the soft-delete mark
  `DeletedAt` (queries skip soft-deleted rows); the bookkeeping columns `CreatedAt` and
  `UpdatedAt` are left out.
* Go `int` is the 64-bit signed integer: `+` and `-` are followed by `wrapInt`.
* Go `float64` is kept abstract (class `Float64`); the handlers only add, multiply and convert.
* What a handler takes from outside the source (the clock, the request validator of the web
  framework, failures reported by the database) is collected in `Env`.
-/

namespace MarketProGo

/-! ## Machine numbers and time -/

/-- Instants returned by `time.Now()`. -/
abbrev Time := Nat

/-- Largest value of Go `int` on the 64-bit target. -/
def maxInt : Int := 9223372036854775807

/-- Result of a Go `int` operation whose mathematical value is `x`: two's complement
wrap-around into `[-2^63, 2^63)`. -/
def wrapInt (x : Int) : Int :=
  (x + 9223372036854775808) % 18446744073709551616 - 9223372036854775808

/-- The `float64` operations the handlers use. -/
class Float64 (F : Type) where
  /-- The zero value of a `float64` variable. -/
  zero : F
  /-- Floating-point addition. -/
  add : F → F → F
  /-- Floating-point multiplication. -/
  mul : F → F → F
  /-- The conversion `float64(n)` of an `int`. -/
  ofInt : Int → F

/-- Integers with exact arithmetic satisfy the interface; used to evaluate the handlers on
concrete stores. -/
instance : Float64 Int where
  zero := 0
  add := fun a b => a + b
  mul := fun a b => a * b
  ofInt := fun n => n

/-! ## Rows (`internal/models`) -/

def OrderStatusPending : String := "PENDING"
def OrderStatusProcessing : String := "PROCESSING"
def OrderStatusShipped : String := "SHIPPED"
def OrderStatusDelivered : String := "DELIVERED"
def OrderStatusCancelled : String := "CANCELLED"
def OrderStatusReturned : String := "RETURNED"

def PaymentStatusPending : String := "PENDING"
def PaymentStatusPaid : String := "PAID"
def PaymentStatusFailed : String := "FAILED"
def PaymentStatusRefunded : String := "REFUNDED"

/-- Row of `models.Product`: the primary key and soft-delete mark of `gorm.Model` and the
price read by the order handler. -/
structure Product (F : Type) where
  ID : Nat
  DeletedAt : Option Time
  BasePrice : F
  deriving DecidableEq, Repr

/-- Row of `models.InventoryItem`. -/
structure InventoryItem where
  ID : Nat
  DeletedAt : Option Time
  ProductID : Nat
  WarehouseID : Nat
  Quantity : Int
  Reserved : Int
  Status : String
  deriving DecidableEq, Repr

/-- Row of `models.Order`.  `Status` and `PaymentStatus` are Go string types. -/
structure Order (F : Type) where
  ID : Nat
  DeletedAt : Option Time
  OrderNumber : String
  UserID : Nat
  CompanyID : Option Nat
  Status : String
  PaymentStatus : String
  TotalAmount : F
  TaxAmount : F
  ShippingAmount : F
  DiscountAmount : F
  FinalAmount : F
  ShippingAddressID : Nat
  ShippingMethod : String
  TrackingNumber : String
  PaymentMethod : String
  PaymentReference : String
  PaymentDate : Option Time
  CustomerNotes : String
  AdminNotes : String
  OrderDate : Time
  ShippedDate : Option Time
  DeliveredDate : Option Time
  deriving DecidableEq, Repr

/-- Row of `models.OrderItem`. -/
structure OrderItem (F : Type) where
  ID : Nat
  DeletedAt : Option Time
  OrderID : Nat
  ProductID : Nat
  Quantity : Int
  UnitPrice : F
  TaxAmount : F
  DiscountAmount : F
  TotalAmount : F
  InventoryItemID : Option Nat
  Status : String
  deriving DecidableEq, Repr

def POStatusDraft : String := "DRAFT"
def POStatusPending : String := "PENDING"
def POStatusApproved : String := "APPROVED"
def POStatusOrdered : String := "ORDERED"
def POStatusShipped : String := "SHIPPED"
def POStatusReceived : String := "RECEIVED"
def POStatusCancelled : String := "CANCELLED"

def ContractStatusDraft : String := "DRAFT"
def ContractStatusActive : String := "ACTIVE"
def ContractStatusPaused : String := "PAUSED"
def ContractStatusExpired : String := "EXPIRED"
def ContractStatusCancelled : String := "CANCELLED"

/-- The zero value of `time.Time`, the one for which `IsZero` holds. -/
def zeroTime : Time := 0

/-- Row of `models.PurchaseOrder` (`internal/models/purchase.go`). -/
structure PurchaseOrder (F : Type) where
  ID : Nat
  DeletedAt : Option Time
  PONumber : String
  SupplierID : Nat
  Status : String
  OrderDate : Time
  ExpectedDate : Time
  Currency : String
  ExchangeRate : F
  TotalAmount : F
  TaxAmount : F
  ShippingAmount : F
  FinalAmount : F
  ShippingMethod : String
  ContainerNumber : String
  TrackingNumber : String
  Notes : String
  InternalNotes : String
  ApprovedDate : Option Time
  ShippedDate : Option Time
  ReceivedDate : Option Time
  deriving DecidableEq, Repr

/-- Row of `models.POItem`; `Status` is one of pending, partial, complete. -/
structure POItem (F : Type) where
  ID : Nat
  DeletedAt : Option Time
  POID : Nat
  ProductID : Nat
  Quantity : Int
  UnitPrice : F
  TaxAmount : F
  TotalAmount : F
  ReceivedQuantity : Int
  Status : String
  deriving DecidableEq, Repr

/-- Row of `models.Contract` (`internal/models/contract.go`). -/
structure Contract where
  ID : Nat
  DeletedAt : Option Time
  ContractNumber : String
  CompanyID : Nat
  Status : String
  StartDate : Time
  EndDate : Time
  AutoRenew : Bool
  RenewalPeriod : Int
  PaymentTerms : Int
  Notes : String
  deriving DecidableEq, Repr

/-- Row of `models.ContractItem`. -/
structure ContractItem (F : Type) where
  ID : Nat
  DeletedAt : Option Time
  ContractID : Nat
  ProductID : Nat
  Quantity : Int
  UnitPrice : F
  TaxAmount : F
  TotalAmount : F
  IsActive : Bool
  deriving DecidableEq, Repr

/-- Row of `models.ContractSchedule`; the pointer fields are options. -/
structure ContractSchedule where
  ID : Nat
  DeletedAt : Option Time
  ContractID : Nat
  Frequency : String
  DayOfWeek : Option Int
  DayOfMonth : Option Int
  TimeOfDay : String
  LastGenerated : Option Time
  NextGeneration : Option Time
  IsActive : Bool
  deriving DecidableEq, Repr

/-- The tables read and written by the handlers. -/
structure Store (F : Type) where
  products : List (Product F)
  inventory : List InventoryItem
  orders : List (Order F)
  orderItems : List (OrderItem F)
  purchaseOrders : List (PurchaseOrder F) := []
  poItems : List (POItem F) := []
  contracts : List Contract := []
  contractItems : List (ContractItem F) := []
  contractSchedules : List ContractSchedule := []
  deriving DecidableEq, Repr

/-! ## Requests and responses (`internal/handlers/order.go`) -/

structure OrderItemRequest where
  ProductID : Nat
  Quantity : Int
  deriving DecidableEq, Repr

structure CreateOrderRequest where
  ShippingAddressID : Nat
  ShippingMethod : String
  PaymentMethod : String
  CustomerNotes : String
  Items : List OrderItemRequest
  deriving DecidableEq, Repr

structure UpdateOrderRequest where
  Status : String
  PaymentStatus : String
  AdminNotes : String
  deriving DecidableEq, Repr

/-- Request of `UpdatePurchaseOrder` (`internal/handlers/purchase.go`). -/
structure UpdatePurchaseOrderRequest where
  Status : String
  ExpectedDate : Time
  ContainerNumber : String
  TrackingNumber : String
  Notes : String
  InternalNotes : String
  deriving DecidableEq, Repr

/-- Request of `UpdateContract` (`internal/handlers/contract.go`). -/
structure UpdateContractRequest where
  Status : String
  AutoRenew : Bool
  PaymentTerms : Int
  Notes : String
  deriving DecidableEq, Repr

/-- Element of `CreatePurchaseOrderRequest.Items` (`internal/handlers/purchase.go`). -/
structure POItemRequest (F : Type) where
  ProductID : Nat
  Quantity : Int
  UnitPrice : F
  deriving DecidableEq, Repr

/-- The decoded body of `CreatePurchaseOrder`. -/
structure CreatePurchaseOrderRequest (F : Type) where
  SupplierID : Nat
  ExpectedDate : Time
  Currency : String
  ExchangeRate : F
  ShippingMethod : String
  Notes : String
  Items : List (POItemRequest F)
  deriving DecidableEq, Repr

/-- Element of `CreateContractRequest.Items` (`internal/handlers/contract.go`). -/
structure ContractItemRequest (F : Type) where
  ProductID : Nat
  Quantity : Int
  UnitPrice : F
  deriving DecidableEq, Repr

/-- The schedule of a `CreateContractRequest`: `DayOfWeek` is meant as 0-6, `DayOfMonth` as
1-31, `TimeOfDay` as HH:MM. -/
structure ContractScheduleRequest where
  Frequency : String
  DayOfWeek : Option Int
  DayOfMonth : Option Int
  TimeOfDay : String
  deriving DecidableEq, Repr

/-- The decoded body of `CreateContract`; `Schedule` is a pointer in the source. -/
structure CreateContractRequest (F : Type) where
  CompanyID : Nat
  StartDate : Time
  EndDate : Time
  AutoRenew : Bool
  RenewalPeriod : Int
  PaymentTerms : Int
  Notes : String
  Items : List (ContractItemRequest F)
  Schedule : Option ContractScheduleRequest
  deriving DecidableEq, Repr

/-- The JSON body handed to `c.JSON`: `{"error": ...}`, or `{"message": ...}` together with
the order, purchase order or contract; a contract just created is shown with the schedule its
`Schedule` field points to. -/
inductive Body (F : Type) where
  | error (msg : String)
  | order (message : String) (order : Order F)
  | purchaseOrder (message : String) (po : PurchaseOrder F)
  | contract (message : String) (contract : Contract)
  | contractWithSchedule (message : String) (contract : Contract)
      (schedule : Option ContractSchedule)
  deriving DecidableEq, Repr

/-- The HTTP answer of a handler. -/
structure Response (F : Type) where
  status : Nat
  body : Body F
  deriving DecidableEq, Repr

def StatusOK : Nat := 200
def StatusCreated : Nat := 201
def StatusBadRequest : Nat := 400
def StatusNotFound : Nat := 404
def StatusInternalServerError : Nat := 500

/-- What the handlers take from outside the source. -/
structure Env where
  /-- Value of `time.Now()` during the call. -/
  now : Time
  /-- Outcome of `c.ShouldBindJSON(&req)` in `CreateOrder` on the decoded request: the error
  text when the validator of the web framework rejects it. -/
  bindError : CreateOrderRequest → Option String
  /-- Whether `tx.Save(&inventory)` reports an error at the line with this index. -/
  saveInventoryFails : Nat → Bool
  /-- Whether `tx.Create(&order)` reports an error for a reason other than the unique index on
  the order number. -/
  createOrderFails : Bool
  /-- Whether `tx.Create(&items[i])` reports an error. -/
  createOrderItemFails : Nat → Bool
  /-- Whether `tx.Commit()` fails, leaving the transaction unapplied. -/
  commitFails : Bool
  /-- Whether `Save(&order)` in `UpdateOrder` reports an error. -/
  saveOrderFails : Bool
  /-- Whether `Save(&po)` in `UpdatePurchaseOrder` reports an error. -/
  savePurchaseOrderFails : Bool := false
  /-- Whether `Save(&contract)` in `UpdateContract` reports an error. -/
  saveContractFails : Bool := false
  /-- Outcome of `c.ShouldBindJSON(&req)` in `CreatePurchaseOrder` during the call: the error
  text when the body is rejected. -/
  bindPurchaseOrderError : Option String := none
  /-- Whether `tx.Create(&po)` reports an error for a reason other than the unique index on
  the purchase order number. -/
  createPurchaseOrderFails : Bool := false
  /-- Whether `tx.Create(&items[i])` in `CreatePurchaseOrder` reports an error. -/
  createPOItemFails : Nat → Bool := fun _ => false
  /-- Outcome of `c.ShouldBindJSON(&req)` in `CreateContract` during the call. -/
  bindContractError : Option String := none
  /-- Whether `tx.Create(&contract)` reports an error for a reason other than the unique index
  on the contract number. -/
  createContractFails : Bool := false
  /-- Whether `tx.Create(&items[i])` in `CreateContract` reports an error. -/
  createContractItemFails : Nat → Bool := fun _ => false

/-! ## Database statements -/

/-- Lowest primary key first: the row returned by `First` among the candidates. -/
def lowestID : List InventoryItem → Option InventoryItem
  | [] => none
  | r :: rs =>
    match lowestID rs with
    | none => some r
    | some m => if r.ID ≤ m.ID then some r else some m

/-- The query `tx.First(&product, id)`: the product with this primary key that is not
soft-deleted. -/
def firstProduct {F : Type} (tx : Store F) (id : Nat) : Option (Product F) :=
  tx.products.find? (fun p => decide (p.ID = id) && decide (p.DeletedAt = none))

/-- The query `tx.Where("product_id = ? AND status = 'active'", productID).First(&inventory)`. -/
def firstActiveInventory (rows : List InventoryItem) (productID : Nat) : Option InventoryItem :=
  lowestID (rows.filter (fun r =>
    decide (r.ProductID = productID) && decide (r.Status = "active") && decide (r.DeletedAt = none)))

/-- The statement `tx.Save(&inventory)`: every column of the row with this primary key is
overwritten. -/
def saveInventory {F : Type} (tx : Store F) (inventory : InventoryItem) : Store F :=
  { tx with inventory := tx.inventory.map (fun r =>
      if r.ID = inventory.ID ∧ r.DeletedAt = none then inventory else r) }

/-- The primary key given to an inserted row: larger than every key in the table. -/
def nextID (ids : List Nat) : Nat := ids.foldl max 0 + 1

/-- The statement `tx.Create(&order)`: fails on the unique index of `order_number` (which
also covers soft-deleted rows) or when the database reports another error; otherwise the row
is inserted under a fresh primary key, which is written back into `order`. -/
def createOrder {F : Type} (env : Env) (tx : Store F) (order : Order F) :
    Option (Store F × Order F) :=
  if tx.orders.any (fun o => decide (o.OrderNumber = order.OrderNumber)) || env.createOrderFails then
    none
  else
    let order := { order with ID := nextID (tx.orders.map (fun o => o.ID)) }
    some ({ tx with orders := tx.orders ++ [order] }, order)

/-- The statement `tx.Create(&items[i])`; the column default `'active'` fills the empty status. -/
def createOrderItem {F : Type} (tx : Store F) (item : OrderItem F) : Store F :=
  let item := { item with
    ID := nextID (tx.orderItems.map (fun o => o.ID))
    Status := if item.Status = "" then "active" else item.Status }
  { tx with orderItems := tx.orderItems ++ [item] }

/-- The query `database.GetDB().First(&order, id)`. -/
def firstOrder {F : Type} (s : Store F) (id : Nat) : Option (Order F) :=
  s.orders.find? (fun o => decide (o.ID = id) && decide (o.DeletedAt = none))

/-- The statement `database.GetDB().Save(&order)`. -/
def saveOrder {F : Type} (s : Store F) (order : Order F) : Store F :=
  { s with orders := s.orders.map (fun o =>
      if o.ID = order.ID ∧ o.DeletedAt = none then order else o) }

/-! ## `CreateOrder` -/

/-- The call `c.JSON(status, gin.H{"error": msg})`. -/
def errorResponse {F : Type} (status : Nat) (msg : String) : Response F :=
  { status := status, body := Body.error msg }

/-- Local variables of the loop over `req.Items`: the transaction, `totalAmount`, `items`. -/
structure LineState (F : Type) where
  tx : Store F
  totalAmount : F
  items : List (OrderItem F)
  deriving DecidableEq, Repr

/-- The literal `orderItem := models.OrderItem{...}` (order.go lines 126-133); fields not
listed there hold their zero value. -/
def newOrderItem {F : Type} [Float64 F] (product : Product F) (inventory : InventoryItem)
    (itemReq : OrderItemRequest) : OrderItem F :=
  { ID := 0
    DeletedAt := none
    OrderID := 0
    ProductID := product.ID
    Quantity := itemReq.Quantity
    UnitPrice := product.BasePrice
    TaxAmount := Float64.zero
    DiscountAmount := Float64.zero
    TotalAmount := Float64.mul product.BasePrice (Float64.ofInt itemReq.Quantity)
    InventoryItemID := some inventory.ID
    Status := "" }

/-- One iteration of the loop over `req.Items` (order.go lines 101-146).  `Except.error`
carries the response sent after `tx.Rollback()`. -/
def processLine {F : Type} [Float64 F] (env : Env) (i : Nat) (st : LineState F)
    (itemReq : OrderItemRequest) : Except (Response F) (LineState F) :=
  match firstProduct st.tx itemReq.ProductID with
  | none => Except.error (errorResponse StatusBadRequest "Product not found")
  | some product =>
    match firstActiveInventory st.tx.inventory product.ID with
    | none => Except.error (errorResponse StatusBadRequest "Product out of stock")
    | some inventory =>
      if wrapInt (inventory.Quantity - inventory.Reserved) < itemReq.Quantity then
        Except.error (errorResponse StatusBadRequest "Insufficient stock")
      else
        let orderItem := newOrderItem product inventory itemReq
        let inventory := { inventory with Reserved := wrapInt (inventory.Reserved + itemReq.Quantity) }
        if env.saveInventoryFails i then
          Except.error (errorResponse StatusInternalServerError "Failed to create order")
        else
          Except.ok
            { tx := saveInventory st.tx inventory
              totalAmount := Float64.add st.totalAmount orderItem.TotalAmount
              items := st.items ++ [orderItem] }

/-- The loop over `req.Items`, from the line with index `i`. -/
def processLines {F : Type} [Float64 F] (env : Env) :
    Nat → LineState F → List OrderItemRequest → Except (Response F) (LineState F)
  | _, st, [] => Except.ok st
  | i, st, itemReq :: rest =>
    match processLine env i st itemReq with
    | Except.error resp => Except.error resp
    | Except.ok st1 => processLines env (i + 1) st1 rest

/-- The loop `for i := range items` (order.go lines 160-168); `none` when a `Create` fails. -/
def createOrderItems {F : Type} (env : Env) (orderID : Nat) :
    Nat → Store F → List (OrderItem F) → Option (Store F)
  | _, tx, [] => some tx
  | i, tx, item :: rest =>
    if env.createOrderItemFails i then none
    else createOrderItems env orderID (i + 1) (createOrderItem tx { item with OrderID := orderID }) rest

/-- The literal `order := models.Order{...}` (order.go lines 79-95); fields not listed there
hold their zero value. -/
def newOrder {F : Type} [Float64 F] (env : Env) (req : CreateOrderRequest) : Order F :=
  let userID : Nat := 1
  { ID := 0
    DeletedAt := none
    OrderNumber := ""
    UserID := userID
    CompanyID := none
    Status := OrderStatusPending
    PaymentStatus := PaymentStatusPending
    TotalAmount := Float64.zero
    TaxAmount := Float64.zero
    ShippingAmount := Float64.zero
    DiscountAmount := Float64.zero
    FinalAmount := Float64.zero
    ShippingAddressID := req.ShippingAddressID
    ShippingMethod := req.ShippingMethod
    TrackingNumber := ""
    PaymentMethod := req.PaymentMethod
    PaymentReference := ""
    PaymentDate := none
    CustomerNotes := req.CustomerNotes
    AdminNotes := ""
    OrderDate := env.now
    ShippedDate := none
    DeliveredDate := none }

/-- The handler `CreateOrder` (order.go lines 72-176): the response and the store left behind. -/
def CreateOrder {F : Type} [Float64 F] (env : Env) (s : Store F) (req : CreateOrderRequest) :
    Response F × Store F :=
  match env.bindError req with
  | some err => (errorResponse StatusBadRequest err, s)
  | none =>
    -- tx := database.GetDB().Begin()
    let tx := s
    let order := newOrder env req
    match processLines env 0 { tx := tx, totalAmount := Float64.zero, items := [] } req.Items with
    | Except.error resp => (resp, s) -- after tx.Rollback()
    | Except.ok st =>
      let order := { order with TotalAmount := st.totalAmount, FinalAmount := st.totalAmount }
      match createOrder env st.tx order with
      | none => -- after tx.Rollback()
        (errorResponse StatusInternalServerError "Failed to create order", s)
      | some (tx1, order) =>
        match createOrderItems env order.ID 0 tx1 st.items with
        | none => -- after tx.Rollback()
          (errorResponse StatusInternalServerError "Failed to create order", s)
        | some tx2 =>
          -- tx.Commit(): its error is not inspected
          ({ status := StatusCreated, body := Body.order "Order created successfully" order },
            if env.commitFails then s else tx2)

/-! ## `UpdateOrder` -/

/-- The assignments of `UpdateOrder` between loading and saving the order (order.go lines
193-212): the request fields that are not empty overwrite the order, then the date of entering
`SHIPPED` or `DELIVERED` is stamped if it is still `nil`. -/
def updateFields {F : Type} (env : Env) (order : Order F) (req : UpdateOrderRequest) : Order F :=
  let order := if req.Status ≠ "" then { order with Status := req.Status } else order
  let order :=
    if req.PaymentStatus ≠ "" then { order with PaymentStatus := req.PaymentStatus } else order
  let order := if req.AdminNotes ≠ "" then { order with AdminNotes := req.AdminNotes } else order
  let order :=
    if order.Status = OrderStatusShipped ∧ order.ShippedDate = none then
      { order with ShippedDate := some env.now }
    else order
  let order :=
    if order.Status = OrderStatusDelivered ∧ order.DeliveredDate = none then
      { order with DeliveredDate := some env.now }
    else order
  order

/-- The handler `UpdateOrder` (order.go lines 178-224) for the order addressed by `id`: the
response and the store left behind.  The request is taken as decoded: its fields carry no
binding rule, so `ShouldBindJSON` only rejects a body that is not JSON of this shape (400,
before the store is read). -/
def UpdateOrder {F : Type} (env : Env) (s : Store F) (id : Nat) (req : UpdateOrderRequest) :
    Response F × Store F :=
  match firstOrder s id with
  | none => (errorResponse StatusNotFound "Order not found", s)
  | some order =>
    let order := updateFields env order req
    if env.saveOrderFails then
      (errorResponse StatusInternalServerError "Failed to update order", s)
    else
      ({ status := StatusOK, body := Body.order "Order updated successfully" order },
        saveOrder s order)

/-! ## `UpdatePurchaseOrder` -/

/-- The query `database.GetDB().First(&po, id)`. -/
def firstPurchaseOrder {F : Type} (s : Store F) (id : Nat) : Option (PurchaseOrder F) :=
  s.purchaseOrders.find? (fun po => decide (po.ID = id) && decide (po.DeletedAt = none))

/-- The statement `database.GetDB().Save(&po)`. -/
def savePurchaseOrder {F : Type} (s : Store F) (po : PurchaseOrder F) : Store F :=
  { s with purchaseOrders := s.purchaseOrders.map (fun r =>
      if r.ID = po.ID ∧ r.DeletedAt = none then po else r) }

/-- The assignments of `UpdatePurchaseOrder` between loading and saving the purchase order
(purchase.go lines 167-195): the request fields that are not empty overwrite the purchase
order, then the date of entering `SHIPPED` or `RECEIVED` is stamped if it is still `nil`. -/
def updatePurchaseOrderFields {F : Type} (env : Env) (po : PurchaseOrder F)
    (req : UpdatePurchaseOrderRequest) : PurchaseOrder F :=
  let po := if req.Status ≠ "" then { po with Status := req.Status } else po
  let po := if ¬ req.ExpectedDate = zeroTime then { po with ExpectedDate := req.ExpectedDate } else po
  let po :=
    if req.ContainerNumber ≠ "" then { po with ContainerNumber := req.ContainerNumber } else po
  let po :=
    if req.TrackingNumber ≠ "" then { po with TrackingNumber := req.TrackingNumber } else po
  let po := if req.Notes ≠ "" then { po with Notes := req.Notes } else po
  let po := if req.InternalNotes ≠ "" then { po with InternalNotes := req.InternalNotes } else po
  let po :=
    if po.Status = POStatusShipped ∧ po.ShippedDate = none then
      { po with ShippedDate := some env.now }
    else po
  let po :=
    if po.Status = POStatusReceived ∧ po.ReceivedDate = none then
      { po with ReceivedDate := some env.now }
    else po
  po

/-- The handler `UpdatePurchaseOrder` (purchase.go lines 152-207) for the purchase order
addressed by `id`: the response and the store left behind.  The request is taken as decoded;
its fields carry no binding rule. -/
def UpdatePurchaseOrder {F : Type} (env : Env) (s : Store F) (id : Nat)
    (req : UpdatePurchaseOrderRequest) : Response F × Store F :=
  match firstPurchaseOrder s id with
  | none => (errorResponse StatusNotFound "Purchase order not found", s)
  | some po =>
    let po := updatePurchaseOrderFields env po req
    if env.savePurchaseOrderFails then
      (errorResponse StatusInternalServerError "Failed to update purchase order", s)
    else
      ({ status := StatusOK
         body := Body.purchaseOrder "Purchase order updated successfully" po },
        savePurchaseOrder s po)

/-! ## `UpdateContract` -/

/-- The query `database.GetDB().First(&contract, id)`. -/
def firstContract {F : Type} (s : Store F) (id : Nat) : Option Contract :=
  s.contracts.find? (fun c => decide (c.ID = id) && decide (c.DeletedAt = none))

/-- The statement `database.GetDB().Save(&contract)`. -/
def saveContract {F : Type} (s : Store F) (contract : Contract) : Store F :=
  { s with contracts := s.contracts.map (fun r =>
      if r.ID = contract.ID ∧ r.DeletedAt = none then contract else r) }

/-- The assignments of `UpdateContract` between loading and saving the contract (contract.go
lines 184-196). -/
def updateContractFields (contract : Contract) (req : UpdateContractRequest) : Contract :=
  let contract := if req.Status ≠ "" then { contract with Status := req.Status } else contract
  let contract := if req.AutoRenew then { contract with AutoRenew := req.AutoRenew } else contract
  let contract :=
    if req.PaymentTerms > 0 then { contract with PaymentTerms := req.PaymentTerms } else contract
  let contract := if req.Notes ≠ "" then { contract with Notes := req.Notes } else contract
  contract

/-- The handler `UpdateContract` (contract.go lines 169-208) for the contract addressed by
`id`: the response and the store left behind.  The request is taken as decoded; its fields
carry no binding rule. -/
def UpdateContract {F : Type} (env : Env) (s : Store F) (id : Nat)
    (req : UpdateContractRequest) : Response F × Store F :=
  match firstContract s id with
  | none => (errorResponse StatusNotFound "Contract not found", s)
  | some contract =>
    let contract := updateContractFields contract req
    if env.saveContractFails then
      (errorResponse StatusInternalServerError "Failed to update contract", s)
    else
      ({ status := StatusOK, body := Body.contract "Contract updated successfully" contract },
        saveContract s contract)

/-! ## Concrete data used for evaluation -/

/-- An environment in which the validator accepts every request and no statement fails. -/
def quietEnv (now : Time) : Env :=
  { now := now
    bindError := fun _ => none
    saveInventoryFails := fun _ => false
    createOrderFails := false
    createOrderItemFails := fun _ => false
    commitFails := false
    saveOrderFails := false }

/-- An active inventory row of product 1 holding 10 units, `reserved` of them reserved. -/
def demoItem (reserved : Int) : InventoryItem :=
  { ID := 1, DeletedAt := none, ProductID := 1, WarehouseID := 1,
    Quantity := 10, Reserved := reserved, Status := "active" }

/-- A store with one product (id 1, price 4) and one active inventory row holding 10 units,
`reserved` of them reserved. -/
def demoStoreWith (reserved : Int) : Store Int :=
  { products := [{ ID := 1, DeletedAt := none, BasePrice := 4 }]
    inventory := [demoItem reserved]
    orders := []
    orderItems := [] }

/-- The demo store with nothing reserved. -/
def demoStore : Store Int := demoStoreWith 0

/-- A request with the given lines. -/
def demoRequestOf (lines : List OrderItemRequest) : CreateOrderRequest :=
  { ShippingAddressID := 1, ShippingMethod := "standard", PaymentMethod := "card",
    CustomerNotes := "", Items := lines }

/-- A request for `qty` units of product `productID`. -/
def demoRequest (productID : Nat) (qty : Int) : CreateOrderRequest :=
  demoRequestOf [{ ProductID := productID, Quantity := qty }]

/-- The order item built for a line of `qty` units of product 1 of the demo store. -/
def demoOrderItem (qty : Int) : OrderItem Int :=
  { ID := 0, DeletedAt := none, OrderID := 0, ProductID := 1, Quantity := qty,
    UnitPrice := 4, TaxAmount := 0, DiscountAmount := 0, TotalAmount := 4 * qty,
    InventoryItemID := some 1, Status := "" }

/-- A store with two products, each with one active inventory row: product 1 holds 10 units,
none reserved; product 2 holds 5 units, 1 reserved. -/
def demoStoreTwo : Store Int :=
  { products := [{ ID := 1, DeletedAt := none, BasePrice := 4 },
                 { ID := 2, DeletedAt := none, BasePrice := 9 }]
    inventory := [demoItem 0,
                  { ID := 2, DeletedAt := none, ProductID := 2, WarehouseID := 1,
                    Quantity := 5, Reserved := 1, Status := "active" }]
    orders := []
    orderItems := [] }

/-- An order as `CreateOrder` persists it first on an empty table: id 1, `PENDING`. -/
def demoOrder : Order Int :=
  { (newOrder (quietEnv 5) (demoRequest 1 7) : Order Int) with
    ID := 1, TotalAmount := 28, FinalAmount := 28 }

/-- A store holding `demoOrder` and the stock reserved for it. -/
def demoOrderStore : Store Int :=
  { demoStoreWith 7 with orders := [demoOrder] }

/-- A request that only asks for a status. -/
def statusRequest (status : String) : UpdateOrderRequest :=
  { Status := status, PaymentStatus := "", AdminNotes := "" }

/-! ## Predicates used in the statements -/

/-- The three ways a request line fails when it is processed on the transaction state `tx`:
the product is absent, it has no active inventory row, or the requested quantity exceeds
`Quantity - Reserved` of the row that `First` returns. -/
def lineFails {F : Type} (tx : Store F) (l : OrderItemRequest) : Prop :=
  firstProduct tx l.ProductID = none ∨
  firstActiveInventory tx.inventory l.ProductID = none ∨
  ∃ inv, firstActiveInventory tx.inventory l.ProductID = some inv ∧
    wrapInt (inv.Quantity - inv.Reserved) < l.Quantity

/-- The ledger invariant `0 <= reserved <= quantity` on every inventory row. -/
def ledgerInvariant (rows : List InventoryItem) : Prop :=
  ∀ r ∈ rows, 0 ≤ r.Reserved ∧ r.Reserved ≤ r.Quantity

/-- Being a value of Go `int`. -/
def isInt (x : Int) : Prop := -maxInt - 1 ≤ x ∧ x ≤ maxInt

/-- The stored quantities are values of Go `int`. -/
def intColumns (rows : List InventoryItem) : Prop :=
  ∀ r ∈ rows, isInt r.Quantity ∧ isInt r.Reserved

/-- The ledger invariant together with the typing of the columns. -/
def ledgerOK (rows : List InventoryItem) : Prop :=
  ∀ r ∈ rows, 0 ≤ r.Reserved ∧ r.Reserved ≤ r.Quantity ∧ r.Quantity ≤ maxInt

/-- The quantity that the lines of a request reserve on the inventory row with primary key
`id`: the sum of the quantities of the lines for whose product `First` returns that row. -/
def reservedFor (rows : List InventoryItem) (lines : List OrderItemRequest) (id : Nat) : Int :=
  ((lines.filter (fun l =>
    decide ((firstActiveInventory rows l.ProductID).map (fun r => r.ID) = some id))).map
      (fun l => l.Quantity)).sum

/-- The row `r` with `d r.ID` added to its reserved count and nothing else changed. -/
def addReserved (d : Nat → Int) (r : InventoryItem) : InventoryItem :=
  { r with Reserved := r.Reserved + d r.ID }

/-- The Order table of the specification (section 4.3), written after its words:
Pending→Processing→Shipped→Delivered; Pending or Processing→Cancelled; Shipped or
Delivered→Returned.  The handler holds no such table; this one only serves to say which
requests the specification calls illegal. -/
def specOrderEdge (current target : String) : Bool :=
  (current == OrderStatusPending && target == OrderStatusProcessing) ||
  (current == OrderStatusProcessing && target == OrderStatusShipped) ||
  (current == OrderStatusShipped && target == OrderStatusDelivered) ||
  (current == OrderStatusPending && target == OrderStatusCancelled) ||
  (current == OrderStatusProcessing && target == OrderStatusCancelled) ||
  (current == OrderStatusShipped && target == OrderStatusReturned) ||
  (current == OrderStatusDelivered && target == OrderStatusReturned)

/-- The sum of the totals of order items as the handler accumulates it: `totalAmount` starts
at the zero value and `totalAmount += item.TotalAmount` runs over the items in order. -/
def sumTotals {F : Type} [Float64 F] (items : List (OrderItem F)) : F :=
  items.foldl (fun acc it => Float64.add acc it.TotalAmount) Float64.zero

/-- The row `p` is the order item `it` as `tx.Create` persists it for the order `orderID`:
the order id filled in, a primary key assigned, the empty status replaced by the column
default. -/
def persistedAs {F : Type} (orderID : Nat) (it p : OrderItem F) : Prop :=
  p = { it with OrderID := orderID, ID := p.ID,
                Status := if it.Status = "" then "active" else it.Status }


/-- The PurchaseOrder table of the specification (section 4.3), written after its words:
Draft→Pending→Approved→Ordered→Shipped→Received; any state before Shipped→Cancelled.  The
handler holds no such table; this one only serves to say which requests the specification
calls illegal. -/
def specPurchaseOrderEdge (current target : String) : Bool :=
  (current == POStatusDraft && target == POStatusPending) ||
  (current == POStatusPending && target == POStatusApproved) ||
  (current == POStatusApproved && target == POStatusOrdered) ||
  (current == POStatusOrdered && target == POStatusShipped) ||
  (current == POStatusShipped && target == POStatusReceived) ||
  ((current == POStatusDraft || current == POStatusPending || current == POStatusApproved ||
      current == POStatusOrdered) && target == POStatusCancelled)

/-- The Contract table of the specification (section 4.3), written after its words:
Draft→Active; Active↔Paused; Active→Expired; any non-terminal state→Cancelled.  The handler
holds no such table; this one only serves to say which requests the specification calls
illegal. -/
def specContractEdge (current target : String) : Bool :=
  (current == ContractStatusDraft && target == ContractStatusActive) ||
  (current == ContractStatusActive && target == ContractStatusPaused) ||
  (current == ContractStatusPaused && target == ContractStatusActive) ||
  (current == ContractStatusActive && target == ContractStatusExpired) ||
  ((current == ContractStatusDraft || current == ContractStatusActive ||
      current == ContractStatusPaused) && target == ContractStatusCancelled)

/-- A line of a purchase order is complete when its status says so; the specification ties
this to the received quantity having reached the ordered quantity. -/
def poItemComplete {F : Type} (item : POItem F) : Bool :=
  item.Status == "complete"

/-- A purchase order with id 1 in the given status and no date stamped. -/
def demoPurchaseOrder (status : String) : PurchaseOrder Int :=
  { ID := 1, DeletedAt := none, PONumber := "", SupplierID := 1, Status := status,
    OrderDate := 5, ExpectedDate := 20, Currency := "GBP", ExchangeRate := 1,
    TotalAmount := 20, TaxAmount := 0, ShippingAmount := 0, FinalAmount := 20,
    ShippingMethod := "sea", ContainerNumber := "", TrackingNumber := "", Notes := "",
    InternalNotes := "", ApprovedDate := none, ShippedDate := none, ReceivedDate := none }

/-- The only line of the demo purchase order: 5 units ordered, none received, `pending`. -/
def demoPOItem : POItem Int :=
  { ID := 1, DeletedAt := none, POID := 1, ProductID := 1, Quantity := 5, UnitPrice := 4,
    TaxAmount := 0, TotalAmount := 20, ReceivedQuantity := 0, Status := "pending" }

/-- The demo store with the demo purchase order in the given status and its line. -/
def demoPOStore (status : String) : Store Int :=
  { demoStore with purchaseOrders := [demoPurchaseOrder status], poItems := [demoPOItem] }

/-- A purchase-order request that only asks for a status. -/
def poStatusRequest (status : String) : UpdatePurchaseOrderRequest :=
  { Status := status, ExpectedDate := zeroTime, ContainerNumber := "", TrackingNumber := "",
    Notes := "", InternalNotes := "" }

/-- A contract with id 1 in the given status. -/
def demoContract (status : String) : Contract :=
  { ID := 1, DeletedAt := none, ContractNumber := "", CompanyID := 1, Status := status,
    StartDate := 5, EndDate := 400, AutoRenew := false, RenewalPeriod := 12,
    PaymentTerms := 30, Notes := "" }

/-- The demo store with the demo contract in the given status. -/
def demoContractStore (status : String) : Store Int :=
  { demoStore with contracts := [demoContract status] }

/-- A contract request that only asks for a status. -/
def contractStatusRequest (status : String) : UpdateContractRequest :=
  { Status := status, AutoRenew := false, PaymentTerms := 0, Notes := "" }


/-- The text reported for a field that fails a rule of its `binding` tag. -/
def bindingFailure (field tag : String) : String :=
  "Field validation for " ++ field ++ " failed on the " ++ tag ++ " tag"

/-- The check made by `c.ShouldBindJSON(&req)` on a decoded `CreateOrderRequest`: the rules of
the `binding` tags on the fields of the request struct (order.go lines 13-19).  `required`
refuses the zero value of a number or a string, and `required,min=1` on `Items` refuses a list
without elements.  The tags on the fields of `OrderItemRequest` (lines 21-24) would be applied
to the elements of `Items` only under a `dive` rule in the tag of `Items`; the tag has none, so
the lines are not looked at.  The failures are reported together, one per line of text. -/
def bindCreateOrderRequest (req : CreateOrderRequest) : Option String :=
  let failures : List String :=
    (if req.ShippingAddressID = 0 then [bindingFailure "ShippingAddressID" "required"] else []) ++
    (if req.ShippingMethod = "" then [bindingFailure "ShippingMethod" "required"] else []) ++
    (if req.PaymentMethod = "" then [bindingFailure "PaymentMethod" "required"] else []) ++
    (if req.Items.length < 1 then [bindingFailure "Items" "min"] else [])
  if failures.isEmpty then none else some (String.intercalate "\n" failures)

/-- The environment of a call in which no statement fails and requests are checked by
`bindCreateOrderRequest`. -/
def checkedEnv (now : Time) : Env :=
  { quietEnv now with bindError := bindCreateOrderRequest }


/-- The environment of a call in which the validator accepts the request and every statement
succeeds until `tx.Commit()`, which fails. -/
def commitFailsEnv (now : Time) : Env :=
  { quietEnv now with commitFails := true }


/-- A store in which product 1 has two active inventory rows: row 1 holds 2 units, row 2 holds
50 units, nothing reserved. -/
def demoStoreSplit : Store Int :=
  { products := [{ ID := 1, DeletedAt := none, BasePrice := 4 }]
    inventory := [{ demoItem 0 with Quantity := 2 },
                  { demoItem 0 with ID := 2, Quantity := 50 }]
    orders := []
    orderItems := [] }


/-- A request line passes on the store `s` after the earlier lines `pre` of the same request:
its product exists, the product has an active inventory row, and the quantity of that row minus
its reserved count, the reservations of the earlier lines on that row included, is at least the
requested quantity. -/
def linePasses {F : Type} (s : Store F) (pre : List OrderItemRequest) (l : OrderItemRequest) :
    Prop :=
  ∃ product inv, firstProduct s l.ProductID = some product ∧
    firstActiveInventory s.inventory l.ProductID = some inv ∧
    l.Quantity ≤ inv.Quantity - (inv.Reserved + reservedFor s.inventory pre inv.ID)

/-- Every line of the request passes, the lines taken in request order. -/
def allLinesPass {F : Type} (s : Store F) (lines : List OrderItemRequest) : Prop :=
  ∀ pre l post, lines = pre ++ l :: post → linePasses s pre l


/-! ## `CreatePurchaseOrder` -/

/-- The literal `item := models.POItem{...}` (purchase.go lines 110-116); fields not listed
there hold their zero value, so the received quantity is 0. -/
def newPOItem {F : Type} [Float64 F] (product : Product F) (itemReq : POItemRequest F) :
    POItem F :=
  { ID := 0
    DeletedAt := none
    POID := 0
    ProductID := product.ID
    Quantity := itemReq.Quantity
    UnitPrice := itemReq.UnitPrice
    TaxAmount := Float64.zero
    TotalAmount := Float64.mul itemReq.UnitPrice (Float64.ofInt itemReq.Quantity)
    ReceivedQuantity := 0
    Status := "pending" }

/-- Local variables of the loop over `req.Items` in `CreatePurchaseOrder`: `totalAmount` and
`items`. -/
structure POLineState (F : Type) where
  totalAmount : F
  items : List (POItem F)
  deriving DecidableEq, Repr

/-- One iteration of the loop over `req.Items` (purchase.go lines 101-120). -/
def processPOLine {F : Type} [Float64 F] (tx : Store F) (st : POLineState F)
    (itemReq : POItemRequest F) : Except (Response F) (POLineState F) :=
  match firstProduct tx itemReq.ProductID with
  | none => Except.error (errorResponse StatusBadRequest "Product not found")
  | some product =>
    let item := newPOItem product itemReq
    Except.ok
      { totalAmount := Float64.add st.totalAmount item.TotalAmount
        items := st.items ++ [item] }

/-- The loop over `req.Items` of `CreatePurchaseOrder`. -/
def processPOLines {F : Type} [Float64 F] (tx : Store F) :
    POLineState F → List (POItemRequest F) → Except (Response F) (POLineState F)
  | st, [] => Except.ok st
  | st, itemReq :: rest =>
    match processPOLine tx st itemReq with
    | Except.error resp => Except.error resp
    | Except.ok st1 => processPOLines tx st1 rest

/-- The statement `tx.Create(&po)`: fails on the unique index of `po_number` or when the
database reports another error; otherwise the row is inserted under a fresh primary key, the
column default `'GBP'` filling an empty currency. -/
def createPurchaseOrder {F : Type} (env : Env) (tx : Store F) (po : PurchaseOrder F) :
    Option (Store F × PurchaseOrder F) :=
  if tx.purchaseOrders.any (fun o => decide (o.PONumber = po.PONumber))
      || env.createPurchaseOrderFails then
    none
  else
    let po := { po with
      ID := nextID (tx.purchaseOrders.map (fun o => o.ID))
      Currency := if po.Currency = "" then "GBP" else po.Currency }
    some ({ tx with purchaseOrders := tx.purchaseOrders ++ [po] }, po)

/-- The statement `tx.Create(&items[i])` of `CreatePurchaseOrder`; the column default
`'pending'` fills an empty status, the column default 0 a zero received quantity. -/
def createPOItem {F : Type} (tx : Store F) (item : POItem F) : Store F :=
  let item := { item with
    ID := nextID (tx.poItems.map (fun o => o.ID))
    Status := if item.Status = "" then "pending" else item.Status }
  { tx with poItems := tx.poItems ++ [item] }

/-- The loop `for i := range items` (purchase.go lines 134-142); `none` when a `Create`
fails. -/
def createPOItems {F : Type} (env : Env) (poID : Nat) :
    Nat → Store F → List (POItem F) → Option (Store F)
  | _, tx, [] => some tx
  | i, tx, item :: rest =>
    if env.createPOItemFails i then none
    else createPOItems env poID (i + 1) (createPOItem tx { item with POID := poID }) rest

/-- The literal `po := models.PurchaseOrder{...}` (purchase.go lines 86-95); fields not listed
there hold their zero value. -/
def newPurchaseOrder {F : Type} [Float64 F] (env : Env) (req : CreatePurchaseOrderRequest F) :
    PurchaseOrder F :=
  { ID := 0
    DeletedAt := none
    PONumber := ""
    SupplierID := req.SupplierID
    Status := POStatusDraft
    OrderDate := env.now
    ExpectedDate := req.ExpectedDate
    Currency := req.Currency
    ExchangeRate := req.ExchangeRate
    TotalAmount := Float64.zero
    TaxAmount := Float64.zero
    ShippingAmount := Float64.zero
    FinalAmount := Float64.zero
    ShippingMethod := req.ShippingMethod
    ContainerNumber := ""
    TrackingNumber := ""
    Notes := req.Notes
    InternalNotes := ""
    ApprovedDate := none
    ShippedDate := none
    ReceivedDate := none }

/-- The handler `CreatePurchaseOrder` (purchase.go lines 75-150): the response and the store
left behind. -/
def CreatePurchaseOrder {F : Type} [Float64 F] (env : Env) (s : Store F)
    (req : CreatePurchaseOrderRequest F) : Response F × Store F :=
  match env.bindPurchaseOrderError with
  | some err => (errorResponse StatusBadRequest err, s)
  | none =>
    -- tx := database.GetDB().Begin()
    let tx := s
    let po := newPurchaseOrder env req
    match processPOLines tx { totalAmount := Float64.zero, items := [] } req.Items with
    | Except.error resp => (resp, s) -- after tx.Rollback()
    | Except.ok st =>
      let po := { po with TotalAmount := st.totalAmount, FinalAmount := st.totalAmount }
      match createPurchaseOrder env tx po with
      | none => -- after tx.Rollback()
        (errorResponse StatusInternalServerError "Failed to create purchase order", s)
      | some (tx1, po) =>
        match createPOItems env po.ID 0 tx1 st.items with
        | none => -- after tx.Rollback()
          (errorResponse StatusInternalServerError "Failed to create purchase order", s)
        | some tx2 =>
          -- tx.Commit(): its error is not inspected
          ({ status := StatusCreated
             body := Body.purchaseOrder "Purchase order created successfully" po },
            if env.commitFails then s else tx2)

/-! ## `CreateContract` -/

/-- The literal `item := models.ContractItem{...}` (contract.go lines 118-124). -/
def newContractItem {F : Type} [Float64 F] (product : Product F)
    (itemReq : ContractItemRequest F) : ContractItem F :=
  { ID := 0
    DeletedAt := none
    ContractID := 0
    ProductID := product.ID
    Quantity := itemReq.Quantity
    UnitPrice := itemReq.UnitPrice
    TaxAmount := Float64.zero
    TotalAmount := Float64.mul itemReq.UnitPrice (Float64.ofInt itemReq.Quantity)
    IsActive := true }

/-- The literal `schedule := models.ContractSchedule{...}` (contract.go lines 132-138): the
request fields are copied; `LastGenerated` and `NextGeneration` are not listed and stay `nil`. -/
def newContractSchedule (r : ContractScheduleRequest) : ContractSchedule :=
  { ID := 0
    DeletedAt := none
    ContractID := 0
    Frequency := r.Frequency
    DayOfWeek := r.DayOfWeek
    DayOfMonth := r.DayOfMonth
    TimeOfDay := r.TimeOfDay
    LastGenerated := none
    NextGeneration := none
    IsActive := true }

/-- Local variables of the loop over `req.Items` in `CreateContract`. -/
structure ContractLineState (F : Type) where
  totalAmount : F
  items : List (ContractItem F)
  deriving DecidableEq, Repr

/-- One iteration of the loop over `req.Items` (contract.go lines 109-128). -/
def processContractLine {F : Type} [Float64 F] (tx : Store F) (st : ContractLineState F)
    (itemReq : ContractItemRequest F) : Except (Response F) (ContractLineState F) :=
  match firstProduct tx itemReq.ProductID with
  | none => Except.error (errorResponse StatusBadRequest "Product not found")
  | some product =>
    let item := newContractItem product itemReq
    Except.ok
      { totalAmount := Float64.add st.totalAmount item.TotalAmount
        items := st.items ++ [item] }

/-- The loop over `req.Items` of `CreateContract`. -/
def processContractLines {F : Type} [Float64 F] (tx : Store F) :
    ContractLineState F → List (ContractItemRequest F) →
      Except (Response F) (ContractLineState F)
  | st, [] => Except.ok st
  | st, itemReq :: rest =>
    match processContractLine tx st itemReq with
    | Except.error resp => Except.error resp
    | Except.ok st1 => processContractLines tx st1 rest

/-- The statement `tx.Create(&contract)`: fails on the unique index of `contract_number` or
when the database reports another error; otherwise the contract row is inserted under a fresh
primary key and the schedule that `contract.Schedule` points to, if any, is inserted with it,
its `ContractID` set to the key of the contract. -/
def createContract {F : Type} (env : Env) (tx : Store F) (contract : Contract)
    (schedule : Option ContractSchedule) :
    Option (Store F × Contract × Option ContractSchedule) :=
  if tx.contracts.any (fun c => decide (c.ContractNumber = contract.ContractNumber))
      || env.createContractFails then
    none
  else
    let contract := { contract with ID := nextID (tx.contracts.map (fun c => c.ID)) }
    let schedule := schedule.map (fun sch =>
      { sch with
        ID := nextID (tx.contractSchedules.map (fun x => x.ID))
        ContractID := contract.ID })
    some ({ tx with
            contracts := tx.contracts ++ [contract]
            contractSchedules := tx.contractSchedules ++ schedule.toList },
      contract, schedule)

/-- The statement `tx.Create(&items[i])` of `CreateContract`. -/
def createContractItem {F : Type} (tx : Store F) (item : ContractItem F) : Store F :=
  let item := { item with ID := nextID (tx.contractItems.map (fun o => o.ID)) }
  { tx with contractItems := tx.contractItems ++ [item] }

/-- The loop `for i := range items` (contract.go lines 151-159); `none` when a `Create`
fails. -/
def createContractItems {F : Type} (env : Env) (contractID : Nat) :
    Nat → Store F → List (ContractItem F) → Option (Store F)
  | _, tx, [] => some tx
  | i, tx, item :: rest =>
    if env.createContractItemFails i then none
    else createContractItems env contractID (i + 1)
      (createContractItem tx { item with ContractID := contractID }) rest

/-- The literal `contract := models.Contract{...}` (contract.go lines 94-103). -/
def newContract {F : Type} (req : CreateContractRequest F) : Contract :=
  { ID := 0
    DeletedAt := none
    ContractNumber := ""
    CompanyID := req.CompanyID
    Status := ContractStatusDraft
    StartDate := req.StartDate
    EndDate := req.EndDate
    AutoRenew := req.AutoRenew
    RenewalPeriod := req.RenewalPeriod
    PaymentTerms := req.PaymentTerms
    Notes := req.Notes }

/-- The handler `CreateContract` (contract.go lines 83-167): the response and the store left
behind. -/
def CreateContract {F : Type} [Float64 F] (env : Env) (s : Store F)
    (req : CreateContractRequest F) : Response F × Store F :=
  match env.bindContractError with
  | some err => (errorResponse StatusBadRequest err, s)
  | none =>
    -- tx := database.GetDB().Begin()
    let tx := s
    let contract := newContract req
    match processContractLines tx { totalAmount := Float64.zero, items := [] } req.Items with
    | Except.error resp => (resp, s) -- after tx.Rollback()
    | Except.ok st =>
      -- if req.Schedule != nil { ...; contract.Schedule = &schedule }
      let schedule := req.Schedule.map newContractSchedule
      match createContract env tx contract schedule with
      | none => -- after tx.Rollback()
        (errorResponse StatusInternalServerError "Failed to create contract", s)
      | some (tx1, contract, schedule) =>
        match createContractItems env contract.ID 0 tx1 st.items with
        | none => -- after tx.Rollback()
          (errorResponse StatusInternalServerError "Failed to create contract", s)
        | some tx2 =>
          -- tx.Commit(): its error is not inspected
          ({ status := StatusCreated
             body := Body.contractWithSchedule "Contract created successfully" contract
               schedule },
            if env.commitFails then s else tx2)

/-! ## Package `auth` (`pkg/auth/jwt.go`) -/

/-- The struct `Claims`; of the embedded `jwt.RegisteredClaims` the three dates that
`GenerateToken` sets. -/
structure Claims where
  UserID : Nat
  UserType : String
  CompanyID : Option Nat
  ExpiresAt : Time
  IssuedAt : Time
  NotBefore : Time
  deriving DecidableEq, Repr

/-- The error values that the functions of the package return: the two package variables, and
an error passed on from `token.SignedString`. -/
inductive AuthError where
  | ErrInvalidToken
  | ErrExpiredToken
  | signing (msg : String)
  deriving DecidableEq, Repr

/-- Outcome of the library call `jwt.ParseWithClaims` with the key function of
`ValidateToken`: no error (the token with its claims and its `Valid` flag), an error for which
`errors.Is(err, jwt.ErrTokenExpired)` holds, or any other error. -/
inductive ParseOutcome where
  | parsed (claims : Claims) (valid : Bool)
  | expired
  | failed
  deriving DecidableEq, Repr

/-- What the package takes from outside the source: the clock, the library parser and the
signature `token.SignedString(secretKey)`. -/
structure AuthEnv where
  now : Time
  parse : String → ParseOutcome
  sign : Claims → Except String String

/-- How a Go call ends: it returns, or the runtime stops it with a run-time error. -/
inductive Outcome (α : Type) where
  | returned (value : α)
  | nilDereference
  deriving DecidableEq, Repr

/-- Twenty-four hours, in the unit of `Time` (seconds). -/
def day : Time := 24 * 3600

/-- The function `GenerateToken` (jwt.go lines 27-46): the token string and the error. -/
def GenerateToken (env : AuthEnv) (userID : Nat) (userType : String) (companyID : Option Nat) :
    String × Option AuthError :=
  let claims : Claims :=
    { UserID := userID
      UserType := userType
      CompanyID := companyID
      ExpiresAt := env.now + day
      IssuedAt := env.now
      NotBefore := env.now }
  match env.sign claims with
  | Except.error msg => ("", some (AuthError.signing msg))
  | Except.ok tokenString => (tokenString, none)

/-- The function `ValidateToken` (jwt.go lines 49-72): the claims pointer (`none` for `nil`)
and the error (`none` for `nil`). -/
def ValidateToken (env : AuthEnv) (tokenString : String) : Option Claims × Option AuthError :=
  match env.parse tokenString with
  | ParseOutcome.expired => (none, some AuthError.ErrExpiredToken)
  | ParseOutcome.failed => (none, some AuthError.ErrInvalidToken)
  | ParseOutcome.parsed claims valid =>
    if !valid then (none, some AuthError.ErrInvalidToken) else (some claims, none)

/-- The function `RefreshToken` (jwt.go lines 75-83).  An error other than `ErrExpiredToken`
is returned; otherwise the fields of `claims` are read, which stops with a nil pointer
dereference when `claims` is `nil`. -/
def RefreshToken (env : AuthEnv) (oldTokenString : String) :
    Outcome (String × Option AuthError) :=
  match ValidateToken env oldTokenString with
  | (claims, err) =>
    if err ≠ none ∧ err ≠ some AuthError.ErrExpiredToken then
      Outcome.returned ("", err)
    else
      match claims with
      | none => Outcome.nilDereference
      | some c => Outcome.returned (GenerateToken env c.UserID c.UserType c.CompanyID)

/-! ## Concrete data for purchase orders, contracts and tokens -/

/-- A purchase-order request with one line: 5 units of product 1 at price 4. -/
def demoPORequest : CreatePurchaseOrderRequest Int :=
  { SupplierID := 1, ExpectedDate := 20, Currency := "GBP", ExchangeRate := 1,
    ShippingMethod := "sea", Notes := "",
    Items := [{ ProductID := 1, Quantity := 5, UnitPrice := 4 }] }

/-- A monthly schedule on day 31 at 09:00. -/
def demoScheduleRequest : ContractScheduleRequest :=
  { Frequency := "monthly", DayOfWeek := none, DayOfMonth := some 31, TimeOfDay := "09:00" }

/-- A contract request with one line and the monthly schedule on day 31. -/
def demoContractRequest : CreateContractRequest Int :=
  { CompanyID := 1, StartDate := 10, EndDate := 400, AutoRenew := false, RenewalPeriod := 12,
    PaymentTerms := 30, Notes := "",
    Items := [{ ProductID := 1, Quantity := 5, UnitPrice := 4 }],
    Schedule := some demoScheduleRequest }

/-- The claims of user 7, a customer of company 3, expired at time 100. -/
def demoClaims : Claims :=
  { UserID := 7, UserType := "customer", CompanyID := some 3,
    ExpiresAt := 100, IssuedAt := 10, NotBefore := 10 }

/-- An environment at time 200 in which the string "expired" is a well-signed token carrying
`demoClaims` whose expiry date has passed, "valid" is a valid token carrying `demoClaims`, and
every other string is rejected by the parser; signing yields the string "fresh". -/
def demoAuthEnv : AuthEnv :=
  { now := 200
    parse := fun tok =>
      if tok = "expired" then ParseOutcome.expired
      else if tok = "valid" then ParseOutcome.parsed demoClaims true
      else ParseOutcome.failed
    sign := fun _ => Except.ok "fresh" }

/-- The invariant of purchase-order lines: `0 <= receivedQuantity <= quantity`. -/
def poLineInvariant {F : Type} (rows : List (POItem F)) : Prop :=
  ∀ r ∈ rows, 0 ≤ r.ReceivedQuantity ∧ r.ReceivedQuantity ≤ r.Quantity


/-- The schedule row that `CreateContract` stores first for `demoContractRequest`. -/
def demoStoredSchedule : ContractSchedule :=
  { newContractSchedule demoScheduleRequest with ID := 1, ContractID := 1 }

/-- The contract row that `CreateContract` stores first for `demoContractRequest`. -/
def demoCreatedContract : Contract :=
  { (newContract demoContractRequest) with ID := 1 }


/-! ## Lemmas about the statements -/

theorem firstProduct_ID {F : Type} {tx : Store F} {id : Nat} {p : Product F}
    (h : firstProduct tx id = some p) : p.ID = id := by
  have := List.find?_some h
  simp at this
  exact this.1

theorem lowestID_mem : ∀ {rows : List InventoryItem} {m : InventoryItem},
    lowestID rows = some m → m ∈ rows
  | [], m, h => by simp [lowestID] at h
  | r :: rs, m, h => by
    unfold lowestID at h
    cases hrs : lowestID rs with
    | none =>
      rw [hrs] at h
      simp at h
      simp [h]
    | some k =>
      rw [hrs] at h
      simp only at h
      split at h
      · simp at h; simp [h]
      · simp at h
        subst h
        exact List.mem_cons_of_mem _ (lowestID_mem hrs)

theorem firstActiveInventory_spec {rows : List InventoryItem} {pid : Nat} {inv : InventoryItem}
    (h : firstActiveInventory rows pid = some inv) :
    inv ∈ rows ∧ inv.ProductID = pid ∧ inv.Status = "active" ∧ inv.DeletedAt = none := by
  have hm := lowestID_mem h
  simp only [List.mem_filter, Bool.and_eq_true, decide_eq_true_eq] at hm
  exact ⟨hm.1, hm.2.1.1, hm.2.1.2, hm.2.2⟩

theorem processLines_append {F : Type} [Float64 F] (env : Env) :
    ∀ (pre : List OrderItemRequest) (i : Nat) (st st1 : LineState F)
      (rest : List OrderItemRequest),
      processLines env i st pre = Except.ok st1 →
      processLines env i st (pre ++ rest) = processLines env (i + pre.length) st1 rest
  | [], i, st, st1, rest, h => by
    simp [processLines] at h
    simp [h]
  | l :: pre, i, st, st1, rest, h => by
    simp only [processLines, List.cons_append] at h ⊢
    cases hl : processLine env i st l with
    | error resp => rw [hl] at h; simp at h
    | ok st2 =>
      rw [hl] at h
      simp only at h ⊢
      have ih := processLines_append env pre (i + 1) st2 st1 rest h
      simp only [List.length_cons]
      rw [show i + (pre.length + 1) = i + 1 + pre.length by omega]
      exact ih

theorem processLine_of_lineFails {F : Type} [Float64 F] (env : Env) (i : Nat) (st : LineState F)
    (l : OrderItemRequest) (h : lineFails st.tx l) :
    ∃ msg, processLine env i st l = Except.error (errorResponse StatusBadRequest msg) := by
  unfold processLine
  cases hp : firstProduct st.tx l.ProductID with
  | none => exact ⟨_, rfl⟩
  | some product =>
    have hid := firstProduct_ID hp
    simp only [hid]
    cases hi : firstActiveInventory st.tx.inventory l.ProductID with
    | none => exact ⟨_, rfl⟩
    | some inventory =>
      rcases h with h | h | ⟨inv, h1, h2⟩
      · rw [hp] at h; simp at h
      · rw [hi] at h; simp at h
      · rw [hi] at h1
        simp at h1
        subst h1
        simp only [h2, if_true]
        exact ⟨_, rfl⟩


/-! ## `CreateOrder` is all-or-nothing -/

/-- C1: `CreateOrder` is all-or-nothing.  Whenever the lines before some line `l` of the
request pass and `l` fails on the transaction state reached at that point (product absent, no
active inventory row, or quantity above `Quantity - Reserved`), the call answers with a
400 error and the store it leaves is the store it started from: no order row, no order item
row, and no inventory row differs, the reservations of the earlier lines included. -/
theorem CreateOrder_all_or_nothing {F : Type} [Float64 F] (env : Env) (s : Store F)
    (req : CreateOrderRequest) (pre : List OrderItemRequest) (l : OrderItemRequest)
    (post : List OrderItemRequest) (st : LineState F)
    (hsplit : req.Items = pre ++ l :: post)
    (hpre : processLines env 0 { tx := s, totalAmount := Float64.zero, items := [] } pre
      = Except.ok st)
    (hfail : lineFails st.tx l) :
    (∃ msg, (CreateOrder env s req).1 = errorResponse StatusBadRequest msg) ∧
    (CreateOrder env s req).2 = s ∧
    (CreateOrder env s req).2.orders = s.orders ∧
    (CreateOrder env s req).2.orderItems = s.orderItems ∧
    (CreateOrder env s req).2.inventory = s.inventory := by
  have key : (∃ msg, (CreateOrder env s req).1 = errorResponse StatusBadRequest msg) ∧
      (CreateOrder env s req).2 = s := by
    unfold CreateOrder
    cases hb : env.bindError req with
    | some err => exact ⟨⟨err, rfl⟩, rfl⟩
    | none =>
      obtain ⟨msg, hmsg⟩ := processLine_of_lineFails env (0 + pre.length) st l hfail
      have hloop := processLines_append env pre 0 _ st (l :: post) hpre
      refine ⟨⟨msg, ?_⟩, ?_⟩ <;> simp only [hsplit, hloop, processLines, hmsg]
  refine ⟨key.1, key.2, ?_, ?_, ?_⟩ <;> rw [key.2]

/-- Witness for C1 on the demo store: the first line reserves 7 of 10 units, the second asks
for 5 more and fails; the store is left as it was. -/
theorem CreateOrder_all_or_nothing_witness :
    (∃ msg, (CreateOrder (quietEnv 5) demoStore
      (demoRequestOf [{ ProductID := 1, Quantity := 7 }, { ProductID := 1, Quantity := 5 }])).1
        = errorResponse StatusBadRequest msg) ∧
    (CreateOrder (quietEnv 5) demoStore
      (demoRequestOf [{ ProductID := 1, Quantity := 7 }, { ProductID := 1, Quantity := 5 }])).2
        = demoStore := by
  have h := CreateOrder_all_or_nothing (quietEnv 5) demoStore
    (demoRequestOf [{ ProductID := 1, Quantity := 7 }, { ProductID := 1, Quantity := 5 }])
    [{ ProductID := 1, Quantity := 7 }] { ProductID := 1, Quantity := 5 } []
    { tx := demoStoreWith 7, totalAmount := 28, items := [demoOrderItem 7] }
    rfl rfl (Or.inr (Or.inr ⟨demoItem 7, by decide, by decide⟩))
  exact ⟨h.1, h.2.1⟩

/-! ## What a passing line and a successful call do -/

theorem processLine_ok {F : Type} [Float64 F] {env : Env} {i : Nat} {st st1 : LineState F}
    {l : OrderItemRequest} (h : processLine env i st l = Except.ok st1) :
    ∃ product inv,
      firstProduct st.tx l.ProductID = some product ∧
      firstActiveInventory st.tx.inventory l.ProductID = some inv ∧
      ¬ wrapInt (inv.Quantity - inv.Reserved) < l.Quantity ∧
      env.saveInventoryFails i = false ∧
      st1 = { tx := saveInventory st.tx
                { inv with Reserved := wrapInt (inv.Reserved + l.Quantity) }
              totalAmount := Float64.add st.totalAmount (newOrderItem product inv l).TotalAmount
              items := st.items ++ [newOrderItem product inv l] } := by
  unfold processLine at h
  cases hp : firstProduct st.tx l.ProductID with
  | none => rw [hp] at h; simp at h
  | some product =>
    rw [hp] at h
    have hid := firstProduct_ID hp
    simp only [hid] at h
    cases hi : firstActiveInventory st.tx.inventory l.ProductID with
    | none => rw [hi] at h; simp at h
    | some inv =>
      rw [hi] at h
      simp only at h
      by_cases hq : wrapInt (inv.Quantity - inv.Reserved) < l.Quantity
      · simp [hq] at h
      · simp only [hq, if_false] at h
        cases hs : env.saveInventoryFails i with
        | true => simp [hs] at h
        | false =>
          simp only [hs] at h
          simp at h
          exact ⟨product, inv, rfl, rfl, hq, rfl, h.symm⟩

theorem createOrder_inventory {F : Type} {env : Env} {tx tx1 : Store F} {order order1 : Order F}
    (h : createOrder env tx order = some (tx1, order1)) :
    tx1.inventory = tx.inventory ∧ tx1.products = tx.products := by
  unfold createOrder at h
  split at h
  · simp at h
  · simp at h
    rw [← h.1]
    exact ⟨rfl, rfl⟩

theorem createOrderItems_inventory {F : Type} (env : Env) (orderID : Nat) :
    ∀ (items : List (OrderItem F)) (i : Nat) (tx tx2 : Store F),
      createOrderItems env orderID i tx items = some tx2 →
      tx2.inventory = tx.inventory ∧ tx2.products = tx.products
  | [], i, tx, tx2, h => by
    simp [createOrderItems] at h
    rw [h]
    exact ⟨rfl, rfl⟩
  | item :: rest, i, tx, tx2, h => by
    simp only [createOrderItems] at h
    split at h
    · simp at h
    · have ih := createOrderItems_inventory env orderID rest (i + 1) _ tx2 h
      exact ⟨ih.1.trans rfl, ih.2.trans rfl⟩

theorem notFound_ne_ok : StatusNotFound ≠ StatusOK := by decide

theorem internalServerError_ne_ok : StatusInternalServerError ≠ StatusOK := by decide

theorem badRequest_ne_created : StatusBadRequest ≠ StatusCreated := by decide

theorem internalServerError_ne_created : StatusInternalServerError ≠ StatusCreated := by decide

theorem processLine_error_status {F : Type} [Float64 F] {env : Env} {i : Nat}
    {st : LineState F} {l : OrderItemRequest} {resp : Response F}
    (h : processLine env i st l = Except.error resp) : resp.status ≠ StatusCreated := by
  unfold processLine at h
  split at h
  · simp at h; rw [← h]; exact badRequest_ne_created
  · split at h
    · simp at h; rw [← h]; exact badRequest_ne_created
    · split at h
      · simp at h; rw [← h]; exact badRequest_ne_created
      · split at h
        · simp at h; rw [← h]; exact internalServerError_ne_created
        · simp at h

theorem processLines_error_status {F : Type} [Float64 F] (env : Env) :
    ∀ (lines : List OrderItemRequest) (i : Nat) (st : LineState F) (resp : Response F),
      processLines env i st lines = Except.error resp → resp.status ≠ StatusCreated
  | [], i, st, resp, h => by simp [processLines] at h
  | l :: rest, i, st, resp, h => by
    simp only [processLines] at h
    cases hl : processLine env i st l with
    | error resp1 =>
      rw [hl] at h
      simp at h
      rw [← h]
      exact processLine_error_status hl
    | ok st2 =>
      rw [hl] at h
      exact processLines_error_status env rest (i + 1) st2 resp h

/-- The store left by `CreateOrder`: either the store it found (and then the answer is not
201, or the commit failed), or the answer is 201, the commit went through and the inventory is
the one reached by the loop over the request lines. -/
theorem CreateOrder_inventory_cases {F : Type} [Float64 F] (env : Env) (s : Store F)
    (req : CreateOrderRequest) :
    ((CreateOrder env s req).2 = s ∧
      ((CreateOrder env s req).1.status ≠ StatusCreated ∨ env.commitFails = true)) ∨
    ∃ st, processLines env 0 { tx := s, totalAmount := Float64.zero, items := [] } req.Items
        = Except.ok st ∧
      (CreateOrder env s req).1.status = StatusCreated ∧ env.commitFails = false ∧
      (CreateOrder env s req).2.inventory = st.tx.inventory := by
  unfold CreateOrder
  cases hb : env.bindError req with
  | some err => exact Or.inl ⟨rfl, Or.inl badRequest_ne_created⟩
  | none =>
    simp only
    cases hl : processLines env 0 { tx := s, totalAmount := Float64.zero, items := [] }
        req.Items with
    | error resp => exact Or.inl ⟨rfl, Or.inl (processLines_error_status env _ _ _ _ hl)⟩
    | ok st =>
      simp only
      cases hc : createOrder env st.tx
          { newOrder env req with TotalAmount := st.totalAmount, FinalAmount := st.totalAmount } with
      | none => exact Or.inl ⟨rfl, Or.inl internalServerError_ne_created⟩
      | some p =>
        obtain ⟨tx1, order1⟩ := p
        simp only
        cases hi : createOrderItems env order1.ID 0 tx1 st.items with
        | none => exact Or.inl ⟨rfl, Or.inl internalServerError_ne_created⟩
        | some tx2 =>
          simp only
          cases hcm : env.commitFails with
          | true => exact Or.inl ⟨rfl, Or.inr rfl⟩
          | false =>
            refine Or.inr ⟨st, ?_, ?_, ?_, ?_⟩
            · rfl
            · first | rfl | trivial
            · rfl
            · simp only [Bool.false_eq_true, if_false]
              rw [(createOrderItems_inventory env order1.ID st.items 0 tx1 tx2 hi).1,
                (createOrder_inventory hc).1]

/-! ## The ledger invariant -/

theorem ledgerOK_iff (rows : List InventoryItem) (hint : intColumns rows) :
    ledgerOK rows ↔ ledgerInvariant rows := by
  constructor
  · intro h r hr
    exact ⟨(h r hr).1, (h r hr).2.1⟩
  · intro h r hr
    exact ⟨(h r hr).1, (h r hr).2, (hint r hr).1.2⟩

theorem ledgerOK_intColumns {rows : List InventoryItem} (h : ledgerOK rows) :
    intColumns rows := by
  intro r hr
  obtain ⟨h1, h2, h3⟩ := h r hr
  unfold isInt maxInt at *
  omega

/-- No wrap-around when a line passes the stock check on a row satisfying the invariant. -/
theorem reserve_no_wrap {Q R q : Int} (h0 : 0 ≤ R) (h1 : R ≤ Q) (h2 : Q ≤ maxInt) (hq : 0 ≤ q)
    (hc : ¬ wrapInt (Q - R) < q) : wrapInt (R + q) = R + q ∧ R + q ≤ Q := by
  unfold wrapInt maxInt at *
  omega

theorem processLine_ledgerOK {F : Type} [Float64 F] {env : Env} {i : Nat} {st st1 : LineState F}
    {l : OrderItemRequest} (h : processLine env i st l = Except.ok st1)
    (hinv : ledgerOK st.tx.inventory) (hq : 0 ≤ l.Quantity) :
    ledgerOK st1.tx.inventory := by
  obtain ⟨product, inv, -, hi, hc, -, hst⟩ := processLine_ok h
  have hmem := (firstActiveInventory_spec hi).1
  obtain ⟨h0, h1, h2⟩ := hinv inv hmem
  obtain ⟨hw, hle⟩ := reserve_no_wrap h0 h1 h2 hq hc
  rw [hst]
  intro r hr
  simp only [saveInventory, List.mem_map] at hr
  obtain ⟨r0, hr0, hrr⟩ := hr
  split at hrr
  · subst hrr
    simp only [hw]
    exact ⟨by omega, hle, h2⟩
  · subst hrr
    exact hinv _ hr0

theorem processLines_ledgerOK {F : Type} [Float64 F] (env : Env) :
    ∀ (lines : List OrderItemRequest) (i : Nat) (st st1 : LineState F),
      processLines env i st lines = Except.ok st1 →
      ledgerOK st.tx.inventory → (∀ l ∈ lines, 0 ≤ l.Quantity) →
      ledgerOK st1.tx.inventory
  | [], i, st, st1, h, hinv, _ => by
    simp [processLines] at h
    rw [← h]
    exact hinv
  | l :: rest, i, st, st1, h, hinv, hq => by
    simp only [processLines] at h
    cases hl : processLine env i st l with
    | error resp => rw [hl] at h; simp at h
    | ok st2 =>
      rw [hl] at h
      exact processLines_ledgerOK env rest (i + 1) st2 st1 h
        (processLine_ledgerOK hl hinv (hq l (List.mem_cons_self _ _)))
        (fun l1 h1 => hq l1 (List.mem_cons_of_mem _ h1))

/-- C2: `CreateOrder` preserves the ledger invariant.  If every inventory row satisfies
`0 <= reserved <= quantity` before the call (the columns holding Go `int` values) and every
requested quantity is at least 1, then every inventory row satisfies `0 <= reserved <= quantity`
after the call, whatever the outcome of the call and however often a product occurs among
the lines. -/
theorem CreateOrder_preserves_ledgerInvariant {F : Type} [Float64 F] (env : Env)
    (s : Store F) (req : CreateOrderRequest)
    (hinv : ledgerInvariant s.inventory) (hint : intColumns s.inventory)
    (hq : ∀ l ∈ req.Items, 1 ≤ l.Quantity) :
    ledgerInvariant (CreateOrder env s req).2.inventory ∧
    intColumns (CreateOrder env s req).2.inventory := by
  have hok : ledgerOK (CreateOrder env s req).2.inventory := by
    rcases CreateOrder_inventory_cases env s req with ⟨h, -⟩ | ⟨st, hst, -, -, hinv1⟩
    · rw [h]
      exact (ledgerOK_iff _ hint).2 hinv
    · rw [hinv1]
      exact processLines_ledgerOK env req.Items 0 _ st hst ((ledgerOK_iff _ hint).2 hinv)
        (fun l hl => by have := hq l hl; omega)
  exact ⟨(ledgerOK_iff _ (ledgerOK_intColumns hok)).1 hok, ledgerOK_intColumns hok⟩

/-- Witness for C2: two lines for the same product (4 and 6 of the 10 units) on the demo
store. -/
theorem CreateOrder_preserves_ledgerInvariant_witness :
    ledgerInvariant demoStore.inventory ∧ intColumns demoStore.inventory ∧
    (∀ l ∈ (demoRequestOf [{ ProductID := 1, Quantity := 4 },
      { ProductID := 1, Quantity := 6 }]).Items, 1 ≤ l.Quantity) ∧
    ledgerInvariant (CreateOrder (quietEnv 5) demoStore (demoRequestOf
      [{ ProductID := 1, Quantity := 4 }, { ProductID := 1, Quantity := 6 }])).2.inventory := by
  have h1 : ledgerInvariant demoStore.inventory := by
    intro r hr
    simp [demoStore, demoStoreWith] at hr
    subst hr
    decide
  have h2 : intColumns demoStore.inventory := by
    intro r hr
    simp [demoStore, demoStoreWith] at hr
    subst hr
    unfold isInt
    decide
  have h3 : ∀ l ∈ (demoRequestOf [{ ProductID := 1, Quantity := 4 },
      { ProductID := 1, Quantity := 6 }]).Items, 1 ≤ l.Quantity := by
    intro l hl
    simp [demoRequestOf] at hl
    rcases hl with hl | hl <;> subst hl <;> decide
  exact ⟨h1, h2, h3, (CreateOrder_preserves_ledgerInvariant (quietEnv 5) demoStore _ h1 h2 h3).1⟩


/-! ## When the call succeeds -/

theorem processLines_frame {F : Type} [Float64 F] (env : Env) :
    ∀ (lines : List OrderItemRequest) (i : Nat) (st st1 : LineState F),
      processLines env i st lines = Except.ok st1 →
      st1.tx.products = st.tx.products ∧ st1.tx.orders = st.tx.orders ∧
      st1.tx.orderItems = st.tx.orderItems ∧
      st1.items.length = st.items.length + lines.length
  | [], i, st, st1, h => by
    simp [processLines] at h
    rw [← h]
    simp
  | l :: rest, i, st, st1, h => by
    simp only [processLines] at h
    cases hl : processLine env i st l with
    | error resp => rw [hl] at h; simp at h
    | ok st2 =>
      rw [hl] at h
      obtain ⟨product, inv, -, -, -, -, hst⟩ := processLine_ok hl
      obtain ⟨h1, h2, h3, h4⟩ := processLines_frame env rest (i + 1) st2 st1 h
      rw [hst] at h1 h2 h3 h4
      simp only [saveInventory, List.length_append, List.length_singleton] at h1 h2 h3 h4
      refine ⟨h1, h2, h3, ?_⟩
      rw [h4, List.length_cons]
      omega

theorem createOrderItems_isSome {F : Type} (env : Env) (orderID : Nat) :
    ∀ (items : List (OrderItem F)) (i : Nat) (tx : Store F),
      (∀ k, k < items.length → env.createOrderItemFails (i + k) = false) →
      ∃ tx2, createOrderItems env orderID i tx items = some tx2
  | [], i, tx, _ => ⟨tx, rfl⟩
  | item :: rest, i, tx, h => by
    have h0 : env.createOrderItemFails i = false := by
      have := h 0 (by simp)
      simpa using this
    simp only [createOrderItems, h0, Bool.false_eq_true, if_false]
    apply createOrderItems_isSome env orderID rest (i + 1)
    intro k hk
    have := h (k + 1) (by simp; omega)
    rw [show i + 1 + k = i + (k + 1) by omega]
    exact this

/-- If the validator accepts the request, every line passes, no order carries the empty order
number yet and no statement fails, the call answers 201 and installs the inventory reached by
the loop. -/
theorem CreateOrder_created_of_lines {F : Type} [Float64 F] (env : Env) (s : Store F)
    (req : CreateOrderRequest) (st : LineState F)
    (hb : env.bindError req = none)
    (hl : processLines env 0 { tx := s, totalAmount := Float64.zero, items := [] } req.Items
      = Except.ok st)
    (hnum : ∀ o ∈ s.orders, o.OrderNumber ≠ "")
    (hco : env.createOrderFails = false)
    (hci : ∀ k, k < req.Items.length → env.createOrderItemFails k = false)
    (hcm : env.commitFails = false) :
    (CreateOrder env s req).1.status = StatusCreated ∧
    (CreateOrder env s req).2.inventory = st.tx.inventory ∧
    (CreateOrder env s req).2.products = s.products := by
  obtain ⟨hp, ho, -, hlen⟩ := processLines_frame env req.Items 0 _ st hl
  simp only [List.length_nil, Nat.zero_add] at hp ho hlen
  have hany : st.tx.orders.any (fun o => decide (o.OrderNumber = (newOrder env req : Order F).OrderNumber)) = false := by
    rw [ho]
    simp only [newOrder, List.any_eq_false, decide_eq_true_eq]
    intro o ho1
    exact hnum o ho1
  unfold CreateOrder
  simp only [hb, hl]
  unfold createOrder
  simp only [hany, hco, Bool.or_false, Bool.false_eq_true, if_false]
  obtain ⟨tx2, htx2⟩ := createOrderItems_isSome env
    (nextID (st.tx.orders.map (fun o => o.ID))) st.items 0
    { st.tx with orders := st.tx.orders ++
      [{ newOrder env req with
          TotalAmount := st.totalAmount, FinalAmount := st.totalAmount,
          ID := nextID (st.tx.orders.map (fun o => o.ID)) }] }
    (fun k hk => by rw [Nat.zero_add]; exact hci k (by rw [← hlen]; exact hk))
  simp only [htx2, hcm, Bool.false_eq_true, if_false]
  obtain ⟨hi2, hp2⟩ := createOrderItems_inventory env _ st.items 0 _ tx2 htx2
  exact ⟨trivial, hi2, hp2.trans hp⟩


/-! ## The scenario 10 / 7 / 5 -/

theorem lowestID_of_all_eq (x : InventoryItem) :
    ∀ (rows : List InventoryItem), rows ≠ [] → (∀ r ∈ rows, r = x) → lowestID rows = some x
  | [], h, _ => absurd rfl h
  | r :: rs, _, hall => by
    have hr : r = x := hall r (List.mem_cons_self _ _)
    unfold lowestID
    cases hrs : rs with
    | nil => simp [lowestID, hr]
    | cons r1 rs1 =>
      have ih := lowestID_of_all_eq x rs (by rw [hrs]; simp)
        (fun y hy => hall y (List.mem_cons_of_mem _ hy))
      rw [← hrs, ih]
      simp [hr]

/-- A row that is the only active one of its product is the one `First` returns. -/
theorem firstActiveInventory_of_only {rows : List InventoryItem} {p : Nat} {it : InventoryItem}
    (hmem : it ∈ rows)
    (hact : it.ProductID = p ∧ it.Status = "active" ∧ it.DeletedAt = none)
    (honly : ∀ r ∈ rows, r.ProductID = p → r.Status = "active" → r.DeletedAt = none → r = it) :
    firstActiveInventory rows p = some it := by
  unfold firstActiveInventory
  apply lowestID_of_all_eq
  · intro hnil
    have : it ∈ rows.filter (fun r => decide (r.ProductID = p) && decide (r.Status = "active")
        && decide (r.DeletedAt = none)) := by
      simp only [List.mem_filter, Bool.and_eq_true, decide_eq_true_eq]
      exact ⟨hmem, ⟨hact.1, hact.2.1⟩, hact.2.2⟩
    rw [hnil] at this
    simp at this
  · intro r hr
    simp only [List.mem_filter, Bool.and_eq_true, decide_eq_true_eq] at hr
    exact honly r hr.1 hr.2.1.1 hr.2.1.2 hr.2.2

/-- After the only active row of a product has been saved with a new reserved count, it is
still the only active row of that product. -/
theorem saveInventory_only {F : Type} (tx : Store F) {p : Nat} {it : InventoryItem} (x : Int)
    (hmem : it ∈ tx.inventory)
    (hact : it.ProductID = p ∧ it.Status = "active" ∧ it.DeletedAt = none)
    (honly : ∀ r ∈ tx.inventory,
      r.ProductID = p → r.Status = "active" → r.DeletedAt = none → r = it) :
    { it with Reserved := x } ∈ (saveInventory tx { it with Reserved := x }).inventory ∧
    ∀ r ∈ (saveInventory tx { it with Reserved := x }).inventory,
      r.ProductID = p → r.Status = "active" → r.DeletedAt = none → r = { it with Reserved := x } := by
  constructor
  · simp only [saveInventory, List.mem_map]
    exact ⟨it, hmem, by simp [hact.2.2]⟩
  · intro r hr h1 h2 h3
    simp only [saveInventory, List.mem_map] at hr
    obtain ⟨r0, hr0, hrr⟩ := hr
    split at hrr
    · exact hrr.symm
    · rename_i hne
      subst hrr
      have := honly r0 hr0 h1 h2 h3
      subst this
      exact absurd ⟨rfl, h3⟩ hne

/-- C4: the scenario of the specification.  Start from a store in which product `p` exists and
its only active inventory row `it` holds 10 units, none reserved.  A `CreateOrder` for 7 units
of `p` (accepted by the validator, no statement failing, no stored order carrying the empty
order number) answers 201 and leaves that row with `Reserved = 7`, hence 3 available; a second
`CreateOrder` for 5 units of `p` then answers 400 "Insufficient stock" and leaves the store,
and so `Reserved = 7`, as it was. -/
theorem CreateOrder_scenario_ten_seven_five {F : Type} [Float64 F] (env1 env2 : Env)
    (s : Store F) (p : Nat) (req1 req2 : CreateOrderRequest) (prod : Product F)
    (it : InventoryItem)
    (hprod : firstProduct s p = some prod)
    (hmem : it ∈ s.inventory)
    (hact : it.ProductID = p ∧ it.Status = "active" ∧ it.DeletedAt = none)
    (honly : ∀ r ∈ s.inventory,
      r.ProductID = p → r.Status = "active" → r.DeletedAt = none → r = it)
    (hqty : it.Quantity = 10) (hres : it.Reserved = 0)
    (hitems1 : req1.Items = [{ ProductID := p, Quantity := 7 }])
    (hitems2 : req2.Items = [{ ProductID := p, Quantity := 5 }])
    (hbind1 : env1.bindError req1 = none) (hbind2 : env2.bindError req2 = none)
    (hsave : env1.saveInventoryFails 0 = false) (hco : env1.createOrderFails = false)
    (hci : env1.createOrderItemFails 0 = false) (hcm : env1.commitFails = false)
    (hnum : ∀ o ∈ s.orders, o.OrderNumber ≠ "") :
    (CreateOrder env1 s req1).1.status = StatusCreated ∧
    firstActiveInventory (CreateOrder env1 s req1).2.inventory p
      = some { it with Reserved := 7 } ∧
    ({ it with Reserved := 7 } : InventoryItem).Quantity
      - ({ it with Reserved := 7 } : InventoryItem).Reserved = 3 ∧
    (CreateOrder env2 (CreateOrder env1 s req1).2 req2).1
      = errorResponse StatusBadRequest "Insufficient stock" ∧
    (CreateOrder env2 (CreateOrder env1 s req1).2 req2).2 = (CreateOrder env1 s req1).2 ∧
    firstActiveInventory (CreateOrder env2 (CreateOrder env1 s req1).2 req2).2.inventory p
      = some { it with Reserved := 7 } := by
  have hfirst : firstActiveInventory s.inventory p = some it :=
    firstActiveInventory_of_only hmem hact honly
  have hpid := firstProduct_ID hprod
  -- the loop of the first call
  have hloop : processLines env1 0 { tx := s, totalAmount := Float64.zero, items := [] }
      req1.Items = Except.ok
        { tx := saveInventory s { it with Reserved := 7 }
          totalAmount := Float64.add Float64.zero
            (newOrderItem prod it { ProductID := p, Quantity := 7 }).TotalAmount
          items := [newOrderItem prod it { ProductID := p, Quantity := 7 }] } := by
    rw [hitems1]
    simp only [processLines, processLine, hprod, hpid, hfirst, hqty, hres, hsave]
    have h1 : ¬ wrapInt 10 < 7 := by decide
    have h2 : wrapInt 7 = 7 := by decide
    simp [h1, h2]
  obtain ⟨hst, hinv, hprods⟩ := CreateOrder_created_of_lines env1 s req1 _ hbind1 hloop hnum hco
    (fun k hk => by
      rw [hitems1] at hk
      simp at hk
      rw [hk]
      exact hci) hcm
  obtain ⟨hmem1, honly1⟩ := saveInventory_only s 7 hmem hact honly
  have hact1 : ({ it with Reserved := 7 } : InventoryItem).ProductID = p ∧
      ({ it with Reserved := 7 } : InventoryItem).Status = "active" ∧
      ({ it with Reserved := 7 } : InventoryItem).DeletedAt = none := hact
  have hfirst1 : firstActiveInventory (CreateOrder env1 s req1).2.inventory p
      = some { it with Reserved := 7 } := by
    rw [hinv]
    exact firstActiveInventory_of_only hmem1 hact1 honly1
  have hprod1 : firstProduct (CreateOrder env1 s req1).2 p = some prod := by
    unfold firstProduct
    rw [hprods]
    exact hprod
  have hsecond : CreateOrder env2 (CreateOrder env1 s req1).2 req2
      = (errorResponse StatusBadRequest "Insufficient stock", (CreateOrder env1 s req1).2) := by
    generalize (CreateOrder env1 s req1).2 = s1 at hfirst1 hprod1
    unfold CreateOrder
    simp only [hbind2, hitems2, processLines, processLine, hprod1, hpid, hfirst1, hqty]
    have h3 : wrapInt 3 < 5 := by decide
    simp [h3]
  refine ⟨hst, hfirst1, ?_, ?_, ?_, ?_⟩
  · simp only [hqty]; decide
  · rw [hsecond]
  · rw [hsecond]
  · rw [hsecond]; exact hfirst1


/-- Witness for C4 on the demo store (product 1, one active row with 10 units). -/
theorem CreateOrder_scenario_ten_seven_five_witness :
    (CreateOrder (quietEnv 5) demoStore (demoRequest 1 7)).1.status = StatusCreated ∧
    firstActiveInventory (CreateOrder (quietEnv 5) demoStore (demoRequest 1 7)).2.inventory 1
      = some (demoItem 7) ∧
    (CreateOrder (quietEnv 6) (CreateOrder (quietEnv 5) demoStore (demoRequest 1 7)).2
      (demoRequest 1 5)).1 = errorResponse StatusBadRequest "Insufficient stock" ∧
    firstActiveInventory (CreateOrder (quietEnv 6)
      (CreateOrder (quietEnv 5) demoStore (demoRequest 1 7)).2 (demoRequest 1 5)).2.inventory 1
      = some (demoItem 7) := by
  have h := CreateOrder_scenario_ten_seven_five (quietEnv 5) (quietEnv 6) demoStore 1
    (demoRequest 1 7) (demoRequest 1 5) { ID := 1, DeletedAt := none, BasePrice := 4 }
    (demoItem 0) (by decide) (by decide) (by decide)
    (by
      intro r hr _ _ _
      simpa [demoStore, demoStoreWith] using hr)
    rfl rfl rfl rfl rfl rfl rfl rfl rfl rfl
    (by intro o ho; simp [demoStore, demoStoreWith] at ho)
  exact ⟨h.1, h.2.1, h.2.2.2.1, h.2.2.2.2.2⟩


/-! ## The reservation made by a successful call -/

theorem addReserved_zero (d : Nat → Int) (r : InventoryItem) (h : d r.ID = 0) :
    addReserved d r = r := by
  cases r
  simp_all [addReserved]

theorem lowestID_map (f : InventoryItem → InventoryItem) (hf : ∀ r, (f r).ID = r.ID) :
    ∀ rows : List InventoryItem, lowestID (rows.map f) = (lowestID rows).map f
  | [] => rfl
  | r :: rs => by
    simp only [List.map_cons, lowestID]
    rw [lowestID_map f hf rs]
    cases lowestID rs with
    | none => rfl
    | some m =>
      simp only [Option.map_some', hf]
      split <;> rfl

theorem firstActiveInventory_map (f : InventoryItem → InventoryItem)
    (hID : ∀ r, (f r).ID = r.ID) (hP : ∀ r, (f r).ProductID = r.ProductID)
    (hS : ∀ r, (f r).Status = r.Status) (hD : ∀ r, (f r).DeletedAt = r.DeletedAt)
    (rows : List InventoryItem) (p : Nat) :
    firstActiveInventory (rows.map f) p = (firstActiveInventory rows p).map f := by
  unfold firstActiveInventory
  rw [List.filter_map, lowestID_map f hID]
  congr 2
  apply List.filter_congr
  intro r _
  simp [hP, hS, hD]

theorem firstActiveInventory_addReserved (d : Nat → Int) (rows : List InventoryItem) (p : Nat) :
    firstActiveInventory (rows.map (addReserved d)) p
      = (firstActiveInventory rows p).map (addReserved d) :=
  firstActiveInventory_map (addReserved d) (fun _ => rfl) (fun _ => rfl) (fun _ => rfl)
    (fun _ => rfl) rows p

theorem reservedFor_addReserved (d : Nat → Int) (rows : List InventoryItem)
    (lines : List OrderItemRequest) (id : Nat) :
    reservedFor (rows.map (addReserved d)) lines id = reservedFor rows lines id := by
  unfold reservedFor
  congr 2
  apply List.filter_congr
  intro l _
  rw [firstActiveInventory_addReserved]
  cases firstActiveInventory rows l.ProductID <;> simp [addReserved]

theorem reservedFor_cons (rows : List InventoryItem) (l : OrderItemRequest)
    (rest : List OrderItemRequest) (id : Nat) :
    reservedFor rows (l :: rest) id
      = (if (firstActiveInventory rows l.ProductID).map (fun r => r.ID) = some id
          then l.Quantity else 0) + reservedFor rows rest id := by
  unfold reservedFor
  by_cases h : (firstActiveInventory rows l.ProductID).map (fun r => r.ID) = some id
  · simp only [List.filter_cons, decide_eq_true_eq, h, if_true, List.map_cons, List.sum_cons]
  · simp only [List.filter_cons, decide_eq_true_eq, h, if_false, zero_add]

/-- With unique primary keys, saving the row returned by `First` with `q` more reserved units
changes that row only. -/
theorem saveInventory_eq_map {F : Type} (tx : Store F) (inv : InventoryItem) (q : Int)
    (hmem : inv ∈ tx.inventory) (hdel : inv.DeletedAt = none)
    (hpk : (tx.inventory.map (fun r => r.ID)).Nodup) :
    (saveInventory tx { inv with Reserved := inv.Reserved + q }).inventory
      = tx.inventory.map (addReserved (fun id => if id = inv.ID then q else 0)) := by
  simp only [saveInventory]
  apply List.map_congr_left
  intro r hr
  by_cases h : r.ID = inv.ID
  · have hri : r = inv := List.inj_on_of_nodup_map hpk hr hmem h
    subst hri
    simp [addReserved, hdel]
  · simp only [h, false_and, if_false]
    exact (addReserved_zero _ r (by simp [h])).symm


theorem map_ID_addReserved (d : Nat → Int) (rows : List InventoryItem) :
    (rows.map (addReserved d)).map (fun r => r.ID) = rows.map (fun r => r.ID) := by
  rw [List.map_map]
  rfl

theorem reservedFor_nil (rows : List InventoryItem) (id : Nat) : reservedFor rows [] id = 0 := by
  simp [reservedFor]

/-- The inventory reached by the loop: under the ledger invariant, unique primary keys and
non-negative quantities every row has gained what the lines reserved on it. -/
theorem processLines_inventory {F : Type} [Float64 F] (env : Env) :
    ∀ (lines : List OrderItemRequest) (i : Nat) (st st1 : LineState F),
      processLines env i st lines = Except.ok st1 →
      ledgerOK st.tx.inventory → (st.tx.inventory.map (fun r => r.ID)).Nodup →
      (∀ l ∈ lines, 0 ≤ l.Quantity) →
      st1.tx.inventory = st.tx.inventory.map (addReserved (reservedFor st.tx.inventory lines))
  | [], i, st, st1, h, _, _, _ => by
    simp [processLines] at h
    rw [← h]
    symm
    conv_rhs => rw [← List.map_id st.tx.inventory]
    apply List.map_congr_left
    intro r _
    exact addReserved_zero _ r (reservedFor_nil _ _)
  | l :: rest, i, st, st1, h, hinv, hpk, hq => by
    simp only [processLines] at h
    cases hl : processLine env i st l with
    | error resp => rw [hl] at h; simp at h
    | ok st2 =>
      rw [hl] at h
      have hq0 : 0 ≤ l.Quantity := hq l (List.mem_cons_self _ _)
      obtain ⟨product, inv, -, hi, hc, -, hst2⟩ := processLine_ok hl
      obtain ⟨hmem, -, -, hdel⟩ := firstActiveInventory_spec hi
      obtain ⟨h0, h1, h2⟩ := hinv inv hmem
      obtain ⟨hw, -⟩ := reserve_no_wrap h0 h1 h2 hq0 hc
      have hinv2 : st2.tx.inventory = st.tx.inventory.map
          (addReserved (fun id => if id = inv.ID then l.Quantity else 0)) := by
        rw [hst2]
        simp only [hw]
        exact saveInventory_eq_map st.tx inv l.Quantity hmem hdel hpk
      have hpk2 : (st2.tx.inventory.map (fun r => r.ID)).Nodup := by
        rw [hinv2, map_ID_addReserved]
        exact hpk
      have ih := processLines_inventory env rest (i + 1) st2 st1 h
        (processLine_ledgerOK hl hinv hq0) hpk2
        (fun l1 h1 => hq l1 (List.mem_cons_of_mem _ h1))
      have hfun : reservedFor (st.tx.inventory.map
          (addReserved (fun id => if id = inv.ID then l.Quantity else 0))) rest
          = reservedFor st.tx.inventory rest :=
        funext (fun id => reservedFor_addReserved _ _ _ id)
      rw [ih, hinv2, hfun, List.map_map]
      apply List.map_congr_left
      intro r _
      simp only [Function.comp, addReserved, reservedFor_cons, hi, Option.map_some',
        Option.some.injEq]
      have hsym : (if inv.ID = r.ID then l.Quantity else 0)
          = (if r.ID = inv.ID then l.Quantity else 0) := by
        by_cases hx : inv.ID = r.ID
        · simp [hx]
        · have hy : ¬ r.ID = inv.ID := fun hy => hx hy.symm
          rw [if_neg hx, if_neg hy]
      simp only [hsym, Int.add_assoc]

/-- C5: the reservation postcondition.  For every call that answers 201 and whose commit went
through, on a store that satisfies the ledger invariant with unique primary keys and Go `int`
columns and for non-negative line quantities: every inventory row ends with its reserved count
increased by exactly the sum of the quantities of the lines for which `First` selected it and
with every other column, the on-hand quantity included, as before; a row selected by no line
is unchanged. -/
theorem CreateOrder_reservation_postcondition {F : Type} [Float64 F] (env : Env)
    (s : Store F) (req : CreateOrderRequest)
    (hok : (CreateOrder env s req).1.status = StatusCreated)
    (hcm : env.commitFails = false)
    (hinv : ledgerInvariant s.inventory) (hint : intColumns s.inventory)
    (hpk : (s.inventory.map (fun r => r.ID)).Nodup)
    (hq : ∀ l ∈ req.Items, 0 ≤ l.Quantity) :
    (CreateOrder env s req).2.inventory
      = s.inventory.map (fun r =>
          { r with Reserved := r.Reserved + reservedFor s.inventory req.Items r.ID }) ∧
    (∀ r ∈ s.inventory,
      (∀ l ∈ req.Items,
        (firstActiveInventory s.inventory l.ProductID).map (fun x => x.ID) ≠ some r.ID) →
      ({ r with Reserved := r.Reserved + reservedFor s.inventory req.Items r.ID }
        : InventoryItem) = r) := by
  constructor
  · rcases CreateOrder_inventory_cases env s req with ⟨-, h | h⟩ | ⟨st, hst, -, -, hinv1⟩
    · exact absurd hok h
    · rw [hcm] at h; simp at h
    · rw [hinv1]
      exact processLines_inventory env req.Items 0 _ st hst ((ledgerOK_iff _ hint).2 hinv) hpk hq
  · intro r _ hnone
    apply addReserved_zero (reservedFor s.inventory req.Items) r
    unfold reservedFor
    rw [List.filter_eq_nil_iff.2]
    · simp
    · intro l hl
      simpa using hnone l hl

/-- Witness for C5: two lines of 3 and 4 units of product 1 on the two-product store; the row
of product 1 gains 7 reserved units and the row of product 2 is unchanged. -/
theorem CreateOrder_reservation_postcondition_witness :
    (CreateOrder (quietEnv 5) demoStoreTwo (demoRequestOf
      [{ ProductID := 1, Quantity := 3 }, { ProductID := 1, Quantity := 4 }])).1.status
        = StatusCreated ∧
    (CreateOrder (quietEnv 5) demoStoreTwo (demoRequestOf
      [{ ProductID := 1, Quantity := 3 }, { ProductID := 1, Quantity := 4 }])).2.inventory
        = [demoItem 7,
           { ID := 2, DeletedAt := none, ProductID := 2, WarehouseID := 1,
             Quantity := 5, Reserved := 1, Status := "active" }] := by
  have hinv : ledgerInvariant demoStoreTwo.inventory := by
    intro r hr
    simp [demoStoreTwo] at hr
    rcases hr with hr | hr <;> subst hr <;> decide
  have hint : intColumns demoStoreTwo.inventory := by
    intro r hr
    simp [demoStoreTwo] at hr
    rcases hr with hr | hr <;> subst hr <;> unfold isInt <;> decide
  have hq : ∀ l ∈ (demoRequestOf [{ ProductID := 1, Quantity := 3 },
      { ProductID := 1, Quantity := 4 }]).Items, 0 ≤ l.Quantity := by
    intro l hl
    simp [demoRequestOf] at hl
    rcases hl with hl | hl <;> subst hl <;> decide
  have h := CreateOrder_reservation_postcondition (quietEnv 5) demoStoreTwo
    (demoRequestOf [{ ProductID := 1, Quantity := 3 }, { ProductID := 1, Quantity := 4 }])
    (by decide) rfl hinv hint (by decide) hq
  exact ⟨by decide, h.1.trans (by decide)⟩


/-! ## The order persisted by a successful call -/

theorem le_foldl_max : ∀ (l : List Nat) (a : Nat),
    a ≤ l.foldl max a ∧ ∀ x ∈ l, x ≤ l.foldl max a
  | [], a => ⟨Nat.le_refl a, fun x hx => by simp at hx⟩
  | y :: ys, a => by
    obtain ⟨h1, h2⟩ := le_foldl_max ys (max a y)
    simp only [List.foldl_cons, List.mem_cons]
    refine ⟨Nat.le_trans (Nat.le_max_left a y) h1, ?_⟩
    rintro x (hx | hx)
    · subst hx
      exact Nat.le_trans (Nat.le_max_right a x) h1
    · exact h2 x hx

theorem lt_nextID {ids : List Nat} {x : Nat} (h : x ∈ ids) : x < nextID ids :=
  Nat.lt_succ_of_le ((le_foldl_max ids 0).2 x h)

theorem processLine_error_body {F : Type} [Float64 F] {env : Env} {i : Nat}
    {st : LineState F} {l : OrderItemRequest} {resp : Response F}
    (h : processLine env i st l = Except.error resp) : ∃ msg, resp.body = Body.error msg := by
  unfold processLine at h
  split at h
  · simp at h; rw [← h]; exact ⟨_, rfl⟩
  · split at h
    · simp at h; rw [← h]; exact ⟨_, rfl⟩
    · split at h
      · simp at h; rw [← h]; exact ⟨_, rfl⟩
      · split at h
        · simp at h; rw [← h]; exact ⟨_, rfl⟩
        · simp at h

theorem processLines_error_body {F : Type} [Float64 F] (env : Env) :
    ∀ (lines : List OrderItemRequest) (i : Nat) (st : LineState F) (resp : Response F),
      processLines env i st lines = Except.error resp → ∃ msg, resp.body = Body.error msg
  | [], i, st, resp, h => by simp [processLines] at h
  | l :: rest, i, st, resp, h => by
    simp only [processLines] at h
    cases hl : processLine env i st l with
    | error resp1 =>
      rw [hl] at h
      simp at h
      rw [← h]
      exact processLine_error_body hl
    | ok st2 =>
      rw [hl] at h
      exact processLines_error_body env rest (i + 1) st2 resp h

theorem createOrderItems_orders {F : Type} (env : Env) (orderID : Nat) :
    ∀ (items : List (OrderItem F)) (i : Nat) (tx tx2 : Store F),
      createOrderItems env orderID i tx items = some tx2 → tx2.orders = tx.orders
  | [], i, tx, tx2, h => by
    simp [createOrderItems] at h
    rw [h]
  | item :: rest, i, tx, tx2, h => by
    simp only [createOrderItems] at h
    split at h
    · simp at h
    · exact (createOrderItems_orders env orderID rest (i + 1) _ tx2 h).trans rfl

/-- How a call that answers with an order came about: every line passed, the order row and the
item rows were inserted, and the store left is the transaction (or, if the commit failed, the
store found). -/
theorem CreateOrder_created {F : Type} [Float64 F] (env : Env) (s : Store F)
    (req : CreateOrderRequest) (msg : String) (o : Order F)
    (h : (CreateOrder env s req).1.body = Body.order msg o) :
    ∃ st tx1 tx2,
      processLines env 0 { tx := s, totalAmount := Float64.zero, items := [] } req.Items
        = Except.ok st ∧
      createOrder env st.tx
        { newOrder env req with TotalAmount := st.totalAmount, FinalAmount := st.totalAmount }
        = some (tx1, o) ∧
      createOrderItems env o.ID 0 tx1 st.items = some tx2 ∧
      (CreateOrder env s req).1.status = StatusCreated ∧
      (CreateOrder env s req).2 = if env.commitFails then s else tx2 := by
  unfold CreateOrder at h ⊢
  cases hb : env.bindError req with
  | some err => rw [hb] at h; simp [errorResponse] at h
  | none =>
    rw [hb] at h
    simp only at h ⊢
    cases hl : processLines env 0 { tx := s, totalAmount := Float64.zero, items := [] }
        req.Items with
    | error resp =>
      rw [hl] at h
      obtain ⟨m, hm⟩ := processLines_error_body env _ _ _ _ hl
      simp only at h
      rw [hm] at h
      simp at h
    | ok st =>
      rw [hl] at h
      simp only at h ⊢
      cases hc : createOrder env st.tx
          { newOrder env req with TotalAmount := st.totalAmount, FinalAmount := st.totalAmount } with
      | none => rw [hc] at h; simp [errorResponse] at h
      | some p =>
        obtain ⟨tx1, order1⟩ := p
        rw [hc] at h
        simp only at h ⊢
        cases hi : createOrderItems env order1.ID 0 tx1 st.items with
        | none => rw [hi] at h; simp [errorResponse] at h
        | some tx2 =>
          rw [hi] at h
          simp only [Body.order.injEq] at h
          obtain ⟨-, ho⟩ := h
          subst ho
          exact ⟨st, tx1, tx2, rfl, hc, hi, rfl, rfl⟩

/-- The order answered by a committed `CreateOrder` is stored under its id. -/
theorem firstOrder_CreateOrder {F : Type} [Float64 F] (env : Env) (s : Store F)
    (req : CreateOrderRequest) (msg : String) (o : Order F)
    (h : (CreateOrder env s req).1.body = Body.order msg o)
    (hcm : env.commitFails = false) :
    firstOrder (CreateOrder env s req).2 o.ID = some o := by
  obtain ⟨st, tx1, tx2, -, hc, hi, -, hstore⟩ := CreateOrder_created env s req msg o h
  rw [hstore]
  simp only [hcm, Bool.false_eq_true, if_false]
  have horders := createOrderItems_orders env o.ID st.items 0 tx1 tx2 hi
  unfold createOrder at hc
  split at hc
  · simp at hc
  · simp only [Option.some.injEq, Prod.mk.injEq] at hc
    obtain ⟨htx1, ho⟩ := hc
    unfold firstOrder
    rw [horders, ← htx1]
    simp only
    have hid : o.ID = nextID (st.tx.orders.map (fun x => x.ID)) := by rw [← ho]
    have hdel : o.DeletedAt = none := by rw [← ho]; rfl
    rw [ho, List.find?_append]
    have hnone : st.tx.orders.find?
        (fun x => decide (x.ID = o.ID) && decide (x.DeletedAt = none)) = none := by
      rw [List.find?_eq_none]
      intro x hx
      have hlt : x.ID < nextID (st.tx.orders.map (fun y => y.ID)) :=
        lt_nextID (List.mem_map_of_mem _ hx)
      simp only [Bool.and_eq_true, decide_eq_true_eq, not_and]
      intro hxo
      omega
    rw [hnone]
    simp [hdel]


/-! ## `UpdateOrder`: lemmas -/

theorem firstOrder_spec {F : Type} {s : Store F} {id : Nat} {o : Order F}
    (h : firstOrder s id = some o) : o ∈ s.orders ∧ o.ID = id ∧ o.DeletedAt = none := by
  have h1 := List.find?_some h
  have h2 := List.mem_of_find?_eq_some h
  simp at h1
  exact ⟨h2, h1.1, h1.2⟩

theorem updateFields_ID {F : Type} (env : Env) (o : Order F) (req : UpdateOrderRequest) :
    (updateFields env o req).ID = o.ID ∧ (updateFields env o req).DeletedAt = o.DeletedAt := by
  unfold updateFields
  simp only
  constructor <;> (repeat' split) <;> rfl

theorem updateFields_Status {F : Type} (env : Env) (o : Order F) (req : UpdateOrderRequest) :
    (updateFields env o req).Status = if req.Status ≠ "" then req.Status else o.Status := by
  unfold updateFields
  simp only
  (repeat' split) <;> rfl

theorem find?_map_replace {α : Type} (p : α → Bool) (x : α) (hx : p x = true) :
    ∀ rows : List α,
      (rows.map (fun r => if p r = true then x else r)).find? p
        = (rows.find? p).map (fun _ => x)
  | [] => rfl
  | r :: rs => by
    have ih := find?_map_replace p x hx rs
    cases hr : p r with
    | true => simp [List.find?_cons, hr, hx]
    | false => simp [List.find?_cons, hr, ih]

/-- After `Save`, the addressed order is read back as saved. -/
theorem firstOrder_saveOrder_same {F : Type} (s : Store F) (id : Nat) (o o1 : Order F)
    (h : firstOrder s id = some o) (hid : o1.ID = id) (hdel : o1.DeletedAt = none) :
    firstOrder (saveOrder s o1) id = some o1 := by
  unfold firstOrder at h ⊢
  have := find?_map_replace (fun r : Order F => decide (r.ID = id) && decide (r.DeletedAt = none))
    o1 (by simp [hid, hdel]) s.orders
  simp only [Bool.and_eq_true, decide_eq_true_eq] at this
  simp only [saveOrder, hid]
  rw [this, h]
  rfl

theorem find?_map_other {α : Type} (p c : α → Bool) (x : α) (hx : p x = false)
    (hc : ∀ r, c r = true → p r = false) :
    ∀ rows : List α,
      (rows.map (fun r => if c r = true then x else r)).find? p = rows.find? p
  | [] => rfl
  | r :: rs => by
    have ih := find?_map_other p c x hx hc rs
    cases hr : c r with
    | true => simp [List.find?_cons, hr, hx, hc r hr, ih]
    | false => simp [List.find?_cons, hr, ih]

/-- `Save` of one order leaves every other order as it was. -/
theorem firstOrder_saveOrder_other {F : Type} (s : Store F) (oid : Nat) (o1 : Order F)
    (hne : oid ≠ o1.ID) : firstOrder (saveOrder s o1) oid = firstOrder s oid := by
  unfold firstOrder
  have := find?_map_other
    (fun r : Order F => decide (r.ID = oid) && decide (r.DeletedAt = none))
    (fun r : Order F => decide (r.ID = o1.ID) && decide (r.DeletedAt = none))
    o1 (by
      simp only [Bool.and_eq_false_imp, decide_eq_true_eq]
      intro h
      exact absurd h.symm hne)
    (by
      intro r hr
      simp only [Bool.and_eq_true, decide_eq_true_eq] at hr
      simp only [Bool.and_eq_false_imp, decide_eq_true_eq, decide_eq_false_iff_not]
      intro h
      exact absurd (h.symm.trans hr.1) hne)
    s.orders
  simp only [Bool.and_eq_true, decide_eq_true_eq] at this
  simp only [saveOrder]
  exact this

/-- The two outcomes of `UpdateOrder` on an existing order. -/
theorem UpdateOrder_found {F : Type} (env : Env) (s : Store F) (id : Nat)
    (req : UpdateOrderRequest) (o : Order F) (h : firstOrder s id = some o) :
    UpdateOrder env s id req =
      if env.saveOrderFails then
        (errorResponse StatusInternalServerError "Failed to update order", s)
      else
        ({ status := StatusOK
           body := Body.order "Order updated successfully" (updateFields env o req) },
          saveOrder s (updateFields env o req)) := by
  unfold UpdateOrder
  rw [h]

/-- `UpdateOrder` writes to the table of orders only. -/
theorem UpdateOrder_frame {F : Type} (env : Env) (s : Store F) (id : Nat)
    (req : UpdateOrderRequest) :
    (UpdateOrder env s id req).2.inventory = s.inventory ∧
    (UpdateOrder env s id req).2.orderItems = s.orderItems ∧
    (UpdateOrder env s id req).2.products = s.products := by
  unfold UpdateOrder
  cases firstOrder s id with
  | none => exact ⟨rfl, rfl, rfl⟩
  | some o =>
    simp only
    split <;> exact ⟨rfl, rfl, rfl⟩


/-! ## Status transitions in `UpdateOrder` -/

/-- C6, counterexample: `PENDING → SHIPPED` is not an edge of the Order table, yet
`UpdateOrder` on a pending order answers 200 and stores the status `SHIPPED` (with the
shipped date stamped): the transition is neither rejected nor the order left unmodified. -/
theorem UpdateOrder_pending_to_shipped_accepted :
    specOrderEdge OrderStatusPending OrderStatusShipped = false ∧
    (firstOrder demoOrderStore 1).map (fun o => o.Status) = some OrderStatusPending ∧
    (UpdateOrder (quietEnv 9) demoOrderStore 1 (statusRequest OrderStatusShipped)).1.status
      = StatusOK ∧
    (firstOrder (UpdateOrder (quietEnv 9) demoOrderStore 1
        (statusRequest OrderStatusShipped)).2 1).map (fun o => (o.Status, o.ShippedDate))
      = some (OrderStatusShipped, some 9) ∧
    (UpdateOrder (quietEnv 9) demoOrderStore 1 (statusRequest OrderStatusShipped)).2
      ≠ demoOrderStore := by
  decide

/-- C6, as the code behaves: `UpdateOrder` checks no transition table.  For every stored
order and every non-empty requested status, edge of the Order table or not, the call answers
200 when the store write succeeds and the stored order then carries the requested status.
When the order is not found the call answers 404, when the write fails it does not answer 200,
and in both cases the store is left as it was. -/
theorem UpdateOrder_applies_any_status {F : Type} (env : Env) (s : Store F) (id : Nat)
    (req : UpdateOrderRequest) :
    (∀ o, firstOrder s id = some o → req.Status ≠ "" → env.saveOrderFails = false →
      (UpdateOrder env s id req).1.status = StatusOK ∧
      ∃ o1, firstOrder (UpdateOrder env s id req).2 id = some o1 ∧ o1.Status = req.Status) ∧
    (firstOrder s id = none →
      UpdateOrder env s id req = (errorResponse StatusNotFound "Order not found", s)) ∧
    (env.saveOrderFails = true →
      (UpdateOrder env s id req).1.status ≠ StatusOK ∧ (UpdateOrder env s id req).2 = s) := by
  refine ⟨?_, ?_, ?_⟩
  · intro o ho hreq hsave
    rw [UpdateOrder_found env s id req o ho]
    simp only [hsave, Bool.false_eq_true, if_false]
    refine ⟨trivial, updateFields env o req, ?_, ?_⟩
    · obtain ⟨-, hid, hdel⟩ := firstOrder_spec ho
      exact firstOrder_saveOrder_same s id o _ ho
        ((updateFields_ID env o req).1.trans hid) ((updateFields_ID env o req).2.trans hdel)
    · rw [updateFields_Status, if_pos hreq]
  · intro hnone
    unfold UpdateOrder
    rw [hnone]
  · intro hsave
    unfold UpdateOrder
    cases firstOrder s id with
    | none => exact ⟨notFound_ne_ok, rfl⟩
    | some o =>
      simp only [hsave, if_true]
      exact ⟨internalServerError_ne_ok, trivial⟩

/-- Witness for the amended C6: a delivered order is moved back to `PENDING`. -/
theorem UpdateOrder_applies_any_status_witness :
    specOrderEdge OrderStatusDelivered OrderStatusPending = false ∧
    (UpdateOrder (quietEnv 9)
      { demoOrderStore with orders := [{ demoOrder with Status := OrderStatusDelivered }] } 1
      (statusRequest OrderStatusPending)).1.status = StatusOK ∧
    ∃ o1, firstOrder (UpdateOrder (quietEnv 9)
      { demoOrderStore with orders := [{ demoOrder with Status := OrderStatusDelivered }] } 1
      (statusRequest OrderStatusPending)).2 1 = some o1 ∧ o1.Status = OrderStatusPending :=
  ⟨by decide,
    (UpdateOrder_applies_any_status (quietEnv 9)
      { demoOrderStore with orders := [{ demoOrder with Status := OrderStatusDelivered }] } 1
      (statusRequest OrderStatusPending)).1
      { demoOrder with Status := OrderStatusDelivered } (by decide) (by decide) rfl⟩


theorem updateFields_ShippedDate {F : Type} (env : Env) (o : Order F)
    (req : UpdateOrderRequest) :
    (updateFields env o req).ShippedDate =
      if (updateFields env o req).Status = OrderStatusShipped ∧ o.ShippedDate = none then
        some env.now
      else o.ShippedDate := by
  rw [updateFields_Status]
  unfold updateFields
  simp only
  (repeat' split) <;> simp_all

theorem updateFields_DeliveredDate {F : Type} (env : Env) (o : Order F)
    (req : UpdateOrderRequest) :
    (updateFields env o req).DeliveredDate =
      if (updateFields env o req).Status = OrderStatusDelivered ∧ o.DeliveredDate = none then
        some env.now
      else o.DeliveredDate := by
  rw [updateFields_Status]
  unfold updateFields
  simp only
  (repeat' split) <;> simp_all

/-- What is read back for the order `oid` after `UpdateOrder` on the order `id`: the order as
it was, or (when `oid` is the addressed order and the write went through) its update. -/
theorem firstOrder_UpdateOrder {F : Type} (env : Env) (s : Store F) (id oid : Nat)
    (req : UpdateOrderRequest) (o : Order F) (ho : firstOrder s oid = some o) :
    firstOrder (UpdateOrder env s id req).2 oid = some o ∨
    (oid = id ∧ env.saveOrderFails = false ∧
      firstOrder (UpdateOrder env s id req).2 oid = some (updateFields env o req)) := by
  cases hid : firstOrder s id with
  | none =>
    left
    unfold UpdateOrder
    rw [hid]
    exact ho
  | some o0 =>
    rw [UpdateOrder_found env s id req o0 hid]
    cases hsave : env.saveOrderFails with
    | true => left; simpa using ho
    | false =>
      simp only [Bool.false_eq_true, if_false]
      obtain ⟨-, hid0, hdel0⟩ := firstOrder_spec hid
      by_cases hne : oid = id
      · right
        subst hne
        rw [ho] at hid
        simp only [Option.some.injEq] at hid
        subst hid
        exact ⟨rfl, trivial, firstOrder_saveOrder_same s oid o _ ho
          ((updateFields_ID env o req).1.trans hid0) ((updateFields_ID env o req).2.trans hdel0)⟩
      · left
        rw [firstOrder_saveOrder_other s oid _
          (by rw [(updateFields_ID env o0 req).1, hid0]; exact hne)]
        exact ho


/-- C7: the legal path succeeds.  For every stored order in status `PENDING` with no shipped
date, `UpdateOrder` with status `PROCESSING` followed by `UpdateOrder` with status `SHIPPED`
(the store writes going through) both answer 200; after the first the order is `PROCESSING`
with no shipped date, after the second it is `SHIPPED` and its shipped date is the time of the
second call. -/
theorem UpdateOrder_pending_processing_shipped {F : Type} (env1 env2 : Env) (s : Store F)
    (id : Nat) (req1 req2 : UpdateOrderRequest) (o : Order F)
    (ho : firstOrder s id = some o)
    (hst : o.Status = OrderStatusPending) (hsd : o.ShippedDate = none)
    (h1 : req1.Status = OrderStatusProcessing) (h2 : req2.Status = OrderStatusShipped)
    (hs1 : env1.saveOrderFails = false) (hs2 : env2.saveOrderFails = false) :
    (UpdateOrder env1 s id req1).1.status = StatusOK ∧
    (∃ o1, firstOrder (UpdateOrder env1 s id req1).2 id = some o1 ∧
      o1.Status = OrderStatusProcessing ∧ o1.ShippedDate = none) ∧
    (UpdateOrder env2 (UpdateOrder env1 s id req1).2 id req2).1.status = StatusOK ∧
    ∃ o2, firstOrder (UpdateOrder env2 (UpdateOrder env1 s id req1).2 id req2).2 id = some o2 ∧
      o2.Status = OrderStatusShipped ∧ o2.ShippedDate = some env2.now := by
  have hpending : o.Status ≠ OrderStatusShipped := by rw [hst]; decide
  obtain ⟨-, hid, hdel⟩ := firstOrder_spec ho
  have hne1 : req1.Status ≠ "" := by rw [h1]; decide
  have hne2 : req2.Status ≠ "" := by rw [h2]; decide
  have hstat1 : (updateFields env1 o req1).Status = OrderStatusProcessing := by
    rw [updateFields_Status, if_pos hne1, h1]
  have hdate1 : (updateFields env1 o req1).ShippedDate = none := by
    rw [updateFields_ShippedDate, hstat1, if_neg (by
      intro h
      exact absurd h.1 (by decide)), hsd]
  have hfirst1 : firstOrder (UpdateOrder env1 s id req1).2 id
      = some (updateFields env1 o req1) := by
    rw [UpdateOrder_found env1 s id req1 o ho]
    simp only [hs1, Bool.false_eq_true, if_false]
    exact firstOrder_saveOrder_same s id o _ ho
      ((updateFields_ID env1 o req1).1.trans hid) ((updateFields_ID env1 o req1).2.trans hdel)
  have hstatus1 : (UpdateOrder env1 s id req1).1.status = StatusOK := by
    rw [UpdateOrder_found env1 s id req1 o ho]
    simp only [hs1, Bool.false_eq_true, if_false]
  obtain ⟨-, hid1, hdel1⟩ := firstOrder_spec hfirst1
  have hstat2 : (updateFields env2 (updateFields env1 o req1) req2).Status
      = OrderStatusShipped := by
    rw [updateFields_Status, if_pos hne2, h2]
  have hdate2 : (updateFields env2 (updateFields env1 o req1) req2).ShippedDate
      = some env2.now := by
    rw [updateFields_ShippedDate, hstat2, if_pos ⟨rfl, hdate1⟩]
  refine ⟨hstatus1, ⟨_, hfirst1, hstat1, hdate1⟩, ?_, _, ?_, hstat2, hdate2⟩
  · rw [UpdateOrder_found env2 _ id req2 _ hfirst1]
    simp only [hs2, Bool.false_eq_true, if_false]
  · rw [UpdateOrder_found env2 _ id req2 _ hfirst1]
    simp only [hs2, Bool.false_eq_true, if_false]
    exact firstOrder_saveOrder_same _ id _ _ hfirst1
      ((updateFields_ID env2 _ req2).1.trans hid1) ((updateFields_ID env2 _ req2).2.trans hdel1)

/-- Witness for C7 on the demo order: `PROCESSING` at time 8, `SHIPPED` at time 9. -/
theorem UpdateOrder_pending_processing_shipped_witness :
    (UpdateOrder (quietEnv 8) demoOrderStore 1 (statusRequest OrderStatusProcessing)).1.status
      = StatusOK ∧
    (UpdateOrder (quietEnv 9)
      (UpdateOrder (quietEnv 8) demoOrderStore 1 (statusRequest OrderStatusProcessing)).2 1
      (statusRequest OrderStatusShipped)).1.status = StatusOK ∧
    ∃ o2, firstOrder (UpdateOrder (quietEnv 9)
      (UpdateOrder (quietEnv 8) demoOrderStore 1 (statusRequest OrderStatusProcessing)).2 1
      (statusRequest OrderStatusShipped)).2 1 = some o2 ∧
      o2.Status = OrderStatusShipped ∧ o2.ShippedDate = some 9 := by
  have h := UpdateOrder_pending_processing_shipped (quietEnv 8) (quietEnv 9) demoOrderStore 1
    (statusRequest OrderStatusProcessing) (statusRequest OrderStatusShipped) demoOrder
    (by decide) (by decide) (by decide) rfl rfl rfl rfl
  exact ⟨h.1, h.2.2.1, h.2.2.2⟩

/-- C8: the dates of entering a state are set once.  For every stored order whose shipped
date (respectively delivered date) is set, no `UpdateOrder` call, on this order or another,
whatever it requests and whether or not its write succeeds, changes that date.  In particular,
when `SHIPPED` is applied twice to an order, the shipped date read back after the second
application is the one recorded by the first (the time of the first call if the order had no
shipped date before). -/
theorem UpdateOrder_dates_single_set {F : Type} (env : Env) (s : Store F) (id oid : Nat)
    (req : UpdateOrderRequest) (o : Order F) (ho : firstOrder s oid = some o) :
    (∀ t, o.ShippedDate = some t →
      ∃ o1, firstOrder (UpdateOrder env s id req).2 oid = some o1 ∧ o1.ShippedDate = some t) ∧
    (∀ t, o.DeliveredDate = some t →
      ∃ o1, firstOrder (UpdateOrder env s id req).2 oid = some o1 ∧
        o1.DeliveredDate = some t) ∧
    (∀ (env2 : Env) (req2 : UpdateOrderRequest), oid = id →
      req.Status = OrderStatusShipped → req2.Status = OrderStatusShipped →
      env.saveOrderFails = false →
      ∃ o1 o2, firstOrder (UpdateOrder env s id req).2 id = some o1 ∧
        firstOrder (UpdateOrder env2 (UpdateOrder env s id req).2 id req2).2 id = some o2 ∧
        o1.ShippedDate = some (o.ShippedDate.getD env.now) ∧
        o2.ShippedDate = o1.ShippedDate) := by
  have keyS : ∀ (e : Env) (s0 : Store F) (i k : Nat) (r : UpdateOrderRequest) (x : Order F)
      (t : Time), firstOrder s0 k = some x → x.ShippedDate = some t →
      ∃ o1, firstOrder (UpdateOrder e s0 i r).2 k = some o1 ∧ o1.ShippedDate = some t := by
    intro e s0 i k r x t hx ht
    rcases firstOrder_UpdateOrder e s0 i k r x hx with h | ⟨-, -, h⟩
    · exact ⟨x, h, ht⟩
    · refine ⟨_, h, ?_⟩
      rw [updateFields_ShippedDate, if_neg (by
        intro hc
        rw [ht] at hc
        exact absurd hc.2 (by simp)), ht]
  refine ⟨fun t ht => keyS env s id oid req o t ho ht, ?_, ?_⟩
  · intro t ht
    rcases firstOrder_UpdateOrder env s id oid req o ho with h | ⟨-, -, h⟩
    · exact ⟨o, h, ht⟩
    · refine ⟨_, h, ?_⟩
      rw [updateFields_DeliveredDate, if_neg (by
        intro hc
        rw [ht] at hc
        exact absurd hc.2 (by simp)), ht]
  · intro env2 req2 hoid h1 h2 hsave
    subst hoid
    obtain ⟨-, hid, hdel⟩ := firstOrder_spec ho
    have hne1 : req.Status ≠ "" := by rw [h1]; decide
    have hfirst1 : firstOrder (UpdateOrder env s oid req).2 oid
        = some (updateFields env o req) := by
      rw [UpdateOrder_found env s oid req o ho]
      simp only [hsave, Bool.false_eq_true, if_false]
      exact firstOrder_saveOrder_same s oid o _ ho
        ((updateFields_ID env o req).1.trans hid) ((updateFields_ID env o req).2.trans hdel)
    have hstat1 : (updateFields env o req).Status = OrderStatusShipped := by
      rw [updateFields_Status, if_pos hne1, h1]
    have ht : (updateFields env o req).ShippedDate = some (o.ShippedDate.getD env.now) := by
      rw [updateFields_ShippedDate, hstat1]
      cases hd : o.ShippedDate with
      | none => simp
      | some t => simp
    obtain ⟨o2, ho2, hd2⟩ := keyS env2 _ oid oid req2 _ _ hfirst1 ht
    exact ⟨_, o2, hfirst1, ho2, ht, by rw [hd2, ht]⟩

/-- Witness for C8 on the demo order: shipped at time 8, `SHIPPED` again at time 9. -/
theorem UpdateOrder_dates_single_set_witness :
    ∃ o1 o2, firstOrder (UpdateOrder (quietEnv 8) demoOrderStore 1
        (statusRequest OrderStatusShipped)).2 1 = some o1 ∧
      firstOrder (UpdateOrder (quietEnv 9) (UpdateOrder (quietEnv 8) demoOrderStore 1
        (statusRequest OrderStatusShipped)).2 1 (statusRequest OrderStatusShipped)).2 1
        = some o2 ∧
      o1.ShippedDate = some 8 ∧ o2.ShippedDate = o1.ShippedDate :=
  (UpdateOrder_dates_single_set (quietEnv 8) demoOrderStore 1 1
    (statusRequest OrderStatusShipped) demoOrder (by decide)).2.2 (quietEnv 9)
    (statusRequest OrderStatusShipped) rfl rfl rfl rfl


/-! ## `UpdateOrder` and the inventory -/

/-- C9, counterexample: on the demo store an order for 7 of the 10 units is created (its item
points at inventory row 1) and then cancelled through `UpdateOrder`; the call answers 200, the
order is `CANCELLED`, and the inventory row still has 7 units reserved and 3 available, not the
0 reserved and 10 available it had before the order was created. -/
theorem UpdateOrder_cancel_does_not_release :
    demoStore.inventory.map (fun r => (r.Quantity, r.Reserved)) = [(10, 0)] ∧
    (CreateOrder (quietEnv 5) demoStore (demoRequest 1 7)).1.status = StatusCreated ∧
    (firstOrder (CreateOrder (quietEnv 5) demoStore (demoRequest 1 7)).2 1).map
      (fun o => o.Status) = some OrderStatusPending ∧
    (CreateOrder (quietEnv 5) demoStore (demoRequest 1 7)).2.orderItems.map
      (fun it => (it.OrderID, it.Quantity, it.InventoryItemID)) = [(1, 7, some 1)] ∧
    (UpdateOrder (quietEnv 9) (CreateOrder (quietEnv 5) demoStore (demoRequest 1 7)).2 1
      (statusRequest OrderStatusCancelled)).1.status = StatusOK ∧
    (firstOrder (UpdateOrder (quietEnv 9)
      (CreateOrder (quietEnv 5) demoStore (demoRequest 1 7)).2 1
      (statusRequest OrderStatusCancelled)).2 1).map (fun o => o.Status)
      = some OrderStatusCancelled ∧
    (UpdateOrder (quietEnv 9) (CreateOrder (quietEnv 5) demoStore (demoRequest 1 7)).2 1
      (statusRequest OrderStatusCancelled)).2.inventory.map
      (fun r => (r.Quantity, r.Reserved)) = [(10, 7)] := by
  decide

/-- C9, as the code behaves: cancelling releases nothing.  For every order returned by a
committed `CreateOrder`, a subsequent `UpdateOrder` that sets its status to `CANCELLED` (the
write going through) answers 200 and the order is read back as `CANCELLED`, while every
inventory row, and so every reserved count, is exactly as `CreateOrder` left it; the order
items are untouched as well. -/
theorem UpdateOrder_cancel_leaves_reservations {F : Type} [Float64 F] (env env2 : Env)
    (s : Store F) (req : CreateOrderRequest) (upd : UpdateOrderRequest) (msg : String)
    (o : Order F)
    (hcreated : (CreateOrder env s req).1.body = Body.order msg o)
    (hcm : env.commitFails = false)
    (hupd : upd.Status = OrderStatusCancelled)
    (hsave : env2.saveOrderFails = false) :
    (UpdateOrder env2 (CreateOrder env s req).2 o.ID upd).1.status = StatusOK ∧
    (∃ o1, firstOrder (UpdateOrder env2 (CreateOrder env s req).2 o.ID upd).2 o.ID = some o1 ∧
      o1.Status = OrderStatusCancelled) ∧
    (UpdateOrder env2 (CreateOrder env s req).2 o.ID upd).2.inventory
      = (CreateOrder env s req).2.inventory ∧
    (UpdateOrder env2 (CreateOrder env s req).2 o.ID upd).2.orderItems
      = (CreateOrder env s req).2.orderItems := by
  have ho := firstOrder_CreateOrder env s req msg o hcreated hcm
  obtain ⟨-, hid, hdel⟩ := firstOrder_spec ho
  have hne : upd.Status ≠ "" := by rw [hupd]; decide
  refine ⟨?_, ⟨updateFields env2 o upd, ?_, ?_⟩, (UpdateOrder_frame env2 _ o.ID upd).1,
    (UpdateOrder_frame env2 _ o.ID upd).2.1⟩
  · rw [UpdateOrder_found env2 _ o.ID upd o ho]
    simp only [hsave, Bool.false_eq_true, if_false]
  · rw [UpdateOrder_found env2 _ o.ID upd o ho]
    simp only [hsave, Bool.false_eq_true, if_false]
    exact firstOrder_saveOrder_same _ o.ID o _ ho
      ((updateFields_ID env2 o upd).1.trans hid) ((updateFields_ID env2 o upd).2.trans hdel)
  · rw [updateFields_Status, if_pos hne, hupd]

/-- Witness for the amended C9 on the demo store. -/
theorem UpdateOrder_cancel_leaves_reservations_witness :
    (CreateOrder (quietEnv 5) demoStore (demoRequest 1 7)).1.body
      = Body.order "Order created successfully" demoOrder ∧
    (UpdateOrder (quietEnv 9) (CreateOrder (quietEnv 5) demoStore (demoRequest 1 7)).2
      demoOrder.ID (statusRequest OrderStatusCancelled)).1.status = StatusOK ∧
    (UpdateOrder (quietEnv 9) (CreateOrder (quietEnv 5) demoStore (demoRequest 1 7)).2
      demoOrder.ID (statusRequest OrderStatusCancelled)).2.inventory
      = (CreateOrder (quietEnv 5) demoStore (demoRequest 1 7)).2.inventory := by
  have h := UpdateOrder_cancel_leaves_reservations (quietEnv 5) (quietEnv 9) demoStore
    (demoRequest 1 7) (statusRequest OrderStatusCancelled) "Order created successfully"
    demoOrder (by decide) rfl rfl rfl
  exact ⟨by decide, h.1, h.2.2.1⟩

/-- C10, counterexample: the order for 7 of the 10 units of the demo store is moved to
`PROCESSING` and then to `SHIPPED`; both calls answer 200, the order is `SHIPPED`, and the
inventory row still has quantity 10 and 7 reserved, not quantity 3 and 0 reserved. -/
theorem UpdateOrder_ship_does_not_commit :
    (CreateOrder (quietEnv 5) demoStore (demoRequest 1 7)).2.inventory.map
      (fun r => (r.Quantity, r.Reserved)) = [(10, 7)] ∧
    (UpdateOrder (quietEnv 9)
      (UpdateOrder (quietEnv 8) (CreateOrder (quietEnv 5) demoStore (demoRequest 1 7)).2 1
        (statusRequest OrderStatusProcessing)).2 1
      (statusRequest OrderStatusShipped)).1.status = StatusOK ∧
    (firstOrder (UpdateOrder (quietEnv 9)
      (UpdateOrder (quietEnv 8) (CreateOrder (quietEnv 5) demoStore (demoRequest 1 7)).2 1
        (statusRequest OrderStatusProcessing)).2 1
      (statusRequest OrderStatusShipped)).2 1).map (fun o => o.Status)
      = some OrderStatusShipped ∧
    (UpdateOrder (quietEnv 9)
      (UpdateOrder (quietEnv 8) (CreateOrder (quietEnv 5) demoStore (demoRequest 1 7)).2 1
        (statusRequest OrderStatusProcessing)).2 1
      (statusRequest OrderStatusShipped)).2.inventory.map
      (fun r => (r.Quantity, r.Reserved)) = [(10, 7)] := by
  decide

/-- C10, as the code behaves: shipping commits nothing.  When `UpdateOrder` moves a stored
order to `SHIPPED` (the write going through), the call answers 200, the order is read back as
`SHIPPED` with its shipped date stored (the time of the call if no shipped date was set before,
the earlier date otherwise), and every inventory row keeps its quantity and its reserved count:
the inventory is left exactly as it was. -/
theorem UpdateOrder_ship_leaves_inventory {F : Type} (env : Env) (s : Store F) (id : Nat)
    (req : UpdateOrderRequest) (o : Order F)
    (ho : firstOrder s id = some o)
    (hreq : req.Status = OrderStatusShipped)
    (hsave : env.saveOrderFails = false) :
    (UpdateOrder env s id req).1.status = StatusOK ∧
    (∃ o1, firstOrder (UpdateOrder env s id req).2 id = some o1 ∧
      o1.Status = OrderStatusShipped ∧
      o1.ShippedDate = (if o.ShippedDate = none then some env.now else o.ShippedDate)) ∧
    (UpdateOrder env s id req).2.inventory = s.inventory ∧
    (UpdateOrder env s id req).2.inventory.map (fun r => (r.Quantity, r.Reserved))
      = s.inventory.map (fun r => (r.Quantity, r.Reserved)) := by
  obtain ⟨-, hid, hdel⟩ := firstOrder_spec ho
  have hne : req.Status ≠ "" := by rw [hreq]; decide
  have hinv := (UpdateOrder_frame env s id req).1
  refine ⟨?_, ⟨updateFields env o req, ?_, ?_, ?_⟩, hinv, by rw [hinv]⟩
  · rw [UpdateOrder_found env s id req o ho]
    simp only [hsave, Bool.false_eq_true, if_false]
  · rw [UpdateOrder_found env s id req o ho]
    simp only [hsave, Bool.false_eq_true, if_false]
    exact firstOrder_saveOrder_same s id o _ ho
      ((updateFields_ID env o req).1.trans hid) ((updateFields_ID env o req).2.trans hdel)
  · rw [updateFields_Status, if_pos hne, hreq]
  · rw [updateFields_ShippedDate, updateFields_Status, if_pos hne, hreq]
    by_cases hd : o.ShippedDate = none
    · rw [if_pos ⟨rfl, hd⟩, if_pos hd]
    · rw [if_neg (fun h => hd h.2), if_neg hd]

/-- Witness for the amended C10: the processing demo order is shipped at time 9. -/
theorem UpdateOrder_ship_leaves_inventory_witness :
    (UpdateOrder (quietEnv 9)
      { demoOrderStore with orders := [{ demoOrder with Status := OrderStatusProcessing }] } 1
      (statusRequest OrderStatusShipped)).1.status = StatusOK ∧
    (∃ o1, firstOrder (UpdateOrder (quietEnv 9)
      { demoOrderStore with orders := [{ demoOrder with Status := OrderStatusProcessing }] } 1
      (statusRequest OrderStatusShipped)).2 1 = some o1 ∧
      o1.Status = OrderStatusShipped ∧ o1.ShippedDate = some 9) ∧
    (UpdateOrder (quietEnv 9)
      { demoOrderStore with orders := [{ demoOrder with Status := OrderStatusProcessing }] } 1
      (statusRequest OrderStatusShipped)).2.inventory = [demoItem 7] := by
  have h := UpdateOrder_ship_leaves_inventory (quietEnv 9)
    { demoOrderStore with orders := [{ demoOrder with Status := OrderStatusProcessing }] } 1
    (statusRequest OrderStatusShipped) { demoOrder with Status := OrderStatusProcessing }
    (by decide) rfl rfl
  exact ⟨h.1, h.2.1, h.2.2.1⟩


/-! ## The items persisted by a successful call -/

theorem firstProduct_congr {F : Type} {tx1 tx2 : Store F} (h : tx1.products = tx2.products)
    (id : Nat) : firstProduct tx1 id = firstProduct tx2 id := by
  unfold firstProduct
  rw [h]

theorem forall₂_comp {α β γ : Type} {R : α → β → Prop} {S : β → γ → Prop} :
    ∀ {a : List α} {b : List β} {c : List γ}, List.Forall₂ R a b → List.Forall₂ S b c →
      List.Forall₂ (fun x z => ∃ y, R x y ∧ S y z) a c
  | [], _, _, h1, h2 => by
    cases h1
    cases h2
    exact List.Forall₂.nil
  | x :: a, _, _, h1, h2 => by
    cases h1 with
    | cons hxy hab =>
      cases h2 with
      | cons hyz hbc => exact List.Forall₂.cons ⟨_, hxy, hyz⟩ (forall₂_comp hab hbc)

/-- The items collected by the loop: one per line, built from the product of the line, and
`totalAmount` is their running sum. -/
theorem processLines_items {F : Type} [Float64 F] (env : Env) :
    ∀ (lines : List OrderItemRequest) (i : Nat) (st st1 : LineState F),
      processLines env i st lines = Except.ok st1 →
      ∃ newItems, st1.items = st.items ++ newItems ∧
        List.Forall₂ (fun l it => ∃ product inv,
          firstProduct st.tx l.ProductID = some product ∧ it = newOrderItem product inv l)
          lines newItems ∧
        st1.totalAmount
          = newItems.foldl (fun acc it => Float64.add acc it.TotalAmount) st.totalAmount
  | [], i, st, st1, h => by
    simp [processLines] at h
    rw [← h]
    exact ⟨[], by simp, List.Forall₂.nil, rfl⟩
  | l :: rest, i, st, st1, h => by
    simp only [processLines] at h
    cases hl : processLine env i st l with
    | error resp => rw [hl] at h; simp at h
    | ok st2 =>
      rw [hl] at h
      obtain ⟨product, inv, hp, -, -, -, hst2⟩ := processLine_ok hl
      obtain ⟨newItems, hitems, hall, htotal⟩ := processLines_items env rest (i + 1) st2 st1 h
      have hprods : st2.tx.products = st.tx.products := by rw [hst2]; rfl
      refine ⟨newOrderItem product inv l :: newItems, ?_, ?_, ?_⟩
      · rw [hitems, hst2]
        simp
      · refine List.Forall₂.cons ⟨product, inv, hp, rfl⟩ ?_
        refine hall.imp ?_
        rintro l1 it ⟨p1, i1, hp1, hit⟩
        exact ⟨p1, i1, by rw [← firstProduct_congr hprods]; exact hp1, hit⟩
      · rw [htotal, hst2]
        rfl

/-- The rows inserted by the loop over `items`: one per item, appended to the table. -/
theorem createOrderItems_items {F : Type} (env : Env) (orderID : Nat) :
    ∀ (items : List (OrderItem F)) (i : Nat) (tx tx2 : Store F),
      createOrderItems env orderID i tx items = some tx2 →
      ∃ persisted, tx2.orderItems = tx.orderItems ++ persisted ∧
        List.Forall₂ (persistedAs orderID) items persisted
  | [], i, tx, tx2, h => by
    simp [createOrderItems] at h
    rw [← h]
    exact ⟨[], by simp, List.Forall₂.nil⟩
  | item :: rest, i, tx, tx2, h => by
    simp only [createOrderItems] at h
    split at h
    · simp at h
    · obtain ⟨persisted, hp, hall⟩ := createOrderItems_items env orderID rest (i + 1) _ tx2 h
      refine ⟨{ item with
          OrderID := orderID, ID := nextID (tx.orderItems.map (fun o => o.ID)),
          Status := if item.Status = "" then "active" else item.Status } :: persisted,
        ?_, List.Forall₂.cons ?_ hall⟩
      · rw [hp]
        simp only [createOrderItem, List.append_assoc, List.singleton_append]
      · rfl

theorem createOrder_orderItems {F : Type} {env : Env} {tx tx1 : Store F} {order order1 : Order F}
    (h : createOrder env tx order = some (tx1, order1)) :
    tx1.orderItems = tx.orderItems ∧
    order1 = { order with ID := nextID (tx.orders.map (fun o => o.ID)) } := by
  unfold createOrder at h
  split at h
  · simp at h
  · simp at h
    rw [← h.1, ← h.2]
    exact ⟨rfl, rfl⟩

/-- The order answered by `CreateOrder` and the item rows inserted for it. -/
theorem CreateOrder_persisted {F : Type} [Float64 F] (env : Env) (s : Store F)
    (req : CreateOrderRequest) (msg : String) (o : Order F)
    (h : (CreateOrder env s req).1.body = Body.order msg o)
    (hcm : env.commitFails = false) :
    ∃ (st : LineState F) (persisted : List (OrderItem F)),
      o = { (newOrder env req : Order F) with
            TotalAmount := st.totalAmount, FinalAmount := st.totalAmount,
            ID := nextID (s.orders.map (fun x => x.ID)) } ∧
      (CreateOrder env s req).2.orderItems = s.orderItems ++ persisted ∧
      List.Forall₂ (fun l it => ∃ product inv,
        firstProduct s l.ProductID = some product ∧ it = newOrderItem product inv l)
        req.Items st.items ∧
      List.Forall₂ (persistedAs o.ID) st.items persisted ∧
      st.totalAmount = sumTotals st.items := by
  obtain ⟨st, tx1, tx2, hl, hc, hi, -, hstore⟩ := CreateOrder_created env s req msg o h
  obtain ⟨-, horders, hoi, -⟩ := processLines_frame env req.Items 0 _ st hl
  obtain ⟨newItems, hitems, hall, htotal⟩ := processLines_items env req.Items 0 _ st hl
  obtain ⟨hoi1, ho⟩ := createOrder_orderItems hc
  obtain ⟨persisted, hp, hpall⟩ := createOrderItems_items env o.ID st.items 0 tx1 tx2 hi
  simp only [List.nil_append] at hitems
  refine ⟨st, persisted, ?_, ?_, ?_, hpall, ?_⟩
  · rw [ho, horders]
  · rw [hstore]
    simp only [hcm, Bool.false_eq_true, if_false]
    rw [hp, hoi1, hoi]
  · rw [hitems]
    exact hall
  · rw [htotal, hitems]
    rfl


theorem forall₂_right_mem {α β : Type} {R : α → β → Prop} :
    ∀ {xs : List α} {ys : List β}, List.Forall₂ R xs ys → ∀ {y : β}, y ∈ ys →
      ∃ x ∈ xs, R x y
  | _, _, List.Forall₂.nil, y, hy => by simp at hy
  | _, _, List.Forall₂.cons hxy hrest, y, hy => by
    rcases List.mem_cons.1 hy with h | h
    · subst h
      exact ⟨_, List.mem_cons_self _ _, hxy⟩
    · obtain ⟨x, hx, hr⟩ := forall₂_right_mem hrest h
      exact ⟨x, List.mem_cons_of_mem _ hx, hr⟩

theorem persistedAs_fields {F : Type} {orderID : Nat} {it p : OrderItem F}
    (h : persistedAs orderID it p) :
    p.OrderID = orderID ∧ p.ProductID = it.ProductID ∧ p.Quantity = it.Quantity ∧
    p.UnitPrice = it.UnitPrice ∧ p.TotalAmount = it.TotalAmount ∧
    p.InventoryItemID = it.InventoryItemID := by
  unfold persistedAs at h
  refine ⟨?_, ?_, ?_, ?_, ?_, ?_⟩ <;> (rw [h])

theorem foldl_totals_congr {F : Type} [Float64 F] :
    ∀ {xs ys : List (OrderItem F)},
      List.Forall₂ (fun a b => b.TotalAmount = a.TotalAmount) xs ys → ∀ acc : F,
      ys.foldl (fun acc it => Float64.add acc it.TotalAmount) acc
        = xs.foldl (fun acc it => Float64.add acc it.TotalAmount) acc
  | [], _, h, acc => by cases h; rfl
  | x :: xs, _, h, acc => by
    cases h with
    | cons hxy hrest =>
      simp only [List.foldl_cons, hxy]
      exact foldl_totals_congr hrest _

/-- C15: the prices of the persisted order items.  For every successful `CreateOrder` (the
answer carries the order and the commit went through) the call appends one order item per
request line, in order; each belongs to the new order, has the product id and quantity of its
line, its unit price is the base price of the product as `First` read it, and its total amount
is the `float64` product of the unit price and `float64(quantity)`. -/
theorem CreateOrder_item_prices {F : Type} [Float64 F] (env : Env) (s : Store F)
    (req : CreateOrderRequest) (msg : String) (o : Order F)
    (hcreated : (CreateOrder env s req).1.body = Body.order msg o)
    (hcm : env.commitFails = false) :
    ∃ persisted, (CreateOrder env s req).2.orderItems = s.orderItems ++ persisted ∧
      List.Forall₂ (fun l p => ∃ product,
        firstProduct s l.ProductID = some product ∧
        p.OrderID = o.ID ∧ p.ProductID = l.ProductID ∧ p.Quantity = l.Quantity ∧
        p.UnitPrice = product.BasePrice ∧
        p.TotalAmount = Float64.mul p.UnitPrice (Float64.ofInt l.Quantity))
        req.Items persisted := by
  obtain ⟨st, persisted, -, hstore, hlines, hpers, -⟩ :=
    CreateOrder_persisted env s req msg o hcreated hcm
  refine ⟨persisted, hstore, (forall₂_comp hlines hpers).imp ?_⟩
  rintro l p ⟨it, ⟨product, inv, hp, hit⟩, hpa⟩
  obtain ⟨h1, h2, h3, h4, h5, -⟩ := persistedAs_fields hpa
  subst hit
  refine ⟨product, hp, h1, ?_, h3, h4, ?_⟩
  · rw [h2]
    exact firstProduct_ID hp
  · rw [h5, h4]
    rfl

/-- Witness for C15 on the demo store: 7 units of product 1 at price 4. -/
theorem CreateOrder_item_prices_witness :
    (CreateOrder (quietEnv 5) demoStore (demoRequest 1 7)).1.body
      = Body.order "Order created successfully" demoOrder ∧
    ∃ persisted, (CreateOrder (quietEnv 5) demoStore (demoRequest 1 7)).2.orderItems
        = demoStore.orderItems ++ persisted ∧
      List.Forall₂ (fun l p => ∃ product,
        firstProduct demoStore l.ProductID = some product ∧
        p.OrderID = demoOrder.ID ∧ p.ProductID = l.ProductID ∧ p.Quantity = l.Quantity ∧
        p.UnitPrice = product.BasePrice ∧
        p.TotalAmount = Float64.mul p.UnitPrice (Float64.ofInt l.Quantity))
        (demoRequest 1 7).Items persisted :=
  ⟨by decide,
    CreateOrder_item_prices (quietEnv 5) demoStore (demoRequest 1 7)
      "Order created successfully" demoOrder (by decide) rfl⟩

/-- C16: the order total is the sum of its items.  For every successful `CreateOrder` the
order is stored under its id and its `TotalAmount` is the sum, accumulated in `float64` in
line order from zero, of the `TotalAmount` of the order items the call inserted for it, one per
request line; when every earlier order item refers to a stored order, these are exactly the
stored items carrying the id of the new order. -/
theorem CreateOrder_total_is_sum {F : Type} [Float64 F] (env : Env) (s : Store F)
    (req : CreateOrderRequest) (msg : String) (o : Order F)
    (hcreated : (CreateOrder env s req).1.body = Body.order msg o)
    (hcm : env.commitFails = false) :
    firstOrder (CreateOrder env s req).2 o.ID = some o ∧
    ∃ persisted, (CreateOrder env s req).2.orderItems = s.orderItems ++ persisted ∧
      persisted.length = req.Items.length ∧
      (∀ p ∈ persisted, p.OrderID = o.ID) ∧
      o.TotalAmount = sumTotals persisted ∧
      ((∀ it ∈ s.orderItems, ∃ ord ∈ s.orders, ord.ID = it.OrderID) →
        (CreateOrder env s req).2.orderItems.filter (fun p => decide (p.OrderID = o.ID))
          = persisted) := by
  obtain ⟨st, persisted, ho, hstore, hlines, hpers, htotal⟩ :=
    CreateOrder_persisted env s req msg o hcreated hcm
  have hall : ∀ p ∈ persisted, p.OrderID = o.ID := by
    intro p hp
    obtain ⟨it, -, hpa⟩ := forall₂_right_mem hpers hp
    exact (persistedAs_fields hpa).1
  have hid : o.ID = nextID (s.orders.map (fun x => x.ID)) := by rw [ho]
  refine ⟨firstOrder_CreateOrder env s req msg o hcreated hcm, persisted, hstore, ?_, hall,
    ?_, ?_⟩
  · rw [← hpers.length_eq, hlines.length_eq]
  · have htot : o.TotalAmount = st.totalAmount := by rw [ho]
    rw [htot, htotal]
    unfold sumTotals
    exact (foldl_totals_congr (hpers.imp (fun a b hab => (persistedAs_fields hab).2.2.2.2.1))
      Float64.zero).symm
  · intro hfk
    rw [hstore, List.filter_append]
    have h1 : s.orderItems.filter (fun p => decide (p.OrderID = o.ID)) = [] := by
      rw [List.filter_eq_nil_iff]
      intro it hit
      obtain ⟨ord, hord, hoid⟩ := hfk it hit
      have hlt : ord.ID < nextID (s.orders.map (fun x => x.ID)) :=
        lt_nextID (List.mem_map_of_mem _ hord)
      simp only [decide_eq_true_eq]
      omega
    have h2 : persisted.filter (fun p => decide (p.OrderID = o.ID)) = persisted := by
      rw [List.filter_eq_self]
      intro p hp
      simp only [decide_eq_true_eq]
      exact hall p hp
    rw [h1, h2, List.nil_append]


/-- Witness for C16 on the two-product store: lines of 3 and 4 units of product 1, total
12 + 16 = 28. -/
theorem CreateOrder_total_is_sum_witness :
    ∃ o, (CreateOrder (quietEnv 5) demoStoreTwo (demoRequestOf
        [{ ProductID := 1, Quantity := 3 }, { ProductID := 1, Quantity := 4 }])).1.body
        = Body.order "Order created successfully" o ∧
      o.TotalAmount = 28 ∧
      ∃ persisted, (CreateOrder (quietEnv 5) demoStoreTwo (demoRequestOf
          [{ ProductID := 1, Quantity := 3 }, { ProductID := 1, Quantity := 4 }])).2.orderItems
          = demoStoreTwo.orderItems ++ persisted ∧ persisted.length = 2 ∧
        o.TotalAmount = sumTotals persisted := by
  refine ⟨{ demoOrder with TotalAmount := 28, FinalAmount := 28 }, by decide, by decide, ?_⟩
  obtain ⟨-, persisted, h1, h2, -, h4, -⟩ := CreateOrder_total_is_sum (quietEnv 5) demoStoreTwo
    (demoRequestOf [{ ProductID := 1, Quantity := 3 }, { ProductID := 1, Quantity := 4 }])
    "Order created successfully" { demoOrder with TotalAmount := 28, FinalAmount := 28 }
    (by decide) rfl
  exact ⟨persisted, h1, h2, h4⟩

/-- C17: for every successful `CreateOrder` the persisted order has `FinalAmount` equal to its
`TotalAmount`, and its tax, shipping and discount amounts are the zero value. -/
theorem CreateOrder_final_equals_total {F : Type} [Float64 F] (env : Env) (s : Store F)
    (req : CreateOrderRequest) (msg : String) (o : Order F)
    (hcreated : (CreateOrder env s req).1.body = Body.order msg o)
    (hcm : env.commitFails = false) :
    firstOrder (CreateOrder env s req).2 o.ID = some o ∧
    o.FinalAmount = o.TotalAmount ∧
    o.TaxAmount = Float64.zero ∧ o.ShippingAmount = Float64.zero ∧
    o.DiscountAmount = Float64.zero := by
  obtain ⟨st, persisted, ho, -⟩ := CreateOrder_persisted env s req msg o hcreated hcm
  refine ⟨firstOrder_CreateOrder env s req msg o hcreated hcm, ?_, ?_, ?_, ?_⟩ <;> rw [ho] <;> rfl

/-- Witness for C17 on the demo store. -/
theorem CreateOrder_final_equals_total_witness :
    (CreateOrder (quietEnv 5) demoStore (demoRequest 1 7)).1.body
      = Body.order "Order created successfully" demoOrder ∧
    firstOrder (CreateOrder (quietEnv 5) demoStore (demoRequest 1 7)).2 demoOrder.ID
      = some demoOrder ∧
    demoOrder.FinalAmount = demoOrder.TotalAmount :=
  ⟨by decide,
    (CreateOrder_final_equals_total (quietEnv 5) demoStore (demoRequest 1 7)
      "Order created successfully" demoOrder (by decide) rfl).1,
    (CreateOrder_final_equals_total (quietEnv 5) demoStore (demoRequest 1 7)
      "Order created successfully" demoOrder (by decide) rfl).2.1⟩

/-- C18: every order persisted by `CreateOrder` starts in the initial state of the lifecycle:
its status is `PENDING`, its payment status is `PENDING`, and its shipped and delivered dates
are unset. -/
theorem CreateOrder_initial_state {F : Type} [Float64 F] (env : Env) (s : Store F)
    (req : CreateOrderRequest) (msg : String) (o : Order F)
    (hcreated : (CreateOrder env s req).1.body = Body.order msg o)
    (hcm : env.commitFails = false) :
    firstOrder (CreateOrder env s req).2 o.ID = some o ∧
    o.Status = OrderStatusPending ∧ o.PaymentStatus = PaymentStatusPending ∧
    o.ShippedDate = none ∧ o.DeliveredDate = none := by
  obtain ⟨st, persisted, ho, -⟩ := CreateOrder_persisted env s req msg o hcreated hcm
  refine ⟨firstOrder_CreateOrder env s req msg o hcreated hcm, ?_, ?_, ?_, ?_⟩ <;> rw [ho] <;> rfl

/-- Witness for C18 on the demo store. -/
theorem CreateOrder_initial_state_witness :
    (CreateOrder (quietEnv 5) demoStore (demoRequest 1 7)).1.body
      = Body.order "Order created successfully" demoOrder ∧
    firstOrder (CreateOrder (quietEnv 5) demoStore (demoRequest 1 7)).2 demoOrder.ID
      = some demoOrder ∧
    demoOrder.Status = OrderStatusPending ∧ demoOrder.ShippedDate = none :=
  ⟨by decide,
    (CreateOrder_initial_state (quietEnv 5) demoStore (demoRequest 1 7)
      "Order created successfully" demoOrder (by decide) rfl).1,
    (CreateOrder_initial_state (quietEnv 5) demoStore (demoRequest 1 7)
      "Order created successfully" demoOrder (by decide) rfl).2.1,
    (CreateOrder_initial_state (quietEnv 5) demoStore (demoRequest 1 7)
      "Order created successfully" demoOrder (by decide) rfl).2.2.2.1⟩

/-! ## Order numbers -/

/-- C20, the code at the failing input: two successive calls on the demo store, 3 units each
of the 10 in stock, the validator accepting and no statement failing otherwise.  The first
answers 201 and stores an order whose number is the empty string; the second runs into the
unique index on the order number, answers 500 "Failed to create order" and stores nothing. -/
theorem CreateOrder_second_order_number_clash :
    (CreateOrder (quietEnv 5) demoStore (demoRequest 1 3)).1.status = StatusCreated ∧
    (CreateOrder (quietEnv 5) demoStore (demoRequest 1 3)).2.orders.map
      (fun o => o.OrderNumber) = [""] ∧
    (CreateOrder (quietEnv 5) demoStore (demoRequest 1 3)).2.inventory.map
      (fun r => (r.Quantity, r.Reserved)) = [(10, 3)] ∧
    CreateOrder (quietEnv 6) (CreateOrder (quietEnv 5) demoStore (demoRequest 1 3)).2
      (demoRequest 1 3)
      = (errorResponse StatusInternalServerError "Failed to create order",
          (CreateOrder (quietEnv 5) demoStore (demoRequest 1 3)).2) := by
  decide


/-! ## `UpdatePurchaseOrder`: lemmas -/

theorem firstPurchaseOrder_spec {F : Type} {s : Store F} {id : Nat} {po : PurchaseOrder F}
    (h : firstPurchaseOrder s id = some po) :
    po ∈ s.purchaseOrders ∧ po.ID = id ∧ po.DeletedAt = none := by
  have h1 := List.find?_some h
  have h2 := List.mem_of_find?_eq_some h
  simp at h1
  exact ⟨h2, h1.1, h1.2⟩

theorem purchaseOrder_ite_ID {F : Type} (c : Prop) [Decidable c] (a b : PurchaseOrder F) :
    (if c then a else b).ID = if c then a.ID else b.ID := by split <;> rfl

theorem purchaseOrder_ite_DeletedAt {F : Type} (c : Prop) [Decidable c]
    (a b : PurchaseOrder F) :
    (if c then a else b).DeletedAt = if c then a.DeletedAt else b.DeletedAt := by
  split <;> rfl

theorem purchaseOrder_ite_Status {F : Type} (c : Prop) [Decidable c] (a b : PurchaseOrder F) :
    (if c then a else b).Status = if c then a.Status else b.Status := by split <;> rfl

theorem purchaseOrder_ite_ApprovedDate {F : Type} (c : Prop) [Decidable c]
    (a b : PurchaseOrder F) :
    (if c then a else b).ApprovedDate = if c then a.ApprovedDate else b.ApprovedDate := by
  split <;> rfl

theorem purchaseOrder_ite_ShippedDate {F : Type} (c : Prop) [Decidable c]
    (a b : PurchaseOrder F) :
    (if c then a else b).ShippedDate = if c then a.ShippedDate else b.ShippedDate := by
  split <;> rfl

theorem purchaseOrder_ite_ReceivedDate {F : Type} (c : Prop) [Decidable c]
    (a b : PurchaseOrder F) :
    (if c then a else b).ReceivedDate = if c then a.ReceivedDate else b.ReceivedDate := by
  split <;> rfl

theorem updatePurchaseOrderFields_ID {F : Type} (env : Env) (po : PurchaseOrder F)
    (req : UpdatePurchaseOrderRequest) :
    (updatePurchaseOrderFields env po req).ID = po.ID ∧
    (updatePurchaseOrderFields env po req).DeletedAt = po.DeletedAt := by
  constructor
  · simp only [updatePurchaseOrderFields, purchaseOrder_ite_ID, ite_self]
  · simp only [updatePurchaseOrderFields, purchaseOrder_ite_DeletedAt, ite_self]

theorem updatePurchaseOrderFields_Status {F : Type} (env : Env) (po : PurchaseOrder F)
    (req : UpdatePurchaseOrderRequest) :
    (updatePurchaseOrderFields env po req).Status
      = if req.Status ≠ "" then req.Status else po.Status := by
  simp only [updatePurchaseOrderFields, purchaseOrder_ite_Status, ite_self]

/-- No assignment of `UpdatePurchaseOrder` writes the approved date. -/
theorem updatePurchaseOrderFields_ApprovedDate {F : Type} (env : Env) (po : PurchaseOrder F)
    (req : UpdatePurchaseOrderRequest) :
    (updatePurchaseOrderFields env po req).ApprovedDate = po.ApprovedDate := by
  simp only [updatePurchaseOrderFields, purchaseOrder_ite_ApprovedDate, ite_self]

theorem updatePurchaseOrderFields_ShippedDate {F : Type} (env : Env) (po : PurchaseOrder F)
    (req : UpdatePurchaseOrderRequest) :
    (updatePurchaseOrderFields env po req).ShippedDate =
      if (updatePurchaseOrderFields env po req).Status = POStatusShipped ∧
          po.ShippedDate = none then
        some env.now
      else po.ShippedDate := by
  rw [updatePurchaseOrderFields_Status]
  simp only [updatePurchaseOrderFields, purchaseOrder_ite_ShippedDate,
    purchaseOrder_ite_Status, ite_self]

theorem updatePurchaseOrderFields_ReceivedDate {F : Type} (env : Env) (po : PurchaseOrder F)
    (req : UpdatePurchaseOrderRequest) :
    (updatePurchaseOrderFields env po req).ReceivedDate =
      if (updatePurchaseOrderFields env po req).Status = POStatusReceived ∧
          po.ReceivedDate = none then
        some env.now
      else po.ReceivedDate := by
  rw [updatePurchaseOrderFields_Status]
  simp only [updatePurchaseOrderFields, purchaseOrder_ite_ReceivedDate,
    purchaseOrder_ite_Status, ite_self]

/-- After `Save`, the addressed purchase order is read back as saved. -/
theorem firstPurchaseOrder_save_same {F : Type} (s : Store F) (id : Nat)
    (po po1 : PurchaseOrder F)
    (h : firstPurchaseOrder s id = some po) (hid : po1.ID = id) (hdel : po1.DeletedAt = none) :
    firstPurchaseOrder (savePurchaseOrder s po1) id = some po1 := by
  unfold firstPurchaseOrder at h ⊢
  have := find?_map_replace
    (fun r : PurchaseOrder F => decide (r.ID = id) && decide (r.DeletedAt = none))
    po1 (by simp [hid, hdel]) s.purchaseOrders
  simp only [Bool.and_eq_true, decide_eq_true_eq] at this
  simp only [savePurchaseOrder, hid]
  rw [this, h]
  rfl

/-- The two outcomes of `UpdatePurchaseOrder` on an existing purchase order. -/
theorem UpdatePurchaseOrder_found {F : Type} (env : Env) (s : Store F) (id : Nat)
    (req : UpdatePurchaseOrderRequest) (po : PurchaseOrder F)
    (h : firstPurchaseOrder s id = some po) :
    UpdatePurchaseOrder env s id req =
      if env.savePurchaseOrderFails then
        (errorResponse StatusInternalServerError "Failed to update purchase order", s)
      else
        ({ status := StatusOK
           body := Body.purchaseOrder "Purchase order updated successfully"
             (updatePurchaseOrderFields env po req) },
          savePurchaseOrder s (updatePurchaseOrderFields env po req)) := by
  unfold UpdatePurchaseOrder
  rw [h]

/-- What `UpdatePurchaseOrder` stores when the write goes through. -/
theorem UpdatePurchaseOrder_stored {F : Type} (env : Env) (s : Store F) (id : Nat)
    (req : UpdatePurchaseOrderRequest) (po : PurchaseOrder F)
    (h : firstPurchaseOrder s id = some po) (hsave : env.savePurchaseOrderFails = false) :
    (UpdatePurchaseOrder env s id req).1.status = StatusOK ∧
    firstPurchaseOrder (UpdatePurchaseOrder env s id req).2 id
      = some (updatePurchaseOrderFields env po req) := by
  obtain ⟨-, hid, hdel⟩ := firstPurchaseOrder_spec h
  rw [UpdatePurchaseOrder_found env s id req po h]
  simp only [hsave, Bool.false_eq_true, if_false]
  exact ⟨trivial, firstPurchaseOrder_save_same s id po _ h
    ((updatePurchaseOrderFields_ID env po req).1.trans hid)
    ((updatePurchaseOrderFields_ID env po req).2.trans hdel)⟩

/-- `UpdatePurchaseOrder` writes to the table of purchase orders only. -/
theorem UpdatePurchaseOrder_frame {F : Type} (env : Env) (s : Store F) (id : Nat)
    (req : UpdatePurchaseOrderRequest) :
    (UpdatePurchaseOrder env s id req).2.poItems = s.poItems ∧
    (UpdatePurchaseOrder env s id req).2.inventory = s.inventory := by
  unfold UpdatePurchaseOrder
  cases firstPurchaseOrder s id with
  | none => exact ⟨rfl, rfl⟩
  | some o =>
    simp only
    split <;> exact ⟨rfl, rfl⟩

/-- The failure cases of `UpdatePurchaseOrder` leave the store as it was. -/
theorem UpdatePurchaseOrder_failure {F : Type} (env : Env) (s : Store F) (id : Nat)
    (req : UpdatePurchaseOrderRequest) :
    (firstPurchaseOrder s id = none →
      UpdatePurchaseOrder env s id req
        = (errorResponse StatusNotFound "Purchase order not found", s)) ∧
    (env.savePurchaseOrderFails = true →
      (UpdatePurchaseOrder env s id req).1.status ≠ StatusOK ∧
      (UpdatePurchaseOrder env s id req).2 = s) := by
  constructor
  · intro hnone
    unfold UpdatePurchaseOrder
    rw [hnone]
  · intro hsave
    unfold UpdatePurchaseOrder
    cases firstPurchaseOrder s id with
    | none => exact ⟨notFound_ne_ok, rfl⟩
    | some o =>
      simp only [hsave, if_true]
      exact ⟨internalServerError_ne_ok, trivial⟩


/-! ## Status transitions in `UpdatePurchaseOrder` -/

/-- C11, counterexample: neither `RECEIVED → DRAFT` nor `SHIPPED → CANCELLED` is an edge of
the PurchaseOrder table, yet `UpdatePurchaseOrder` answers 200 to both requests and stores the
requested status. -/
theorem UpdatePurchaseOrder_illegal_transitions_accepted :
    specPurchaseOrderEdge POStatusReceived POStatusDraft = false ∧
    (UpdatePurchaseOrder (quietEnv 9) (demoPOStore POStatusReceived) 1
      (poStatusRequest POStatusDraft)).1.status = StatusOK ∧
    (firstPurchaseOrder (UpdatePurchaseOrder (quietEnv 9) (demoPOStore POStatusReceived) 1
      (poStatusRequest POStatusDraft)).2 1).map (fun po => po.Status) = some POStatusDraft ∧
    specPurchaseOrderEdge POStatusShipped POStatusCancelled = false ∧
    (UpdatePurchaseOrder (quietEnv 9) (demoPOStore POStatusShipped) 1
      (poStatusRequest POStatusCancelled)).1.status = StatusOK ∧
    (firstPurchaseOrder (UpdatePurchaseOrder (quietEnv 9) (demoPOStore POStatusShipped) 1
      (poStatusRequest POStatusCancelled)).2 1).map (fun po => po.Status)
      = some POStatusCancelled := by
  decide

/-- C11, as the code behaves: `UpdatePurchaseOrder` checks no transition table.  For every
stored purchase order and every non-empty requested status, edge of the PurchaseOrder table or
not, the call answers 200 when the store write succeeds and the stored purchase order then
carries the requested status.  When the purchase order is not found the call answers 404, when
the write fails it does not answer 200, and in both cases the store is left as it was. -/
theorem UpdatePurchaseOrder_applies_any_status {F : Type} (env : Env) (s : Store F) (id : Nat)
    (req : UpdatePurchaseOrderRequest) :
    (∀ po, firstPurchaseOrder s id = some po → req.Status ≠ "" →
      env.savePurchaseOrderFails = false →
      (UpdatePurchaseOrder env s id req).1.status = StatusOK ∧
      ∃ po1, firstPurchaseOrder (UpdatePurchaseOrder env s id req).2 id = some po1 ∧
        po1.Status = req.Status) ∧
    (firstPurchaseOrder s id = none →
      UpdatePurchaseOrder env s id req
        = (errorResponse StatusNotFound "Purchase order not found", s)) ∧
    (env.savePurchaseOrderFails = true →
      (UpdatePurchaseOrder env s id req).1.status ≠ StatusOK ∧
      (UpdatePurchaseOrder env s id req).2 = s) := by
  refine ⟨?_, (UpdatePurchaseOrder_failure env s id req).1,
    (UpdatePurchaseOrder_failure env s id req).2⟩
  intro po hpo hreq hsave
  obtain ⟨h1, h2⟩ := UpdatePurchaseOrder_stored env s id req po hpo hsave
  exact ⟨h1, _, h2, by rw [updatePurchaseOrderFields_Status, if_pos hreq]⟩

/-- Witness for the amended C11: a received purchase order is moved back to `DRAFT`. -/
theorem UpdatePurchaseOrder_applies_any_status_witness :
    specPurchaseOrderEdge POStatusReceived POStatusDraft = false ∧
    (UpdatePurchaseOrder (quietEnv 9) (demoPOStore POStatusReceived) 1
      (poStatusRequest POStatusDraft)).1.status = StatusOK ∧
    ∃ po1, firstPurchaseOrder (UpdatePurchaseOrder (quietEnv 9) (demoPOStore POStatusReceived) 1
      (poStatusRequest POStatusDraft)).2 1 = some po1 ∧ po1.Status = POStatusDraft :=
  ⟨by decide,
    (UpdatePurchaseOrder_applies_any_status (quietEnv 9) (demoPOStore POStatusReceived) 1
      (poStatusRequest POStatusDraft)).1 (demoPurchaseOrder POStatusReceived)
      (by decide) (by decide) rfl⟩

/-- C12, counterexample: the demo purchase order is `SHIPPED` and its only line is `pending`
with 0 of 5 units received; `UpdatePurchaseOrder` with status `RECEIVED` answers 200, stores
the status `RECEIVED` with the received date stamped, and the line is still `pending` with 0
received. -/
theorem UpdatePurchaseOrder_received_with_incomplete_line :
    (demoPOStore POStatusShipped).poItems.map
      (fun it => (it.POID, it.Quantity, it.ReceivedQuantity, poItemComplete it))
      = [(1, 5, 0, false)] ∧
    (UpdatePurchaseOrder (quietEnv 9) (demoPOStore POStatusShipped) 1
      (poStatusRequest POStatusReceived)).1.status = StatusOK ∧
    (firstPurchaseOrder (UpdatePurchaseOrder (quietEnv 9) (demoPOStore POStatusShipped) 1
      (poStatusRequest POStatusReceived)).2 1).map (fun po => (po.Status, po.ReceivedDate))
      = some (POStatusReceived, some 9) ∧
    (UpdatePurchaseOrder (quietEnv 9) (demoPOStore POStatusShipped) 1
      (poStatusRequest POStatusReceived)).2.poItems.map
      (fun it => (it.POID, it.Quantity, it.ReceivedQuantity, poItemComplete it))
      = [(1, 5, 0, false)] := by
  decide

/-- C12, as the code behaves: the status `RECEIVED` does not depend on the lines.  For every
stored purchase order, whatever the status and the received quantity of its lines,
`UpdatePurchaseOrder` with status `RECEIVED` (the write going through) answers 200, stores the
status `RECEIVED`, stamps the received date with the time of the call unless it was set, and
leaves every line as it was. -/
theorem UpdatePurchaseOrder_received_ignores_lines {F : Type} (env : Env) (s : Store F)
    (id : Nat) (req : UpdatePurchaseOrderRequest) (po : PurchaseOrder F)
    (hpo : firstPurchaseOrder s id = some po)
    (hreq : req.Status = POStatusReceived)
    (hsave : env.savePurchaseOrderFails = false) :
    (UpdatePurchaseOrder env s id req).1.status = StatusOK ∧
    (∃ po1, firstPurchaseOrder (UpdatePurchaseOrder env s id req).2 id = some po1 ∧
      po1.Status = POStatusReceived ∧
      po1.ReceivedDate = some (po.ReceivedDate.getD env.now)) ∧
    (UpdatePurchaseOrder env s id req).2.poItems = s.poItems := by
  obtain ⟨h1, h2⟩ := UpdatePurchaseOrder_stored env s id req po hpo hsave
  have hne : req.Status ≠ "" := by rw [hreq]; decide
  have hstat : (updatePurchaseOrderFields env po req).Status = POStatusReceived := by
    rw [updatePurchaseOrderFields_Status, if_pos hne, hreq]
  refine ⟨h1, ⟨_, h2, hstat, ?_⟩, (UpdatePurchaseOrder_frame env s id req).1⟩
  rw [updatePurchaseOrderFields_ReceivedDate, hstat]
  cases hd : po.ReceivedDate with
  | none => simp
  | some t => simp

/-- Witness for the amended C12 on the shipped demo purchase order with its pending line. -/
theorem UpdatePurchaseOrder_received_ignores_lines_witness :
    (UpdatePurchaseOrder (quietEnv 9) (demoPOStore POStatusShipped) 1
      (poStatusRequest POStatusReceived)).1.status = StatusOK ∧
    (UpdatePurchaseOrder (quietEnv 9) (demoPOStore POStatusShipped) 1
      (poStatusRequest POStatusReceived)).2.poItems = [demoPOItem] := by
  have h := UpdatePurchaseOrder_received_ignores_lines (quietEnv 9) (demoPOStore POStatusShipped)
    1 (poStatusRequest POStatusReceived) (demoPurchaseOrder POStatusShipped)
    (by decide) rfl rfl
  exact ⟨h.1, h.2.2⟩

/-- C14, the code at the failing input: the demo purchase order is `PENDING` with no approved
date; `UpdatePurchaseOrder` with status `APPROVED` answers 200 and stores the status
`APPROVED`, but the approved date is still unset.  The same handler does stamp the shipped date
when the status `SHIPPED` is requested. -/
theorem UpdatePurchaseOrder_approved_date_not_stamped :
    (firstPurchaseOrder (demoPOStore POStatusPending) 1).map
      (fun po => (po.Status, po.ApprovedDate)) = some (POStatusPending, none) ∧
    (UpdatePurchaseOrder (quietEnv 9) (demoPOStore POStatusPending) 1
      (poStatusRequest POStatusApproved)).1.status = StatusOK ∧
    (firstPurchaseOrder (UpdatePurchaseOrder (quietEnv 9) (demoPOStore POStatusPending) 1
      (poStatusRequest POStatusApproved)).2 1).map (fun po => (po.Status, po.ApprovedDate))
      = some (POStatusApproved, none) ∧
    (firstPurchaseOrder (UpdatePurchaseOrder (quietEnv 9) (demoPOStore POStatusOrdered) 1
      (poStatusRequest POStatusShipped)).2 1).map (fun po => (po.Status, po.ShippedDate))
      = some (POStatusShipped, some 9) := by
  decide


/-! ## `UpdateContract` -/

theorem firstContract_spec {F : Type} {s : Store F} {id : Nat} {c : Contract}
    (h : firstContract s id = some c) : c ∈ s.contracts ∧ c.ID = id ∧ c.DeletedAt = none := by
  have h1 := List.find?_some h
  have h2 := List.mem_of_find?_eq_some h
  simp at h1
  exact ⟨h2, h1.1, h1.2⟩

theorem contract_ite_ID (c : Prop) [Decidable c] (a b : Contract) :
    (if c then a else b).ID = if c then a.ID else b.ID := by split <;> rfl

theorem contract_ite_DeletedAt (c : Prop) [Decidable c] (a b : Contract) :
    (if c then a else b).DeletedAt = if c then a.DeletedAt else b.DeletedAt := by
  split <;> rfl

theorem contract_ite_Status (c : Prop) [Decidable c] (a b : Contract) :
    (if c then a else b).Status = if c then a.Status else b.Status := by split <;> rfl

theorem updateContractFields_ID (c : Contract) (req : UpdateContractRequest) :
    (updateContractFields c req).ID = c.ID ∧
    (updateContractFields c req).DeletedAt = c.DeletedAt := by
  constructor
  · simp only [updateContractFields, contract_ite_ID, ite_self]
  · simp only [updateContractFields, contract_ite_DeletedAt, ite_self]

theorem updateContractFields_Status (c : Contract) (req : UpdateContractRequest) :
    (updateContractFields c req).Status = if req.Status ≠ "" then req.Status else c.Status := by
  simp only [updateContractFields, contract_ite_Status, ite_self]

/-- After `Save`, the addressed contract is read back as saved. -/
theorem firstContract_save_same {F : Type} (s : Store F) (id : Nat) (c c1 : Contract)
    (h : firstContract s id = some c) (hid : c1.ID = id) (hdel : c1.DeletedAt = none) :
    firstContract (saveContract s c1) id = some c1 := by
  unfold firstContract at h ⊢
  have := find?_map_replace
    (fun r : Contract => decide (r.ID = id) && decide (r.DeletedAt = none))
    c1 (by simp [hid, hdel]) s.contracts
  simp only [Bool.and_eq_true, decide_eq_true_eq] at this
  simp only [saveContract, hid]
  rw [this, h]
  rfl

/-- What `UpdateContract` stores when the write goes through. -/
theorem UpdateContract_stored {F : Type} (env : Env) (s : Store F) (id : Nat)
    (req : UpdateContractRequest) (c : Contract)
    (h : firstContract s id = some c) (hsave : env.saveContractFails = false) :
    (UpdateContract env s id req).1.status = StatusOK ∧
    firstContract (UpdateContract env s id req).2 id = some (updateContractFields c req) := by
  obtain ⟨-, hid, hdel⟩ := firstContract_spec h
  unfold UpdateContract
  rw [h]
  simp only [hsave, Bool.false_eq_true, if_false]
  exact ⟨trivial, firstContract_save_same s id c _ h
    ((updateContractFields_ID c req).1.trans hid) ((updateContractFields_ID c req).2.trans hdel)⟩

/-- The failure cases of `UpdateContract` leave the store as it was. -/
theorem UpdateContract_failure {F : Type} (env : Env) (s : Store F) (id : Nat)
    (req : UpdateContractRequest) :
    (firstContract s id = none →
      UpdateContract env s id req = (errorResponse StatusNotFound "Contract not found", s)) ∧
    (env.saveContractFails = true →
      (UpdateContract env s id req).1.status ≠ StatusOK ∧
      (UpdateContract env s id req).2 = s) := by
  constructor
  · intro hnone
    unfold UpdateContract
    rw [hnone]
  · intro hsave
    unfold UpdateContract
    cases firstContract s id with
    | none => exact ⟨notFound_ne_ok, rfl⟩
    | some o =>
      simp only [hsave, if_true]
      exact ⟨internalServerError_ne_ok, trivial⟩

/-- C13, counterexample: neither `CANCELLED → ACTIVE` nor `DRAFT → PAUSED` is an edge of the
Contract table, yet `UpdateContract` answers 200 to both requests and stores the requested
status. -/
theorem UpdateContract_illegal_transitions_accepted :
    specContractEdge ContractStatusCancelled ContractStatusActive = false ∧
    (UpdateContract (quietEnv 9) (demoContractStore ContractStatusCancelled) 1
      (contractStatusRequest ContractStatusActive)).1.status = StatusOK ∧
    (firstContract (UpdateContract (quietEnv 9) (demoContractStore ContractStatusCancelled) 1
      (contractStatusRequest ContractStatusActive)).2 1).map (fun c => c.Status)
      = some ContractStatusActive ∧
    specContractEdge ContractStatusDraft ContractStatusPaused = false ∧
    (UpdateContract (quietEnv 9) (demoContractStore ContractStatusDraft) 1
      (contractStatusRequest ContractStatusPaused)).1.status = StatusOK ∧
    (firstContract (UpdateContract (quietEnv 9) (demoContractStore ContractStatusDraft) 1
      (contractStatusRequest ContractStatusPaused)).2 1).map (fun c => c.Status)
      = some ContractStatusPaused := by
  decide

/-- C13, as the code behaves: `UpdateContract` checks no transition table.  For every stored
contract and every non-empty requested status, edge of the Contract table or not, the call
answers 200 when the store write succeeds and the stored contract then carries the requested
status.  When the contract is not found the call answers 404, when the write fails it does not
answer 200, and in both cases the store is left as it was. -/
theorem UpdateContract_applies_any_status {F : Type} (env : Env) (s : Store F) (id : Nat)
    (req : UpdateContractRequest) :
    (∀ c, firstContract s id = some c → req.Status ≠ "" → env.saveContractFails = false →
      (UpdateContract env s id req).1.status = StatusOK ∧
      ∃ c1, firstContract (UpdateContract env s id req).2 id = some c1 ∧
        c1.Status = req.Status) ∧
    (firstContract s id = none →
      UpdateContract env s id req = (errorResponse StatusNotFound "Contract not found", s)) ∧
    (env.saveContractFails = true →
      (UpdateContract env s id req).1.status ≠ StatusOK ∧
      (UpdateContract env s id req).2 = s) := by
  refine ⟨?_, (UpdateContract_failure env s id req).1, (UpdateContract_failure env s id req).2⟩
  intro c hc hreq hsave
  obtain ⟨h1, h2⟩ := UpdateContract_stored env s id req c hc hsave
  exact ⟨h1, _, h2, by rw [updateContractFields_Status, if_pos hreq]⟩

/-- Witness for the amended C13: a cancelled contract is made `ACTIVE` again. -/
theorem UpdateContract_applies_any_status_witness :
    specContractEdge ContractStatusCancelled ContractStatusActive = false ∧
    (UpdateContract (quietEnv 9) (demoContractStore ContractStatusCancelled) 1
      (contractStatusRequest ContractStatusActive)).1.status = StatusOK ∧
    ∃ c1, firstContract (UpdateContract (quietEnv 9) (demoContractStore ContractStatusCancelled)
      1 (contractStatusRequest ContractStatusActive)).2 1 = some c1 ∧
      c1.Status = ContractStatusActive :=
  ⟨by decide,
    (UpdateContract_applies_any_status (quietEnv 9) (demoContractStore ContractStatusCancelled) 1
      (contractStatusRequest ContractStatusActive)).1 (demoContract ContractStatusCancelled)
      (by decide) (by decide) rfl⟩


/-! ## Request validation in `CreateOrder` -/

/-- C19, the code at the failing inputs, on the demo store (10 units of product 1, none
reserved) with requests checked by the rules of the request struct.  A line with quantity -5
passes the check: the call answers 201, stores an order and an item with quantity -5 and
leaves the inventory row with -5 reserved.  A line with quantity 0 passes as well (201).  A
line with product id 0 passes the check too and is turned down only by the product lookup
inside the transaction ("Product not found").  Only the request without lines is refused by
the check: 400, store unchanged. -/
theorem CreateOrder_lines_not_validated :
    bindCreateOrderRequest (demoRequest 1 (-5)) = none ∧
    (CreateOrder (checkedEnv 5) demoStore (demoRequest 1 (-5))).1.status = StatusCreated ∧
    (CreateOrder (checkedEnv 5) demoStore (demoRequest 1 (-5))).2.inventory.map
      (fun r => (r.Quantity, r.Reserved)) = [(10, -5)] ∧
    (CreateOrder (checkedEnv 5) demoStore (demoRequest 1 (-5))).2.orderItems.map
      (fun it => (it.OrderID, it.Quantity)) = [(1, -5)] ∧
    bindCreateOrderRequest (demoRequest 1 0) = none ∧
    (CreateOrder (checkedEnv 5) demoStore (demoRequest 1 0)).1.status = StatusCreated ∧
    bindCreateOrderRequest (demoRequest 0 1) = none ∧
    (CreateOrder (checkedEnv 5) demoStore (demoRequest 0 1)).1
      = errorResponse StatusBadRequest "Product not found" ∧
    (bindCreateOrderRequest (demoRequestOf [])).isSome = true ∧
    (CreateOrder (checkedEnv 5) demoStore (demoRequestOf [])).1.status = StatusBadRequest ∧
    (CreateOrder (checkedEnv 5) demoStore (demoRequestOf [])).2 = demoStore := by
  decide


/-! ## The commit of `CreateOrder` -/

/-- C26, the code at the failing input: a request for 7 units of product 1 on the demo store,
every statement succeeding until `tx.Commit()`, which fails.  The call still answers 201 with
the order (id 1) in the body, while the store is the one before the call: the order is not
stored, no order item is, and nothing is reserved. -/
theorem CreateOrder_reports_success_without_commit :
    (CreateOrder (commitFailsEnv 5) demoStore (demoRequest 1 7)).1
      = { status := StatusCreated, body := Body.order "Order created successfully" demoOrder } ∧
    (CreateOrder (commitFailsEnv 5) demoStore (demoRequest 1 7)).2 = demoStore ∧
    firstOrder (CreateOrder (commitFailsEnv 5) demoStore (demoRequest 1 7)).2 demoOrder.ID
      = none ∧
    (CreateOrder (commitFailsEnv 5) demoStore (demoRequest 1 7)).2.orderItems = [] ∧
    (CreateOrder (commitFailsEnv 5) demoStore (demoRequest 1 7)).2.inventory.map
      (fun r => (r.Quantity, r.Reserved)) = [(10, 0)] := by
  decide


/-! ## The optional fields of `UpdateContract` -/

theorem contract_ite_AutoRenew (c : Prop) [Decidable c] (a b : Contract) :
    (if c then a else b).AutoRenew = if c then a.AutoRenew else b.AutoRenew := by
  split <;> rfl

theorem contract_ite_PaymentTerms (c : Prop) [Decidable c] (a b : Contract) :
    (if c then a else b).PaymentTerms = if c then a.PaymentTerms else b.PaymentTerms := by
  split <;> rfl

theorem contract_ite_Notes (c : Prop) [Decidable c] (a b : Contract) :
    (if c then a else b).Notes = if c then a.Notes else b.Notes := by
  split <;> rfl

theorem updateContractFields_AutoRenew (c : Contract) (req : UpdateContractRequest) :
    (updateContractFields c req).AutoRenew
      = if req.AutoRenew = true then req.AutoRenew else c.AutoRenew := by
  simp only [updateContractFields, contract_ite_AutoRenew, ite_self]

theorem updateContractFields_PaymentTerms (c : Contract) (req : UpdateContractRequest) :
    (updateContractFields c req).PaymentTerms
      = if req.PaymentTerms > 0 then req.PaymentTerms else c.PaymentTerms := by
  simp only [updateContractFields, contract_ite_PaymentTerms, ite_self]

theorem updateContractFields_Notes (c : Contract) (req : UpdateContractRequest) :
    (updateContractFields c req).Notes = if req.Notes ≠ "" then req.Notes else c.Notes := by
  simp only [updateContractFields, contract_ite_Notes, ite_self]

/-- `Save` of one contract leaves every other contract as it was. -/
theorem firstContract_save_other {F : Type} (s : Store F) (oid : Nat) (c1 : Contract)
    (hne : oid ≠ c1.ID) : firstContract (saveContract s c1) oid = firstContract s oid := by
  unfold firstContract
  have := find?_map_other
    (fun r : Contract => decide (r.ID = oid) && decide (r.DeletedAt = none))
    (fun r : Contract => decide (r.ID = c1.ID) && decide (r.DeletedAt = none))
    c1 (by
      simp only [Bool.and_eq_false_imp, decide_eq_true_eq]
      intro h
      exact absurd h.symm hne)
    (by
      intro r hr
      simp only [Bool.and_eq_true, decide_eq_true_eq] at hr
      simp only [Bool.and_eq_false_imp, decide_eq_true_eq, decide_eq_false_iff_not]
      intro h
      exact absurd (h.symm.trans hr.1) hne)
    s.contracts
  simp only [Bool.and_eq_true, decide_eq_true_eq] at this
  simp only [saveContract]
  exact this

/-- What is read back for the contract `oid` after `UpdateContract` on the contract `id`: the
contract as it was, or (when `oid` is the addressed contract and the write went through) its
update. -/
theorem firstContract_UpdateContract {F : Type} (env : Env) (s : Store F) (id oid : Nat)
    (req : UpdateContractRequest) (c : Contract) (hc : firstContract s oid = some c) :
    firstContract (UpdateContract env s id req).2 oid = some c ∨
    (oid = id ∧ env.saveContractFails = false ∧
      firstContract (UpdateContract env s id req).2 oid = some (updateContractFields c req)) := by
  cases hid : firstContract s id with
  | none =>
    left
    rw [(UpdateContract_failure env s id req).1 hid]
    exact hc
  | some c0 =>
    cases hsave : env.saveContractFails with
    | true =>
      left
      rw [((UpdateContract_failure env s id req).2 hsave).2]
      exact hc
    | false =>
      obtain ⟨-, hid0, -⟩ := firstContract_spec hid
      by_cases hne : oid = id
      · right
        subst hne
        rw [hc] at hid
        simp only [Option.some.injEq] at hid
        subst hid
        exact ⟨rfl, rfl, (UpdateContract_stored env s oid req c hc hsave).2⟩
      · left
        unfold UpdateContract
        rw [hid]
        simp only [hsave, Bool.false_eq_true, if_false]
        rw [firstContract_save_other s oid _
          (by rw [(updateContractFields_ID c0 req).1, hid0]; exact hne)]
        exact hc

/-- C30: `UpdateContract` can switch `AutoRenew` on but never off.  For every stored contract
and every `UpdateContract` call (on this contract or another, the write succeeding or not) the
contract is still stored afterwards, and: if its `AutoRenew` was true it is true; a request
with `auto_renew` false leaves `AutoRenew` as it was, a request with `payment_terms <= 0` leaves
`PaymentTerms` as it was and a request with empty `notes` leaves `Notes` as it was.  A request
with `auto_renew` true on this contract, the write going through, sets `AutoRenew` to true. -/
theorem UpdateContract_optional_fields {F : Type} (env : Env) (s : Store F) (id oid : Nat)
    (req : UpdateContractRequest) (c : Contract) (hc : firstContract s oid = some c) :
    ∃ c1, firstContract (UpdateContract env s id req).2 oid = some c1 ∧
      (c.AutoRenew = true → c1.AutoRenew = true) ∧
      (req.AutoRenew = false → c1.AutoRenew = c.AutoRenew) ∧
      (req.PaymentTerms ≤ 0 → c1.PaymentTerms = c.PaymentTerms) ∧
      (req.Notes = "" → c1.Notes = c.Notes) ∧
      (oid = id → req.AutoRenew = true → env.saveContractFails = false →
        c1.AutoRenew = true) := by
  rcases firstContract_UpdateContract env s id oid req c hc with h | ⟨hid, hsave, h⟩
  · refine ⟨c, h, fun hx => hx, fun _ => rfl, fun _ => rfl, fun _ => rfl, ?_⟩
    intro hoid hreq hsave
    subst hoid
    have h2 := (UpdateContract_stored env s oid req c hc hsave).2
    rw [h] at h2
    simp only [Option.some.injEq] at h2
    rw [h2, updateContractFields_AutoRenew, if_pos hreq, hreq]
  · refine ⟨_, h, ?_, ?_, ?_, ?_, ?_⟩
    · intro hauto
      rw [updateContractFields_AutoRenew]
      split
      · assumption
      · exact hauto
    · intro hreq
      rw [updateContractFields_AutoRenew, hreq]
      simp
    · intro hreq
      rw [updateContractFields_PaymentTerms, if_neg (by omega)]
    · intro hreq
      rw [updateContractFields_Notes, hreq]
      simp
    · intro _ hreq _
      rw [updateContractFields_AutoRenew, if_pos hreq, hreq]

/-- Witness for C30: the active demo contract, renewing automatically, receives a request with
`auto_renew` false and `payment_terms` 0; it still renews automatically with terms of 30 days. -/
theorem UpdateContract_optional_fields_witness :
    ∃ c1, firstContract (UpdateContract (quietEnv 9)
        { demoStore with contracts := [{ demoContract ContractStatusActive with
            AutoRenew := true }] } 1
        { Status := "", AutoRenew := false, PaymentTerms := 0, Notes := "" }).2 1 = some c1 ∧
      c1.AutoRenew = true ∧ c1.PaymentTerms = 30 := by
  obtain ⟨c1, h1, h2, -, h4, -⟩ := UpdateContract_optional_fields (quietEnv 9)
    { demoStore with contracts := [{ demoContract ContractStatusActive with
        AutoRenew := true }] } 1 1
    { Status := "", AutoRenew := false, PaymentTerms := 0, Notes := "" }
    { demoContract ContractStatusActive with AutoRenew := true } (by decide)
  exact ⟨c1, h1, h2 rfl, h4 (by decide)⟩



/-! ## The footprint of `UpdateOrder` -/

/-- The assignments of `UpdateOrder` touch no field of the order other than the status, the
payment status, the admin notes and the two dates. -/
theorem updateFields_frame {F : Type} (env : Env) (o : Order F) (req : UpdateOrderRequest) :
    { updateFields env o req with
      Status := o.Status, PaymentStatus := o.PaymentStatus, AdminNotes := o.AdminNotes,
      ShippedDate := o.ShippedDate, DeliveredDate := o.DeliveredDate } = o := by
  cases o
  simp only [updateFields]
  (repeat' split) <;> rfl

theorem updateFields_PaymentStatus {F : Type} (env : Env) (o : Order F)
    (req : UpdateOrderRequest) :
    (updateFields env o req).PaymentStatus
      = if req.PaymentStatus ≠ "" then req.PaymentStatus else o.PaymentStatus := by
  unfold updateFields
  simp only
  (repeat' split) <;> rfl

theorem updateFields_AdminNotes {F : Type} (env : Env) (o : Order F)
    (req : UpdateOrderRequest) :
    (updateFields env o req).AdminNotes
      = if req.AdminNotes ≠ "" then req.AdminNotes else o.AdminNotes := by
  unfold updateFields
  simp only
  (repeat' split) <;> rfl

/-- Under the primary key, the order that `First` returns is the only row with its id. -/
theorem firstOrder_unique {F : Type} {s : Store F} {id : Nat} {o : Order F}
    (hpk : (s.orders.map (fun o => o.ID)).Nodup) (h : firstOrder s id = some o) :
    ∀ r ∈ s.orders, r.ID = id → r = o := by
  intro r hr hid
  obtain ⟨hmem, hoid, -⟩ := firstOrder_spec h
  exact List.inj_on_of_nodup_map hpk hr hmem (hid.trans hoid.symm)

/-- C29: `UpdateOrder` has a bounded footprint.  For every store (whose order ids are a primary
key) and every request, the product, inventory, order item, purchase order and contract tables
are unchanged; if the order id does not exist the whole store is unchanged; otherwise the order
table is the old one with only the addressed order replaced by a row that agrees with it on
every field other than status, payment status, admin notes, shipped date and delivered date,
and each of the first three differs only when the corresponding request field is non-empty.
(The bookkeeping column `UpdatedAt` of the row is not part of the model.) -/
theorem UpdateOrder_bounded_footprint {F : Type} (env : Env) (s : Store F) (id : Nat)
    (req : UpdateOrderRequest) (hpk : (s.orders.map (fun o => o.ID)).Nodup) :
    (UpdateOrder env s id req).2.products = s.products ∧
    (UpdateOrder env s id req).2.inventory = s.inventory ∧
    (UpdateOrder env s id req).2.orderItems = s.orderItems ∧
    (UpdateOrder env s id req).2.purchaseOrders = s.purchaseOrders ∧
    (UpdateOrder env s id req).2.poItems = s.poItems ∧
    (UpdateOrder env s id req).2.contracts = s.contracts ∧
    (firstOrder s id = none → (UpdateOrder env s id req).2 = s) ∧
    (∀ o, firstOrder s id = some o →
      ∃ o1, (UpdateOrder env s id req).2.orders
          = s.orders.map (fun r => if r.ID = id then o1 else r) ∧
        (∀ r ∈ s.orders, r.ID = id → r = o) ∧
        { o1 with
          Status := o.Status, PaymentStatus := o.PaymentStatus, AdminNotes := o.AdminNotes,
          ShippedDate := o.ShippedDate, DeliveredDate := o.DeliveredDate } = o ∧
        (req.Status = "" → o1.Status = o.Status) ∧
        (req.PaymentStatus = "" → o1.PaymentStatus = o.PaymentStatus) ∧
        (req.AdminNotes = "" → o1.AdminNotes = o.AdminNotes)) := by
  cases hid : firstOrder s id with
  | none =>
    have hs : (UpdateOrder env s id req).2 = s := by
      unfold UpdateOrder
      rw [hid]
    rw [hs]
    refine ⟨rfl, rfl, rfl, rfl, rfl, rfl, fun _ => rfl, ?_⟩
    intro o ho
    simp at ho
  | some o =>
    have huniq := firstOrder_unique hpk hid
    obtain ⟨-, hoid, hodel⟩ := firstOrder_spec hid
    rw [UpdateOrder_found env s id req o hid]
    cases hsave : env.saveOrderFails with
    | true =>
      rw [if_pos rfl]
      refine ⟨rfl, rfl, rfl, rfl, rfl, rfl, fun h => by simp at h, ?_⟩
      intro o2 ho2
      simp only [Option.some.injEq] at ho2
      subst ho2
      refine ⟨o, ?_, huniq, rfl, fun _ => rfl, fun _ => rfl, fun _ => rfl⟩
      conv_lhs => rw [← List.map_id s.orders]
      apply List.map_congr_left
      intro r hr
      by_cases h : r.ID = id
      · simp only [h, if_true, id_eq]
        exact huniq r hr h
      · simp only [h, if_false, id_eq]
    | false =>
      rw [if_neg Bool.false_ne_true]
      refine ⟨rfl, rfl, rfl, rfl, rfl, rfl, fun h => by simp at h, ?_⟩
      intro o2 ho2
      simp only [Option.some.injEq] at ho2
      subst ho2
      refine ⟨updateFields env o req, ?_, huniq, updateFields_frame env o req, ?_, ?_, ?_⟩
      · simp only [saveOrder]
        apply List.map_congr_left
        intro r hr
        rw [(updateFields_ID env o req).1, hoid]
        by_cases h : r.ID = id
        · have hro : r = o := huniq r hr h
          subst hro
          simp [h, hodel]
        · simp only [h, false_and, if_false]
      · intro h
        rw [updateFields_Status]
        simp [h]
      · intro h
        rw [updateFields_PaymentStatus]
        simp [h]
      · intro h
        rw [updateFields_AdminNotes]
        simp [h]

/-- Witness for C29: the demo store, shipping its order. -/
theorem UpdateOrder_bounded_footprint_witness :
    (demoOrderStore.orders.map (fun o => o.ID)).Nodup ∧
    (UpdateOrder (quietEnv 9) demoOrderStore 1 (statusRequest OrderStatusShipped)).2.inventory
      = demoOrderStore.inventory ∧
    (UpdateOrder (quietEnv 9) demoOrderStore 1 (statusRequest OrderStatusShipped)).2.orderItems
      = demoOrderStore.orderItems :=
  ⟨by decide,
    (UpdateOrder_bounded_footprint (quietEnv 9) demoOrderStore 1
      (statusRequest OrderStatusShipped) (by decide)).2.1,
    (UpdateOrder_bounded_footprint (quietEnv 9) demoOrderStore 1
      (statusRequest OrderStatusShipped) (by decide)).2.2.1⟩


/-! ## One inventory row per line -/

theorem lowestID_eq_none : ∀ {rows : List InventoryItem}, lowestID rows = none → rows = []
  | [], _ => rfl
  | r :: rs, h => by
    unfold lowestID at h
    cases hrs : lowestID rs with
    | none => rw [hrs] at h; simp at h
    | some k => rw [hrs] at h; simp only at h; split at h <;> simp at h

/-- The row `First` returns has the lowest primary key among the candidates. -/
theorem lowestID_le : ∀ {rows : List InventoryItem} {m : InventoryItem},
    lowestID rows = some m → ∀ r ∈ rows, m.ID ≤ r.ID
  | [], m, h => by simp [lowestID] at h
  | r :: rs, m, h => by
    unfold lowestID at h
    cases hrs : lowestID rs with
    | none =>
      rw [hrs] at h
      simp only [Option.some.injEq] at h
      subst h
      rw [lowestID_eq_none hrs]
      intro x hx
      simp only [List.mem_singleton] at hx
      rw [hx]
    | some k =>
      rw [hrs] at h
      simp only at h
      have ih := lowestID_le hrs
      split at h
      · simp only [Option.some.injEq] at h
        subst h
        intro x hx
        rcases List.mem_cons.1 hx with hx | hx
        · rw [hx]
        · exact Nat.le_trans (by assumption) (ih x hx)
      · simp only [Option.some.injEq] at h
        subst h
        intro x hx
        rcases List.mem_cons.1 hx with hx | hx
        · rw [hx]
          omega
        · exact ih x hx

/-- The inventory row selected for a product is the active, undeleted row of that product with
the lowest primary key. -/
theorem firstActiveInventory_lowest {rows : List InventoryItem} {p : Nat} {inv : InventoryItem}
    (h : firstActiveInventory rows p = some inv) :
    ∀ r ∈ rows, r.ProductID = p → r.Status = "active" → r.DeletedAt = none → inv.ID ≤ r.ID := by
  intro r hr hp hs hd
  unfold firstActiveInventory at h
  refine lowestID_le h r ?_
  simp only [List.mem_filter, Bool.and_eq_true, decide_eq_true_eq]
  exact ⟨hr, ⟨hp, hs⟩, hd⟩

/-- With unique primary keys, saving the row returned by `First` with another reserved count
changes the reserved count of that row only. -/
theorem saveInventory_eq_map_set {F : Type} (tx : Store F) (inv : InventoryItem) (x : Int)
    (hmem : inv ∈ tx.inventory) (hdel : inv.DeletedAt = none)
    (hpk : (tx.inventory.map (fun r => r.ID)).Nodup) :
    (saveInventory tx { inv with Reserved := x }).inventory
      = tx.inventory.map (fun r => if r.ID = inv.ID then { r with Reserved := x } else r) := by
  simp only [saveInventory]
  apply List.map_congr_left
  intro r hr
  by_cases h : r.ID = inv.ID
  · have hri : r = inv := List.inj_on_of_nodup_map hpk hr hmem h
    subst hri
    simp [hdel]
  · simp only [h, false_and, if_false]

/-- A function on inventory rows that changes nothing but the reserved count does not change
which row `First` selects. -/
theorem firstActiveInventory_map_reserved (f : InventoryItem → InventoryItem)
    (hf : ∀ r, f r = { r with Reserved := (f r).Reserved }) (rows : List InventoryItem)
    (p : Nat) :
    firstActiveInventory (rows.map f) p = (firstActiveInventory rows p).map f :=
  firstActiveInventory_map f (fun r => by rw [hf r]) (fun r => by rw [hf r])
    (fun r => by rw [hf r]) (fun r => by rw [hf r]) rows p

theorem map_ID_of_reserved (f : InventoryItem → InventoryItem)
    (hf : ∀ r, f r = { r with Reserved := (f r).Reserved }) (rows : List InventoryItem) :
    (rows.map f).map (fun r => r.ID) = rows.map (fun r => r.ID) := by
  rw [List.map_map]
  apply List.map_congr_left
  intro r _
  simp only [Function.comp]
  rw [hf r]

/-- One passing line writes the reserved count of the row it selected and nothing else. -/
theorem processLine_touches {F : Type} [Float64 F] {env : Env} {i : Nat} {st st1 : LineState F}
    {l : OrderItemRequest} (h : processLine env i st l = Except.ok st1)
    (hpk : (st.tx.inventory.map (fun r => r.ID)).Nodup) :
    ∃ (inv : InventoryItem) (x : Int),
      firstActiveInventory st.tx.inventory l.ProductID = some inv ∧
      st1.tx.inventory
        = st.tx.inventory.map (fun r => if r.ID = inv.ID then { r with Reserved := x } else r) := by
  obtain ⟨product, inv, -, hi, -, -, hst1⟩ := processLine_ok h
  obtain ⟨hmem, -, -, hdel⟩ := firstActiveInventory_spec hi
  refine ⟨inv, wrapInt (inv.Reserved + l.Quantity), hi, ?_⟩
  rw [hst1]
  exact saveInventory_eq_map_set st.tx inv _ hmem hdel hpk

/-- The inventory reached by the loop, with unique primary keys: every row keeps every column
but the reserved count, and a row that no line selects is unchanged. -/
theorem processLines_touches {F : Type} [Float64 F] (env : Env) :
    ∀ (lines : List OrderItemRequest) (i : Nat) (st st1 : LineState F),
      processLines env i st lines = Except.ok st1 →
      (st.tx.inventory.map (fun r => r.ID)).Nodup →
      ∃ f : InventoryItem → InventoryItem,
        (∀ r, f r = { r with Reserved := (f r).Reserved }) ∧
        (∀ r, (∀ l ∈ lines,
          (firstActiveInventory st.tx.inventory l.ProductID).map (fun x => x.ID) ≠ some r.ID) →
          f r = r) ∧
        st1.tx.inventory = st.tx.inventory.map f
  | [], i, st, st1, h, _ => by
    simp [processLines] at h
    rw [← h]
    exact ⟨fun r => r, fun _ => rfl, fun _ _ => rfl, by simp⟩
  | l :: rest, i, st, st1, h, hpk => by
    simp only [processLines] at h
    cases hl : processLine env i st l with
    | error resp => rw [hl] at h; simp at h
    | ok st2 =>
      rw [hl] at h
      obtain ⟨inv, x, hi, hst2⟩ := processLine_touches hl hpk
      have hf1 : ∀ r : InventoryItem,
          (if r.ID = inv.ID then { r with Reserved := x } else r)
            = { r with Reserved :=
                (if r.ID = inv.ID then { r with Reserved := x } else r).Reserved } := by
        intro r
        split <;> rfl
      have hpk2 : (st2.tx.inventory.map (fun r => r.ID)).Nodup := by
        rw [hst2, map_ID_of_reserved _ hf1]
        exact hpk
      obtain ⟨f2, hf2, hun2, hinv2⟩ := processLines_touches env rest (i + 1) st2 st1 h hpk2
      refine ⟨fun r => f2 (if r.ID = inv.ID then { r with Reserved := x } else r), ?_, ?_, ?_⟩
      · intro r
        beta_reduce
        by_cases hr : r.ID = inv.ID
        · rw [if_pos hr]
          exact hf2 { r with Reserved := x }
        · rw [if_neg hr]
          exact hf2 r
      · intro r hr
        have hne : ¬ r.ID = inv.ID := by
          intro heq
          apply hr l (List.mem_cons_self _ _)
          rw [hi, heq]
          rfl
        beta_reduce
        rw [if_neg hne]
        apply hun2 r
        intro l1 hl1
        rw [hst2, firstActiveInventory_map_reserved _ hf1, Option.map_map]
        have := hr l1 (List.mem_cons_of_mem _ hl1)
        intro hc
        apply this
        rw [← hc]
        cases firstActiveInventory st.tx.inventory l1.ProductID with
        | none => rfl
        | some y =>
          simp only [Option.map_some', Function.comp, Option.some.injEq]
          split <;> rfl
      · rw [hinv2, hst2, List.map_map]
        rfl

/-- C28: `CreateOrder` checks and reserves against exactly one inventory row per line, the
active undeleted row of the line's product with the lowest id.  On a store whose inventory ids
are a primary key: when the lines before a line have passed, the row selected for the line has
the lowest id among the active rows of its product, and if that row's quantity minus reserved is
below the requested quantity the call answers 400 "Insufficient stock" and leaves the store as
it was, whatever the other rows of the product hold; and after every call each inventory row
differs from the row before the call at most in its reserved count, and a row that no line
selects is unchanged. -/
theorem CreateOrder_one_row_per_line {F : Type} [Float64 F] (env : Env) (s : Store F)
    (req : CreateOrderRequest) (hpk : (s.inventory.map (fun r => r.ID)).Nodup) :
    (∀ (pre : List OrderItemRequest) (l : OrderItemRequest) (post : List OrderItemRequest)
        (st : LineState F) (inv : InventoryItem),
      env.bindError req = none → req.Items = pre ++ l :: post →
      processLines env 0 { tx := s, totalAmount := Float64.zero, items := [] } pre
        = Except.ok st →
      firstProduct st.tx l.ProductID ≠ none →
      firstActiveInventory st.tx.inventory l.ProductID = some inv →
      (∀ r ∈ st.tx.inventory, r.ProductID = l.ProductID → r.Status = "active" →
        r.DeletedAt = none → inv.ID ≤ r.ID) ∧
      (wrapInt (inv.Quantity - inv.Reserved) < l.Quantity →
        (CreateOrder env s req).1 = errorResponse StatusBadRequest "Insufficient stock" ∧
        (CreateOrder env s req).2 = s)) ∧
    List.Forall₂ (fun r r1 => r1 = { r with Reserved := r1.Reserved } ∧
        ((∀ l ∈ req.Items,
          (firstActiveInventory s.inventory l.ProductID).map (fun x => x.ID) ≠ some r.ID) →
          r1 = r))
      s.inventory (CreateOrder env s req).2.inventory := by
  constructor
  · intro pre l post st inv hb hsplit hpre hprod hsel
    refine ⟨firstActiveInventory_lowest hsel, ?_⟩
    intro hlow
    have hline : processLine env (0 + pre.length) st l
        = Except.error (errorResponse StatusBadRequest "Insufficient stock") := by
      unfold processLine
      cases hp : firstProduct st.tx l.ProductID with
      | none => exact absurd hp hprod
      | some product =>
        simp only [firstProduct_ID hp, hsel, hlow, if_true]
    have hall : processLines env 0 { tx := s, totalAmount := Float64.zero, items := [] }
        req.Items = Except.error (errorResponse StatusBadRequest "Insufficient stock") := by
      rw [hsplit, processLines_append env pre 0 _ st (l :: post) hpre]
      simp only [processLines, hline]
    unfold CreateOrder
    simp only [hb, hall]
    exact ⟨trivial, trivial⟩
  · rcases CreateOrder_inventory_cases env s req with ⟨hs, -⟩ | ⟨st, hl, -, -, hinv⟩
    · rw [hs]
      rw [List.forall₂_same]
      intro r _
      exact ⟨rfl, fun _ => rfl⟩
    · obtain ⟨f, hf, hun, hmap⟩ := processLines_touches env req.Items 0 _ st hl hpk
      rw [hinv, hmap, List.forall₂_map_right_iff, List.forall₂_same]
      intro r _
      exact ⟨hf r, hun r⟩

/-- Witness for C28: product 1 has row 1 with 2 units and row 2 with 50 units; a line for 5
units is refused although row 2 could serve it. -/
theorem CreateOrder_one_row_per_line_witness :
    (demoStoreSplit.inventory.map (fun r => r.ID)).Nodup ∧
    (CreateOrder (quietEnv 5) demoStoreSplit (demoRequest 1 5)).1
      = errorResponse StatusBadRequest "Insufficient stock" ∧
    (CreateOrder (quietEnv 5) demoStoreSplit (demoRequest 1 5)).2 = demoStoreSplit :=
  ⟨by decide,
    ((CreateOrder_one_row_per_line (quietEnv 5) demoStoreSplit (demoRequest 1 5)
      (by decide)).1 [] { ProductID := 1, Quantity := 5 } []
      { tx := demoStoreSplit, totalAmount := Float64.zero, items := [] }
      { demoItem 0 with Quantity := 2 } rfl rfl rfl (by decide) (by decide)).2 (by decide)⟩


/-! ## The persisted items follow the request lines -/

theorem forall₂_left_mem {α β : Type} {R : α → β → Prop} :
    ∀ {xs : List α} {ys : List β}, List.Forall₂ R xs ys → ∀ {x : α}, x ∈ xs →
      ∃ y ∈ ys, R x y
  | _, _, List.Forall₂.nil, x, hx => by simp at hx
  | _, _, List.Forall₂.cons hxy hrest, x, hx => by
    rcases List.mem_cons.1 hx with h | h
    · subst h
      exact ⟨_, List.mem_cons_self _ _, hxy⟩
    · obtain ⟨y, hy, hr⟩ := forall₂_left_mem hrest h
      exact ⟨y, List.mem_cons_of_mem _ hy, hr⟩

/-- The items collected by the loop, with unique primary keys in the inventory: one per line,
carrying the product and quantity of the line and the id of the inventory row that `First`
selects for the line's product. -/
theorem processLines_item_rows {F : Type} [Float64 F] (env : Env) :
    ∀ (lines : List OrderItemRequest) (i : Nat) (st st1 : LineState F),
      processLines env i st lines = Except.ok st1 →
      (st.tx.inventory.map (fun r => r.ID)).Nodup →
      ∃ newItems, st1.items = st.items ++ newItems ∧
        List.Forall₂ (fun l it =>
          it.ProductID = l.ProductID ∧ it.Quantity = l.Quantity ∧
          ∃ inv, firstActiveInventory st.tx.inventory l.ProductID = some inv ∧
            it.InventoryItemID = some inv.ID)
          lines newItems
  | [], i, st, st1, h, _ => by
    simp [processLines] at h
    rw [← h]
    exact ⟨[], by simp, List.Forall₂.nil⟩
  | l :: rest, i, st, st1, h, hpk => by
    simp only [processLines] at h
    cases hl : processLine env i st l with
    | error resp => rw [hl] at h; simp at h
    | ok st2 =>
      rw [hl] at h
      obtain ⟨product, inv, hp, hi, -, -, hst2⟩ := processLine_ok hl
      obtain ⟨inv0, x, hi0, hinv2⟩ := processLine_touches hl hpk
      have hf1 : ∀ r : InventoryItem,
          (if r.ID = inv0.ID then { r with Reserved := x } else r)
            = { r with Reserved :=
                (if r.ID = inv0.ID then { r with Reserved := x } else r).Reserved } := by
        intro r
        split <;> rfl
      have hpk2 : (st2.tx.inventory.map (fun r => r.ID)).Nodup := by
        rw [hinv2, map_ID_of_reserved _ hf1]
        exact hpk
      obtain ⟨newItems, hitems, hall⟩ := processLines_item_rows env rest (i + 1) st2 st1 h hpk2
      refine ⟨newOrderItem product inv l :: newItems, ?_, ?_⟩
      · rw [hitems, hst2]
        simp
      · refine List.Forall₂.cons ⟨firstProduct_ID hp, rfl, inv, hi, rfl⟩ ?_
        refine hall.imp ?_
        rintro l1 it ⟨h1, h2, inv2, hsel2, hid2⟩
        refine ⟨h1, h2, ?_⟩
        rw [hinv2, firstActiveInventory_map_reserved _ hf1] at hsel2
        cases hsel : firstActiveInventory st.tx.inventory l1.ProductID with
        | none => rw [hsel] at hsel2; simp at hsel2
        | some y =>
          rw [hsel] at hsel2
          simp only [Option.map_some', Option.some.injEq] at hsel2
          refine ⟨y, rfl, ?_⟩
          rw [hid2, ← hsel2, hf1 y]

/-- C25: the persisted order items correspond one-to-one and in order to the request lines.
For every call that answers with an order and whose commit went through, on a store whose
inventory ids are a primary key: the order items appended to the table are exactly as many as
the lines; the i-th of them carries the i-th line's product id and quantity, the id of the
order just created (which is read back under that id and is larger than every order id of the
store before the call) and the id of the inventory row that `First` selects for the line's
product; and an inventory row to which no persisted item refers is left as it was, so the
reservations were made on the rows the items name. -/
theorem CreateOrder_items_follow_lines {F : Type} [Float64 F] (env : Env) (s : Store F)
    (req : CreateOrderRequest) (msg : String) (o : Order F)
    (hcreated : (CreateOrder env s req).1.body = Body.order msg o)
    (hcm : env.commitFails = false)
    (hpk : (s.inventory.map (fun r => r.ID)).Nodup) :
    ∃ persisted, (CreateOrder env s req).2.orderItems = s.orderItems ++ persisted ∧
      persisted.length = req.Items.length ∧
      List.Forall₂ (fun l p =>
        p.ProductID = l.ProductID ∧ p.Quantity = l.Quantity ∧ p.OrderID = o.ID ∧
        ∃ inv, firstActiveInventory s.inventory l.ProductID = some inv ∧
          p.InventoryItemID = some inv.ID)
        req.Items persisted ∧
      firstOrder (CreateOrder env s req).2 o.ID = some o ∧
      (∀ x ∈ s.orders, x.ID < o.ID) ∧
      (∀ r ∈ s.inventory, (∀ p ∈ persisted, p.InventoryItemID ≠ some r.ID) →
        r ∈ (CreateOrder env s req).2.inventory) := by
  obtain ⟨st, tx1, tx2, hl, hco, hci, -, hstore⟩ := CreateOrder_created env s req msg o hcreated
  rw [hcm] at hstore
  simp only [Bool.false_eq_true, if_false] at hstore
  obtain ⟨newItems, hitems, hrows⟩ := processLines_item_rows env req.Items 0 _ st hl hpk
  simp only [List.nil_append] at hitems
  obtain ⟨-, hord, hoi, -⟩ := processLines_frame env req.Items 0 _ st hl
  obtain ⟨persisted, hpers, hall⟩ := createOrderItems_items env o.ID st.items 0 tx1 tx2 hci
  obtain ⟨hoi1, ho⟩ := createOrder_orderItems hco
  have hlines : List.Forall₂ (fun l p =>
      p.ProductID = l.ProductID ∧ p.Quantity = l.Quantity ∧ p.OrderID = o.ID ∧
      ∃ inv, firstActiveInventory s.inventory l.ProductID = some inv ∧
        p.InventoryItemID = some inv.ID) req.Items persisted := by
    rw [hitems] at hall
    refine (forall₂_comp hrows hall).imp ?_
    rintro l p ⟨it, ⟨h1, h2, inv, hsel, hid⟩, hpa⟩
    obtain ⟨g1, g2, g3, -, -, g6⟩ := persistedAs_fields hpa
    exact ⟨g2.trans h1, g3.trans h2, g1, inv, hsel, g6.trans hid⟩
  refine ⟨persisted, ?_, hlines.length_eq.symm, hlines,
    firstOrder_CreateOrder env s req msg o hcreated hcm, ?_, ?_⟩
  · rw [hstore, hpers, hoi1, hoi]
  · intro x hx
    rw [ho]
    simp only
    rw [hord]
    exact lt_nextID (List.mem_map_of_mem (fun o => o.ID) hx)
  · intro r hr hno
    obtain ⟨f, -, hun, hmap⟩ := processLines_touches env req.Items 0 _ st hl hpk
    rw [hstore, (createOrderItems_inventory env o.ID st.items 0 tx1 tx2 hci).1,
      (createOrder_inventory hco).1, hmap]
    have hfr : f r = r := by
      apply hun r
      intro l hlmem
      obtain ⟨p, hp, -, -, -, inv, hsel, hid⟩ := forall₂_left_mem hlines hlmem
      rw [hsel]
      simp only [Option.map_some']
      rw [← hid]
      exact hno p hp
    rw [← hfr]
    exact List.mem_map_of_mem f hr

/-- Witness for C25: the order of 7 units of product 1 on the demo store. -/
theorem CreateOrder_items_follow_lines_witness :
    (CreateOrder (quietEnv 5) demoStore (demoRequest 1 7)).1.body
      = Body.order "Order created successfully" demoOrder ∧
    (demoStore.inventory.map (fun r => r.ID)).Nodup ∧
    ∃ persisted,
      (CreateOrder (quietEnv 5) demoStore (demoRequest 1 7)).2.orderItems
        = demoStore.orderItems ++ persisted ∧
      persisted.length = (demoRequest 1 7).Items.length :=
  ⟨by decide, by decide,
    (CreateOrder_items_follow_lines (quietEnv 5) demoStore (demoRequest 1 7)
      "Order created successfully" demoOrder (by decide) rfl (by decide)).imp
      (fun _ h => ⟨h.1, h.2.1⟩)⟩


/-! ## Success exactly when every line passes -/

/-- A call that answers 201 has taken every line through the loop. -/
theorem CreateOrder_created_lines {F : Type} [Float64 F] (env : Env) (s : Store F)
    (req : CreateOrderRequest) (h : (CreateOrder env s req).1.status = StatusCreated) :
    ∃ st, processLines env 0 { tx := s, totalAmount := Float64.zero, items := [] } req.Items
      = Except.ok st := by
  cases hl : processLines env 0 { tx := s, totalAmount := Float64.zero, items := [] }
      req.Items with
  | ok st => exact ⟨st, rfl⟩
  | error resp =>
    exfalso
    unfold CreateOrder at h
    cases hb : env.bindError req with
    | some err =>
      rw [hb] at h
      exact badRequest_ne_created h
    | none =>
      rw [hb] at h
      simp only [hl] at h
      exact processLines_error_status env _ _ _ _ hl h

/-- When every line went through the loop and no insert fails, the call answers 201, whether
or not the commit goes through. -/
theorem CreateOrder_status_of_lines {F : Type} [Float64 F] (env : Env) (s : Store F)
    (req : CreateOrderRequest) (st : LineState F)
    (hb : env.bindError req = none)
    (hl : processLines env 0 { tx := s, totalAmount := Float64.zero, items := [] } req.Items
      = Except.ok st)
    (hnum : ∀ o ∈ s.orders, o.OrderNumber ≠ "")
    (hco : env.createOrderFails = false)
    (hci : ∀ k, env.createOrderItemFails k = false) :
    (CreateOrder env s req).1.status = StatusCreated := by
  obtain ⟨-, ho, -, -⟩ := processLines_frame env req.Items 0 _ st hl
  have hany : st.tx.orders.any
      (fun o => decide (o.OrderNumber = (newOrder env req : Order F).OrderNumber)) = false := by
    rw [ho]
    simp only [newOrder, List.any_eq_false, decide_eq_true_eq]
    intro o ho1
    exact hnum o ho1
  unfold CreateOrder
  simp only [hb, hl]
  unfold createOrder
  simp only [hany, hco, Bool.or_false, Bool.false_eq_true, if_false]
  obtain ⟨tx2, htx2⟩ := createOrderItems_isSome env
    (nextID (st.tx.orders.map (fun o => o.ID))) st.items 0
    { st.tx with orders := st.tx.orders ++
      [{ newOrder env req with
          TotalAmount := st.totalAmount, FinalAmount := st.totalAmount,
          ID := nextID (st.tx.orders.map (fun o => o.ID)) }] }
    (fun k _ => hci (0 + k))
  simp only [htx2]

/-- One passing line, on a ledger that satisfies the invariant with unique primary keys: the
selected row gains the quantity of the line, nothing else changes. -/
theorem processLine_inventory {F : Type} [Float64 F] {env : Env} {i : Nat} {st st1 : LineState F}
    {l : OrderItemRequest} (h : processLine env i st l = Except.ok st1)
    (hinv : ledgerOK st.tx.inventory) (hpk : (st.tx.inventory.map (fun r => r.ID)).Nodup)
    (hq : 0 ≤ l.Quantity) :
    ∃ inv, firstActiveInventory st.tx.inventory l.ProductID = some inv ∧
      st1.tx.inventory = st.tx.inventory.map
        (addReserved (fun id => if id = inv.ID then l.Quantity else 0)) ∧
      st1.tx.products = st.tx.products := by
  obtain ⟨product, inv, -, hi, hc, -, hst1⟩ := processLine_ok h
  obtain ⟨hmem, -, -, hdel⟩ := firstActiveInventory_spec hi
  obtain ⟨h0, h1, h2⟩ := hinv inv hmem
  obtain ⟨hw, -⟩ := reserve_no_wrap h0 h1 h2 hq hc
  refine ⟨inv, hi, ?_, ?_⟩
  · rw [hst1]
    simp only [hw]
    exact saveInventory_eq_map st.tx inv l.Quantity hmem hdel hpk
  · rw [hst1]
    rfl

/-- The stock check of a line, on a row satisfying the invariant, is the comparison of the
requested quantity with quantity minus reserved: no wrap-around occurs. -/
theorem check_no_wrap {Q R q : Int} (h0 : 0 ≤ R) (h1 : R ≤ Q) (h2 : Q ≤ maxInt) :
    ¬ wrapInt (Q - R) < q ↔ q ≤ Q - R := by
  unfold wrapInt maxInt at *
  omega

/-- A line goes through the loop body exactly when it passes on the current transaction. -/
theorem processLine_ok_iff {F : Type} [Float64 F] (env : Env) (i : Nat) (st : LineState F)
    (l : OrderItemRequest) (hinv : ledgerOK st.tx.inventory)
    (hsave : env.saveInventoryFails i = false) :
    (∃ st1, processLine env i st l = Except.ok st1) ↔ linePasses st.tx [] l := by
  constructor
  · rintro ⟨st1, h⟩
    obtain ⟨product, inv, hp, hi, hc, -, -⟩ := processLine_ok h
    obtain ⟨h0, h1, h2⟩ := hinv inv (firstActiveInventory_spec hi).1
    refine ⟨product, inv, hp, hi, ?_⟩
    rw [reservedFor_nil, add_zero]
    exact (check_no_wrap h0 h1 h2).1 hc
  · rintro ⟨product, inv, hp, hi, hle⟩
    obtain ⟨h0, h1, h2⟩ := hinv inv (firstActiveInventory_spec hi).1
    rw [reservedFor_nil, add_zero] at hle
    have hc : ¬ wrapInt (inv.Quantity - inv.Reserved) < l.Quantity :=
      (check_no_wrap h0 h1 h2).2 hle
    unfold processLine
    simp only [hp, firstProduct_ID hp, hi, hc, if_false, hsave, Bool.false_eq_true]
    exact ⟨_, rfl⟩

/-- Passing after a line went through the loop body is passing after that line in the
request. -/
theorem linePasses_step {F : Type} (tx tx2 : Store F) (l : OrderItemRequest)
    (inv : InventoryItem) (hsel : firstActiveInventory tx.inventory l.ProductID = some inv)
    (hinv2 : tx2.inventory = tx.inventory.map
      (addReserved (fun id => if id = inv.ID then l.Quantity else 0)))
    (hprods : tx2.products = tx.products) (pre : List OrderItemRequest)
    (l1 : OrderItemRequest) :
    linePasses tx2 pre l1 ↔ linePasses tx (l :: pre) l1 := by
  have key : ∀ y : InventoryItem,
      y.Reserved + (if y.ID = inv.ID then l.Quantity else 0)
          + reservedFor tx.inventory pre y.ID
        = y.Reserved + reservedFor tx.inventory (l :: pre) y.ID := by
    intro y
    rw [reservedFor_cons, hsel]
    simp only [Option.map_some', Option.some.injEq]
    by_cases hx : y.ID = inv.ID
    · rw [if_pos hx, if_pos hx.symm]
      omega
    · have hy : ¬ inv.ID = y.ID := fun hy => hx hy.symm
      rw [if_neg hx, if_neg hy]
      omega
  unfold linePasses
  rw [firstProduct_congr hprods, hinv2, firstActiveInventory_addReserved]
  constructor
  · rintro ⟨product, inv2, hp, hsel2, hle⟩
    cases hy : firstActiveInventory tx.inventory l1.ProductID with
    | none => rw [hy] at hsel2; simp at hsel2
    | some y =>
      rw [hy] at hsel2
      simp only [Option.map_some', Option.some.injEq] at hsel2
      subst hsel2
      rw [reservedFor_addReserved] at hle
      simp only [addReserved] at hle
      refine ⟨product, y, hp, rfl, ?_⟩
      rw [← key y]
      exact hle
  · rintro ⟨product, y, hp, hy, hle⟩
    refine ⟨product, addReserved (fun id => if id = inv.ID then l.Quantity else 0) y, hp,
      by rw [hy]; rfl, ?_⟩
    rw [reservedFor_addReserved]
    simp only [addReserved]
    rw [key y]
    exact hle

/-- The loop runs through exactly when every line passes in sequence. -/
theorem processLines_ok_iff {F : Type} [Float64 F] (env : Env)
    (hsave : ∀ k, env.saveInventoryFails k = false) :
    ∀ (lines : List OrderItemRequest) (i : Nat) (st : LineState F),
      ledgerOK st.tx.inventory → (st.tx.inventory.map (fun r => r.ID)).Nodup →
      (∀ l ∈ lines, 0 ≤ l.Quantity) →
      ((∃ st1, processLines env i st lines = Except.ok st1) ↔ allLinesPass st.tx lines)
  | [], i, st, _, _, _ => by
    constructor
    · intro _ pre l post hsplit
      simp at hsplit
    · intro _
      exact ⟨st, rfl⟩
  | l :: rest, i, st, hinv, hpk, hq => by
    have hq0 : 0 ≤ l.Quantity := hq l (List.mem_cons_self _ _)
    have hqrest : ∀ l1 ∈ rest, 0 ≤ l1.Quantity := fun l1 h1 => hq l1 (List.mem_cons_of_mem _ h1)
    have hstep : ∀ st2, processLine env i st l = Except.ok st2 →
        ((∃ st1, processLines env (i + 1) st2 rest = Except.ok st1) ↔ allLinesPass st2.tx rest) ∧
        ∀ pre l1, linePasses st2.tx pre l1 ↔ linePasses st.tx (l :: pre) l1 := by
      intro st2 hl
      obtain ⟨inv, hsel, hinv2, hprods⟩ := processLine_inventory hl hinv hpk hq0
      have hpk2 : (st2.tx.inventory.map (fun r => r.ID)).Nodup := by
        rw [hinv2, map_ID_addReserved]
        exact hpk
      exact ⟨processLines_ok_iff env hsave rest (i + 1) st2 (processLine_ledgerOK hl hinv hq0)
        hpk2 hqrest, linePasses_step st.tx st2.tx l inv hsel hinv2 hprods⟩
    constructor
    · rintro ⟨st1, h⟩
      simp only [processLines] at h
      cases hl : processLine env i st l with
      | error resp => rw [hl] at h; simp at h
      | ok st2 =>
        rw [hl] at h
        obtain ⟨hiff, hconv⟩ := hstep st2 hl
        have hrest : allLinesPass st2.tx rest := hiff.1 ⟨st1, h⟩
        intro pre l1 post hsplit
        cases pre with
        | nil =>
          simp only [List.nil_append, List.cons.injEq] at hsplit
          rw [← hsplit.1]
          exact (processLine_ok_iff env i st l hinv (hsave i)).1 ⟨st2, hl⟩
        | cons a pre1 =>
          simp only [List.cons_append, List.cons.injEq] at hsplit
          rw [← hsplit.1]
          exact (hconv pre1 l1).1 (hrest pre1 l1 post hsplit.2)
    · intro hall
      obtain ⟨st2, hl⟩ := (processLine_ok_iff env i st l hinv (hsave i)).2
        (hall [] l rest rfl)
      obtain ⟨hiff, hconv⟩ := hstep st2 hl
      have hrest : allLinesPass st2.tx rest := by
        intro pre l1 post hsplit
        refine (hconv pre l1).2 (hall (l :: pre) l1 post ?_)
        rw [hsplit]
        rfl
      obtain ⟨st1, h1⟩ := hiff.2 hrest
      refine ⟨st1, ?_⟩
      simp only [processLines, hl]
      exact h1

/-- C24: `CreateOrder` succeeds if and only if every line passes in sequence.  For a valid
request (the validator accepts it, every quantity is at least 1) on a store that satisfies the
ledger invariant with Go `int` columns and unique inventory ids, and when no store write fails
(no `Save` or `Create` reports an error, no stored order has the empty order number): the call
answers 201 exactly when, in request order, each line's product exists, the product has an
active inventory row, and that row's quantity minus its reserved count, the reservations of the
earlier lines of the same request included, is at least the line's quantity.  So a request of
two lines for one product succeeds exactly when the product exists and the two quantities
together fit the available stock of its row. -/
theorem CreateOrder_succeeds_iff_lines_pass {F : Type} [Float64 F] (env : Env) (s : Store F)
    (req : CreateOrderRequest)
    (hb : env.bindError req = none)
    (hsave : ∀ k, env.saveInventoryFails k = false)
    (hco : env.createOrderFails = false)
    (hci : ∀ k, env.createOrderItemFails k = false)
    (hnum : ∀ o ∈ s.orders, o.OrderNumber ≠ "")
    (hinv : ledgerInvariant s.inventory) (hint : intColumns s.inventory)
    (hpk : (s.inventory.map (fun r => r.ID)).Nodup)
    (hq : ∀ l ∈ req.Items, 1 ≤ l.Quantity) :
    ((CreateOrder env s req).1.status = StatusCreated ↔ allLinesPass s req.Items) ∧
    (∀ (p : Nat) (q1 q2 : Int) (inv : InventoryItem),
      req.Items = [{ ProductID := p, Quantity := q1 }, { ProductID := p, Quantity := q2 }] →
      firstActiveInventory s.inventory p = some inv →
      ((CreateOrder env s req).1.status = StatusCreated ↔
        firstProduct s p ≠ none ∧ q1 + q2 ≤ inv.Quantity - inv.Reserved)) := by
  have hiff : (CreateOrder env s req).1.status = StatusCreated ↔ allLinesPass s req.Items := by
    have hloop := processLines_ok_iff env hsave req.Items 0
      { tx := s, totalAmount := (Float64.zero : F), items := [] }
      ((ledgerOK_iff _ hint).2 hinv) hpk (fun l hl => by have := hq l hl; omega)
    constructor
    · intro h
      exact hloop.1 (CreateOrder_created_lines env s req h)
    · intro h
      obtain ⟨st, hst⟩ := hloop.2 h
      exact CreateOrder_status_of_lines env s req st hb hst hnum hco hci
  refine ⟨hiff, ?_⟩
  intro p q1 q2 inv hitems hsel
  rw [hiff, hitems]
  have hq1 : 1 ≤ q1 := by
    have := hq { ProductID := p, Quantity := q1 } (by rw [hitems]; simp)
    exact this
  have hq2 : 1 ≤ q2 := by
    have := hq { ProductID := p, Quantity := q2 } (by rw [hitems]; simp)
    exact this
  have hres : reservedFor s.inventory [{ ProductID := p, Quantity := q1 }] inv.ID = q1 := by
    rw [reservedFor_cons, reservedFor_nil, hsel]
    simp
  constructor
  · intro hall
    obtain ⟨product, inv1, hp, hsel1, hle⟩ := hall [{ ProductID := p, Quantity := q1 }]
      { ProductID := p, Quantity := q2 } [] rfl
    simp only at hp hsel1 hle
    rw [hsel] at hsel1
    simp only [Option.some.injEq] at hsel1
    subst hsel1
    rw [hres] at hle
    refine ⟨by rw [hp]; simp, ?_⟩
    omega
  · rintro ⟨hp, hle⟩ pre l post hsplit
    cases hprod : firstProduct s p with
    | none => exact absurd hprod hp
    | some product =>
      cases pre with
      | nil =>
        simp only [List.nil_append, List.cons.injEq] at hsplit
        rw [← hsplit.1]
        refine ⟨product, inv, hprod, hsel, ?_⟩
        rw [reservedFor_nil]
        simp only
        omega
      | cons a pre1 =>
        cases pre1 with
        | nil =>
          simp only [List.cons_append, List.nil_append, List.cons.injEq] at hsplit
          rw [← hsplit.1, ← hsplit.2.1]
          refine ⟨product, inv, hprod, hsel, ?_⟩
          rw [hres]
          simp only
          omega
        | cons b pre2 =>
          simp at hsplit

/-- Witness for C24: two lines for product 1 (4 and 6 of the 10 units) on the demo store. -/
theorem CreateOrder_succeeds_iff_lines_pass_witness :
    ledgerInvariant demoStore.inventory ∧ intColumns demoStore.inventory ∧
    (demoStore.inventory.map (fun r => r.ID)).Nodup ∧
    (CreateOrder (quietEnv 5) demoStore (demoRequestOf
      [{ ProductID := 1, Quantity := 4 }, { ProductID := 1, Quantity := 6 }])).1.status
        = StatusCreated ∧
    allLinesPass demoStore
      [{ ProductID := 1, Quantity := 4 }, { ProductID := 1, Quantity := 6 }] := by
  have h1 : ledgerInvariant demoStore.inventory := by
    intro r hr
    simp [demoStore, demoStoreWith] at hr
    subst hr
    decide
  have h2 : intColumns demoStore.inventory := by
    intro r hr
    simp [demoStore, demoStoreWith] at hr
    subst hr
    unfold isInt
    decide
  have h3 : ∀ l ∈ (demoRequestOf [{ ProductID := 1, Quantity := 4 },
      { ProductID := 1, Quantity := 6 }]).Items, 1 ≤ l.Quantity := by
    intro l hl
    simp [demoRequestOf] at hl
    rcases hl with hl | hl <;> subst hl <;> decide
  exact ⟨h1, h2, by decide, by decide,
    (CreateOrder_succeeds_iff_lines_pass (quietEnv 5) demoStore
      (demoRequestOf [{ ProductID := 1, Quantity := 4 }, { ProductID := 1, Quantity := 6 }])
      rfl (fun _ => rfl) rfl (fun _ => rfl) (by intro o ho; simp [demoStore, demoStoreWith] at ho)
      h1 h2 (by decide) h3).1.1 (by decide)⟩


/-! ## Purchase-order lines -/

theorem processPOLines_error_status {F : Type} [Float64 F] (tx : Store F) :
    ∀ (lines : List (POItemRequest F)) (st : POLineState F) (resp : Response F),
      processPOLines tx st lines = Except.error resp → resp.status ≠ StatusCreated
  | [], st, resp, h => by simp [processPOLines] at h
  | l :: rest, st, resp, h => by
    simp only [processPOLines, processPOLine] at h
    cases hp : firstProduct tx l.ProductID with
    | none =>
      rw [hp] at h
      simp only [Except.error.injEq] at h
      rw [← h]
      exact badRequest_ne_created
    | some product =>
      rw [hp] at h
      exact processPOLines_error_status tx rest _ resp h

/-- The lines collected by the loop of `CreatePurchaseOrder`: one per request line, with the
requested product and quantity, nothing received, status `pending`. -/
theorem processPOLines_items {F : Type} [Float64 F] (tx : Store F) :
    ∀ (lines : List (POItemRequest F)) (st st1 : POLineState F),
      processPOLines tx st lines = Except.ok st1 →
      ∃ newItems, st1.items = st.items ++ newItems ∧
        List.Forall₂ (fun l it =>
          it.ProductID = l.ProductID ∧ it.Quantity = l.Quantity ∧
          it.ReceivedQuantity = 0 ∧ it.Status = "pending") lines newItems
  | [], st, st1, h => by
    simp [processPOLines] at h
    rw [← h]
    exact ⟨[], by simp, List.Forall₂.nil⟩
  | l :: rest, st, st1, h => by
    simp only [processPOLines, processPOLine] at h
    cases hp : firstProduct tx l.ProductID with
    | none => rw [hp] at h; simp at h
    | some product =>
      rw [hp] at h
      obtain ⟨newItems, hitems, hall⟩ := processPOLines_items tx rest _ st1 h
      refine ⟨newPOItem product l :: newItems, ?_, ?_⟩
      · rw [hitems]
        simp
      · exact List.Forall₂.cons ⟨firstProduct_ID hp, rfl, rfl, rfl⟩ hall

/-- The rows inserted by the loop over `items` of `CreatePurchaseOrder`: one per item,
appended to the table, received quantity and (non-empty) status as in the item; no other table
changes. -/
theorem createPOItems_items {F : Type} (env : Env) (poID : Nat) :
    ∀ (items : List (POItem F)) (i : Nat) (tx tx2 : Store F),
      createPOItems env poID i tx items = some tx2 →
      (∃ persisted, tx2.poItems = tx.poItems ++ persisted ∧
        List.Forall₂ (fun it p =>
          p.POID = poID ∧ p.ProductID = it.ProductID ∧ p.Quantity = it.Quantity ∧
          p.ReceivedQuantity = it.ReceivedQuantity ∧
          p.Status = (if it.Status = "" then "pending" else it.Status)) items persisted) ∧
      tx2.inventory = tx.inventory ∧ tx2.purchaseOrders = tx.purchaseOrders
  | [], i, tx, tx2, h => by
    simp [createPOItems] at h
    rw [← h]
    exact ⟨⟨[], by simp, List.Forall₂.nil⟩, rfl, rfl⟩
  | item :: rest, i, tx, tx2, h => by
    simp only [createPOItems] at h
    split at h
    · simp at h
    · obtain ⟨⟨persisted, hp, hall⟩, hinv, hpo⟩ :=
        createPOItems_items env poID rest (i + 1) _ tx2 h
      refine ⟨⟨{ item with
          POID := poID, ID := nextID (tx.poItems.map (fun o => o.ID)),
          Status := if item.Status = "" then "pending" else item.Status } :: persisted,
        ?_, List.Forall₂.cons ⟨rfl, rfl, rfl, rfl, rfl⟩ hall⟩,
        hinv.trans rfl, hpo.trans rfl⟩
      rw [hp]
      simp only [createPOItem, List.append_assoc, List.singleton_append]

theorem createPurchaseOrder_frame {F : Type} {env : Env} {tx tx1 : Store F}
    {po po1 : PurchaseOrder F} (h : createPurchaseOrder env tx po = some (tx1, po1)) :
    tx1.poItems = tx.poItems ∧ tx1.inventory = tx.inventory := by
  unfold createPurchaseOrder at h
  split at h
  · simp at h
  · simp only [Option.some.injEq, Prod.mk.injEq] at h
    rw [← h.1]
    exact ⟨rfl, rfl⟩

/-- The store left by `CreatePurchaseOrder`: either the store it found (and then the answer is
not 201, or the commit failed), or the answer is 201, the commit went through and the loops
ran to their end. -/
theorem CreatePurchaseOrder_cases {F : Type} [Float64 F] (env : Env) (s : Store F)
    (req : CreatePurchaseOrderRequest F) :
    ((CreatePurchaseOrder env s req).2 = s ∧
      ((CreatePurchaseOrder env s req).1.status ≠ StatusCreated ∨ env.commitFails = true)) ∨
    ∃ st tx1 po tx2,
      processPOLines s { totalAmount := Float64.zero, items := [] } req.Items = Except.ok st ∧
      createPurchaseOrder env s
        { newPurchaseOrder env req with
          TotalAmount := st.totalAmount, FinalAmount := st.totalAmount } = some (tx1, po) ∧
      createPOItems env po.ID 0 tx1 st.items = some tx2 ∧
      (CreatePurchaseOrder env s req).2 = tx2 ∧
      (CreatePurchaseOrder env s req).1.status = StatusCreated := by
  unfold CreatePurchaseOrder
  cases hb : env.bindPurchaseOrderError with
  | some err => exact Or.inl ⟨rfl, Or.inl badRequest_ne_created⟩
  | none =>
    simp only
    cases hl : processPOLines s { totalAmount := Float64.zero, items := [] } req.Items with
    | error resp => exact Or.inl ⟨rfl, Or.inl (processPOLines_error_status s _ _ _ hl)⟩
    | ok st =>
      simp only
      cases hc : createPurchaseOrder env s
          { newPurchaseOrder env req with
            TotalAmount := st.totalAmount, FinalAmount := st.totalAmount } with
      | none => exact Or.inl ⟨rfl, Or.inl internalServerError_ne_created⟩
      | some p =>
        obtain ⟨tx1, po1⟩ := p
        simp only
        cases hi : createPOItems env po1.ID 0 tx1 st.items with
        | none => exact Or.inl ⟨rfl, Or.inl internalServerError_ne_created⟩
        | some tx2 =>
          simp only
          cases hcm : env.commitFails with
          | true => exact Or.inl ⟨rfl, Or.inr rfl⟩
          | false =>
            refine Or.inr ⟨st, tx1, po1, tx2, rfl, hc, hi, ?_, ?_⟩
            · simp only [Bool.false_eq_true, if_false]
            · first | rfl | trivial

/-- What `CreatePurchaseOrder` does to the line table and the inventory: lines are appended,
each with nothing received and status `pending` and, after a committed 201, one per request
line with the requested product and quantity; the inventory is as before. -/
theorem CreatePurchaseOrder_lines {F : Type} [Float64 F] (env : Env) (s : Store F)
    (req : CreatePurchaseOrderRequest F) :
    (∃ persisted, (CreatePurchaseOrder env s req).2.poItems = s.poItems ++ persisted ∧
      (∀ p ∈ persisted, p.ReceivedQuantity = 0 ∧ p.Status = "pending" ∧
        ∃ l ∈ req.Items, p.Quantity = l.Quantity) ∧
      ((CreatePurchaseOrder env s req).1.status = StatusCreated → env.commitFails = false →
        List.Forall₂ (fun l p => p.ProductID = l.ProductID ∧ p.Quantity = l.Quantity)
          req.Items persisted)) ∧
    (CreatePurchaseOrder env s req).2.inventory = s.inventory := by
  rcases CreatePurchaseOrder_cases env s req with ⟨hs, hno⟩ | ⟨st, tx1, po, tx2, hl, hc, hi, hs, -⟩
  · rw [hs]
    refine ⟨⟨[], by simp, by simp, ?_⟩, rfl⟩
    intro h1 h2
    rcases hno with hno | hno
    · exact absurd h1 hno
    · rw [h2] at hno
      simp at hno
  · obtain ⟨newItems, hitems, hrows⟩ := processPOLines_items s req.Items _ st hl
    simp only [List.nil_append] at hitems
    obtain ⟨⟨persisted, hp, hall⟩, hinv, -⟩ := createPOItems_items env po.ID st.items 0 tx1 tx2 hi
    obtain ⟨hf1, hf2⟩ := createPurchaseOrder_frame hc
    rw [hitems] at hall
    have hboth := forall₂_comp hrows hall
    rw [hs]
    refine ⟨⟨persisted, by rw [hp, hf1], ?_, ?_⟩, by rw [hinv, hf2]⟩
    · intro p hpmem
      obtain ⟨l, hlmem, it, ⟨-, g2, g3, g4⟩, ⟨-, -, k3, k4, k5⟩⟩ := forall₂_right_mem hboth hpmem
      refine ⟨k4.trans g3, ?_, l, hlmem, k3.trans g2⟩
      rw [k5, g4]
      rfl
    · intro _ _
      refine hboth.imp ?_
      rintro l p ⟨it, ⟨g1, g2, -, -⟩, ⟨-, k2, k3, -, -⟩⟩
      exact ⟨k2.trans g1, k3.trans g2⟩

/-- C21: the purchase-order line invariant.  For a request whose quantities are at least 1,
every line that `CreatePurchaseOrder` persists has received quantity 0 and status `pending` and
satisfies `0 <= receivedQuantity <= quantity`; after a committed 201 the persisted lines are
the request lines in order.  So `CreatePurchaseOrder` preserves the invariant
`0 <= receivedQuantity <= quantity` of the line table, and `UpdatePurchaseOrder` preserves it
for every request. -/
theorem CreatePurchaseOrder_line_invariant {F : Type} [Float64 F] (env : Env) (s : Store F)
    (req : CreatePurchaseOrderRequest F) (hq : ∀ l ∈ req.Items, 1 ≤ l.Quantity) :
    (∃ persisted, (CreatePurchaseOrder env s req).2.poItems = s.poItems ++ persisted ∧
      (∀ p ∈ persisted, p.ReceivedQuantity = 0 ∧ p.Status = "pending" ∧
        0 ≤ p.ReceivedQuantity ∧ p.ReceivedQuantity ≤ p.Quantity) ∧
      ((CreatePurchaseOrder env s req).1.status = StatusCreated → env.commitFails = false →
        List.Forall₂ (fun l p => p.ProductID = l.ProductID ∧ p.Quantity = l.Quantity)
          req.Items persisted)) ∧
    (poLineInvariant s.poItems → poLineInvariant (CreatePurchaseOrder env s req).2.poItems) ∧
    (∀ (env1 : Env) (id : Nat) (ureq : UpdatePurchaseOrderRequest),
      poLineInvariant s.poItems →
      poLineInvariant (UpdatePurchaseOrder env1 s id ureq).2.poItems) := by
  obtain ⟨⟨persisted, hp, hrows, hall⟩, -⟩ := CreatePurchaseOrder_lines env s req
  have hnew : ∀ p ∈ persisted, p.ReceivedQuantity = 0 ∧ p.Status = "pending" ∧
      0 ≤ p.ReceivedQuantity ∧ p.ReceivedQuantity ≤ p.Quantity := by
    intro p hpmem
    obtain ⟨h0, h1, l, hl, hql⟩ := hrows p hpmem
    have := hq l hl
    refine ⟨h0, h1, ?_, ?_⟩
    · rw [h0]
    · rw [h0, hql]
      omega
  refine ⟨⟨persisted, hp, hnew, hall⟩, ?_, ?_⟩
  · intro hinv r hr
    rw [hp] at hr
    rcases List.mem_append.1 hr with hr | hr
    · exact hinv r hr
    · exact (hnew r hr).2.2
  · intro env1 id ureq hinv
    rw [(UpdatePurchaseOrder_frame env1 s id ureq).1]
    exact hinv

/-- Witness for C21: the demo request (5 units of product 1) on the demo store. -/
theorem CreatePurchaseOrder_line_invariant_witness :
    (∀ l ∈ demoPORequest.Items, 1 ≤ l.Quantity) ∧
    (CreatePurchaseOrder (quietEnv 5) demoStore demoPORequest).1.status = StatusCreated ∧
    (CreatePurchaseOrder (quietEnv 5) demoStore demoPORequest).2.poItems.map
      (fun p => (p.Quantity, p.ReceivedQuantity, p.Status)) = [(5, 0, "pending")] ∧
    (poLineInvariant demoStore.poItems →
      poLineInvariant (CreatePurchaseOrder (quietEnv 5) demoStore demoPORequest).2.poItems) :=
  ⟨by decide, by decide, by decide,
    (CreatePurchaseOrder_line_invariant (quietEnv 5) demoStore demoPORequest (by decide)).2.1⟩

/-! ## No receipt is recorded -/

/-- C22, a counterexample: the demo purchase order has one line of 5 units, none received,
status `pending`, and the inventory row of its product holds 10 units.  The requests that
`UpdatePurchaseOrder` accepts carry no quantity; after moving the purchase order to `SHIPPED`
and then to `RECEIVED` (both answered 200) the line still reads 5 ordered, 0 received,
`pending` - never `partial` or `complete` - and the inventory row still holds 10 units. -/
theorem UpdatePurchaseOrder_records_no_receipt :
    (demoPOStore POStatusOrdered).poItems.map
      (fun p => (p.Quantity, p.ReceivedQuantity, p.Status)) = [(5, 0, "pending")] ∧
    (demoPOStore POStatusOrdered).inventory.map (fun r => r.Quantity) = [10] ∧
    (UpdatePurchaseOrder (quietEnv 8) (demoPOStore POStatusOrdered) 1
      (poStatusRequest POStatusShipped)).1.status = StatusOK ∧
    (UpdatePurchaseOrder (quietEnv 9)
      (UpdatePurchaseOrder (quietEnv 8) (demoPOStore POStatusOrdered) 1
        (poStatusRequest POStatusShipped)).2 1
      (poStatusRequest POStatusReceived)).1.status = StatusOK ∧
    (UpdatePurchaseOrder (quietEnv 9)
      (UpdatePurchaseOrder (quietEnv 8) (demoPOStore POStatusOrdered) 1
        (poStatusRequest POStatusShipped)).2 1
      (poStatusRequest POStatusReceived)).2.poItems.map
        (fun p => (p.Quantity, p.ReceivedQuantity, p.Status)) = [(5, 0, "pending")] ∧
    (UpdatePurchaseOrder (quietEnv 9)
      (UpdatePurchaseOrder (quietEnv 8) (demoPOStore POStatusOrdered) 1
        (poStatusRequest POStatusShipped)).2 1
      (poStatusRequest POStatusReceived)).2.inventory.map (fun r => r.Quantity) = [10] := by
  decide

/-- C22, amended: the purchase-order handlers record no receipt.  For every store and every
request, `UpdatePurchaseOrder` leaves every purchase-order line (received quantity and status
included) and every inventory row as they were, and `CreatePurchaseOrder` leaves the existing
lines and the inventory as they were and only appends lines with received quantity 0 and status
`pending`. -/
theorem PurchaseOrder_handlers_record_no_receipt {F : Type} [Float64 F] (env : Env)
    (s : Store F) :
    (∀ (id : Nat) (req : UpdatePurchaseOrderRequest),
      (UpdatePurchaseOrder env s id req).2.poItems = s.poItems ∧
      (UpdatePurchaseOrder env s id req).2.inventory = s.inventory) ∧
    (∀ req : CreatePurchaseOrderRequest F,
      (CreatePurchaseOrder env s req).2.inventory = s.inventory ∧
      ∃ persisted, (CreatePurchaseOrder env s req).2.poItems = s.poItems ++ persisted ∧
        ∀ p ∈ persisted, p.ReceivedQuantity = 0 ∧ p.Status = "pending") := by
  refine ⟨fun id req => UpdatePurchaseOrder_frame env s id req, ?_⟩
  intro req
  obtain ⟨⟨persisted, hp, hrows, -⟩, hinv⟩ := CreatePurchaseOrder_lines env s req
  exact ⟨hinv, persisted, hp, fun p hpmem => ⟨(hrows p hpmem).1, (hrows p hpmem).2.1⟩⟩


/-- Witness for C22: the demo purchase order, moved to `RECEIVED`, and the demo request on the
same store. -/
theorem PurchaseOrder_handlers_record_no_receipt_witness :
    ((UpdatePurchaseOrder (quietEnv 9) (demoPOStore POStatusShipped) 1
        (poStatusRequest POStatusReceived)).2.poItems = (demoPOStore POStatusShipped).poItems ∧
      (UpdatePurchaseOrder (quietEnv 9) (demoPOStore POStatusShipped) 1
        (poStatusRequest POStatusReceived)).2.inventory
        = (demoPOStore POStatusShipped).inventory) ∧
    (CreatePurchaseOrder (quietEnv 9) (demoPOStore POStatusShipped) demoPORequest).2.inventory
      = (demoPOStore POStatusShipped).inventory :=
  ⟨(PurchaseOrder_handlers_record_no_receipt (quietEnv 9) (demoPOStore POStatusShipped)).1 1
      (poStatusRequest POStatusReceived),
    ((PurchaseOrder_handlers_record_no_receipt (quietEnv 9) (demoPOStore POStatusShipped)).2
      demoPORequest).1⟩

/-! ## Contract schedules -/

theorem processContractLines_error_body {F : Type} [Float64 F] (tx : Store F) :
    ∀ (lines : List (ContractItemRequest F)) (st : ContractLineState F) (resp : Response F),
      processContractLines tx st lines = Except.error resp → ∃ msg, resp.body = Body.error msg
  | [], st, resp, h => by simp [processContractLines] at h
  | l :: rest, st, resp, h => by
    simp only [processContractLines, processContractLine] at h
    cases hp : firstProduct tx l.ProductID with
    | none =>
      rw [hp] at h
      simp only [Except.error.injEq] at h
      rw [← h]
      exact ⟨_, rfl⟩
    | some product =>
      rw [hp] at h
      exact processContractLines_error_body tx rest _ resp h

theorem createContractItems_frame {F : Type} (env : Env) (contractID : Nat) :
    ∀ (items : List (ContractItem F)) (i : Nat) (tx tx2 : Store F),
      createContractItems env contractID i tx items = some tx2 →
      tx2.contractSchedules = tx.contractSchedules ∧ tx2.contracts = tx.contracts
  | [], i, tx, tx2, h => by
    simp [createContractItems] at h
    rw [← h]
    exact ⟨rfl, rfl⟩
  | item :: rest, i, tx, tx2, h => by
    simp only [createContractItems] at h
    split at h
    · simp at h
    · obtain ⟨h1, h2⟩ := createContractItems_frame env contractID rest (i + 1) _ tx2 h
      exact ⟨h1.trans rfl, h2.trans rfl⟩

/-- How a call of `CreateContract` that answers with a contract came about. -/
theorem CreateContract_created {F : Type} [Float64 F] (env : Env) (s : Store F)
    (req : CreateContractRequest F) (msg : String) (c : Contract)
    (sch : Option ContractSchedule)
    (h : (CreateContract env s req).1.body = Body.contractWithSchedule msg c sch) :
    ∃ st tx1 tx2,
      processContractLines s { totalAmount := Float64.zero, items := [] } req.Items
        = Except.ok st ∧
      createContract env s (newContract req) (req.Schedule.map newContractSchedule)
        = some (tx1, c, sch) ∧
      createContractItems env c.ID 0 tx1 st.items = some tx2 ∧
      (CreateContract env s req).1.status = StatusCreated ∧
      (CreateContract env s req).2 = if env.commitFails then s else tx2 := by
  unfold CreateContract at h ⊢
  cases hb : env.bindContractError with
  | some err => rw [hb] at h; simp [errorResponse] at h
  | none =>
    rw [hb] at h
    simp only at h ⊢
    cases hl : processContractLines s { totalAmount := Float64.zero, items := [] }
        req.Items with
    | error resp =>
      rw [hl] at h
      obtain ⟨m, hm⟩ := processContractLines_error_body s _ _ _ hl
      simp only at h
      rw [hm] at h
      simp at h
    | ok st =>
      rw [hl] at h
      simp only at h ⊢
      cases hc : createContract env s (newContract req)
          (req.Schedule.map newContractSchedule) with
      | none => rw [hc] at h; simp [errorResponse] at h
      | some p =>
        obtain ⟨tx1, c1, sch1⟩ := p
        rw [hc] at h
        simp only at h ⊢
        cases hi : createContractItems env c1.ID 0 tx1 st.items with
        | none => rw [hi] at h; simp [errorResponse] at h
        | some tx2 =>
          rw [hi] at h
          simp only [Body.contractWithSchedule.injEq] at h
          obtain ⟨-, hc1, hs1⟩ := h
          subst hc1
          subst hs1
          exact ⟨st, tx1, tx2, rfl, rfl, hi, rfl, rfl⟩

/-- `UpdateContract` does not touch the schedule table. -/
theorem UpdateContract_schedules {F : Type} (env : Env) (s : Store F) (id : Nat)
    (req : UpdateContractRequest) :
    (UpdateContract env s id req).2.contractSchedules = s.contractSchedules := by
  unfold UpdateContract
  cases firstContract s id with
  | none => rfl
  | some c =>
    simp only
    split <;> rfl

/-- C23, a counterexample: `CreateContract` for a contract with a monthly schedule on day 31
answers 201 and stores the schedule with `DayOfMonth = 31` as requested, `LastGenerated` and
`NextGeneration` both `nil`: no next generation is computed, on day 30 or on any other day.
Activating the contract with `UpdateContract` leaves the stored schedule as it is. -/
theorem CreateContract_day_31_no_next_generation :
    (CreateContract (quietEnv 5) demoStore demoContractRequest).1
      = { status := StatusCreated
          body := Body.contractWithSchedule "Contract created successfully"
            demoCreatedContract (some demoStoredSchedule) } ∧
    (CreateContract (quietEnv 5) demoStore demoContractRequest).2.contractSchedules
      = [demoStoredSchedule] ∧
    (demoStoredSchedule.Frequency, demoStoredSchedule.DayOfMonth,
      demoStoredSchedule.LastGenerated, demoStoredSchedule.NextGeneration)
      = ("monthly", some 31, none, none) ∧
    (UpdateContract (quietEnv 6)
      (CreateContract (quietEnv 5) demoStore demoContractRequest).2 1
      (contractStatusRequest ContractStatusActive)).1.status = StatusOK ∧
    (UpdateContract (quietEnv 6)
      (CreateContract (quietEnv 5) demoStore demoContractRequest).2 1
      (contractStatusRequest ContractStatusActive)).2.contractSchedules
      = [demoStoredSchedule] := by
  decide

/-- C23, amended: a schedule is stored as requested and no next generation is computed.  For
every call of `CreateContract` that answers with a contract and whose commit went through, the
schedule table gains exactly the schedule of the request, if there is one: frequency, day of
the week, day of the month and time of day are the request's values unchanged (a day of the
month beyond the length of a month included), `LastGenerated` and `NextGeneration` are `nil`;
and no request to `UpdateContract` changes the schedule table afterwards. -/
theorem CreateContract_stores_schedule_as_requested {F : Type} [Float64 F] (env : Env)
    (s : Store F) (req : CreateContractRequest F) (msg : String) (c : Contract)
    (sch : Option ContractSchedule)
    (hcreated : (CreateContract env s req).1.body = Body.contractWithSchedule msg c sch)
    (hcm : env.commitFails = false) :
    sch = req.Schedule.map (fun r =>
      { newContractSchedule r with
        ID := nextID (s.contractSchedules.map (fun x => x.ID)), ContractID := c.ID }) ∧
    (CreateContract env s req).2.contractSchedules = s.contractSchedules ++ sch.toList ∧
    (∀ x, sch = some x → ∃ r, req.Schedule = some r ∧
      x.Frequency = r.Frequency ∧ x.DayOfWeek = r.DayOfWeek ∧ x.DayOfMonth = r.DayOfMonth ∧
      x.TimeOfDay = r.TimeOfDay ∧ x.LastGenerated = none ∧ x.NextGeneration = none) ∧
    (∀ (env1 : Env) (id : Nat) (ureq : UpdateContractRequest),
      (UpdateContract env1 (CreateContract env s req).2 id ureq).2.contractSchedules
        = (CreateContract env s req).2.contractSchedules) := by
  obtain ⟨st, tx1, tx2, -, hc, hi, -, hstore⟩ := CreateContract_created env s req msg c sch hcreated
  rw [hcm] at hstore
  simp only [Bool.false_eq_true, if_false] at hstore
  obtain ⟨hsched, -⟩ := createContractItems_frame env c.ID st.items 0 tx1 tx2 hi
  unfold createContract at hc
  split at hc
  · simp at hc
  · simp only [Option.some.injEq, Prod.mk.injEq] at hc
    obtain ⟨htx1, hc1, hsch⟩ := hc
    have hsch1 : sch = req.Schedule.map (fun r =>
        { newContractSchedule r with
          ID := nextID (s.contractSchedules.map (fun x => x.ID)), ContractID := c.ID }) := by
      rw [← hsch, ← hc1, Option.map_map]
      rfl
    refine ⟨hsch1, ?_, ?_, fun env1 id ureq => UpdateContract_schedules env1 _ id ureq⟩
    · rw [hstore, hsched, ← htx1, ← hsch]
    · intro x hx
      rw [hsch1] at hx
      cases hr : req.Schedule with
      | none => rw [hr] at hx; simp at hx
      | some r =>
        rw [hr] at hx
        simp only [Option.map_some', Option.some.injEq] at hx
        subst hx
        exact ⟨r, rfl, rfl, rfl, rfl, rfl, rfl, rfl⟩

/-- Witness for C23: the demo contract request, a monthly schedule on day 31. -/
theorem CreateContract_stores_schedule_as_requested_witness :
    (CreateContract (quietEnv 5) demoStore demoContractRequest).1.body
      = Body.contractWithSchedule "Contract created successfully" demoCreatedContract
          (some demoStoredSchedule) ∧
    (CreateContract (quietEnv 5) demoStore demoContractRequest).2.contractSchedules
      = demoStore.contractSchedules ++ (some demoStoredSchedule).toList :=
  ⟨by decide,
    (CreateContract_stores_schedule_as_requested (quietEnv 5) demoStore demoContractRequest
      "Contract created successfully" demoCreatedContract (some demoStoredSchedule)
      (by decide) rfl).2.1⟩


/-! ## `auth.RefreshToken` -/

/-- `RefreshToken` by cases on what the parser says about the old token: an expired token
stops the call with a nil pointer dereference, a token rejected for another reason yields
`ErrInvalidToken` and no token, a valid token yields a token generated from its claims. -/
theorem RefreshToken_cases (env : AuthEnv) (tok : String) :
    (env.parse tok = ParseOutcome.expired →
      ValidateToken env tok = (none, some AuthError.ErrExpiredToken) ∧
      RefreshToken env tok = Outcome.nilDereference) ∧
    (env.parse tok = ParseOutcome.failed →
      RefreshToken env tok = Outcome.returned ("", some AuthError.ErrInvalidToken)) ∧
    (∀ c, env.parse tok = ParseOutcome.parsed c false →
      RefreshToken env tok = Outcome.returned ("", some AuthError.ErrInvalidToken)) ∧
    (∀ c, env.parse tok = ParseOutcome.parsed c true →
      RefreshToken env tok
        = Outcome.returned (GenerateToken env c.UserID c.UserType c.CompanyID)) := by
  refine ⟨?_, ?_, ?_, ?_⟩
  · intro h
    simp [RefreshToken, ValidateToken, h]
  · intro h
    simp [RefreshToken, ValidateToken, h]
  · intro c h
    simp [RefreshToken, ValidateToken, h]
  · intro c h
    simp [RefreshToken, ValidateToken, h]

/-- C27, the code at the failing input: in the demo environment the string "expired" is a
well-signed token whose expiry date has passed.  `ValidateToken` answers it with a `nil` claims
pointer and `ErrExpiredToken`; `RefreshToken` lets that error through and then reads
`claims.UserID`, so the call stops with a nil pointer dereference instead of returning a new
token.  A token rejected for another reason yields `ErrInvalidToken` and no token, and a valid
token yields a new token. -/
theorem RefreshToken_expired_token_nil_dereference :
    ValidateToken demoAuthEnv "expired" = (none, some AuthError.ErrExpiredToken) ∧
    RefreshToken demoAuthEnv "expired" = Outcome.nilDereference ∧
    RefreshToken demoAuthEnv "garbage"
      = Outcome.returned ("", some AuthError.ErrInvalidToken) ∧
    RefreshToken demoAuthEnv "valid" = Outcome.returned ("fresh", none) := by
  decide

end MarketProGo
